import Mathlib

/-!
# Sanmill perfect-play database: progress and statistics reporting

A shallow embedding of `src/perfect/miniMax_statistics.cpp`.  The class `MiniMax` becomes a
record of the members the statistics code reads or writes, and every member function becomes
a function on that record.  A result of `none` stands for an execution whose behaviour the
C++ language leaves undefined (front of an empty list, an index outside an array, a null or
erased list iterator that is dereferenced).

The header `miniMax.h` is not among the sources, so the constants it defines
(`SKV_VALUE_*`, `ArrayInfo::arrayTypeCount`, `ArrayInfo::updateCounterThreshold`) and the
virtual function `shallRetroAnalysisBeUsed` are parameters of the definitions that use them.
-/

namespace Sanmill

/-! ## Data model -/

/-- Modelled from the spec: the type `TwoBit` comes from the absent header `miniMax.h`; the
spec describes a knot value as one of four values "stored in 2 bits per state". -/
abbrev TwoBit := Fin 4

/-- The four constants `SKV_VALUE_*` that index `statsValueCounter`; they are defined in the
absent header and therefore taken as parameters. -/
structure SkvValues where
  SKV_VALUE_INVALID : TwoBit
  SKV_VALUE_GAME_LOST : TwoBit
  SKV_VALUE_GAME_DRAWN : TwoBit
  SKV_VALUE_GAME_WON : TwoBit
deriving DecidableEq, Repr

/-- The four constants name four different values (they form an enumeration). -/
def SkvValues.Distinct (c : SkvValues) : Prop :=
  c.SKV_VALUE_GAME_WON ≠ c.SKV_VALUE_GAME_LOST ∧
  c.SKV_VALUE_GAME_WON ≠ c.SKV_VALUE_GAME_DRAWN ∧
  c.SKV_VALUE_GAME_WON ≠ c.SKV_VALUE_INVALID ∧
  c.SKV_VALUE_GAME_LOST ≠ c.SKV_VALUE_GAME_DRAWN ∧
  c.SKV_VALUE_GAME_LOST ≠ c.SKV_VALUE_INVALID ∧
  c.SKV_VALUE_GAME_DRAWN ≠ c.SKV_VALUE_INVALID

instance (c : SkvValues) : Decidable c.Distinct := by
  unfold SkvValues.Distinct
  infer_instance

/-- The members of `LayerStats` that the statistics code touches. -/
structure LayerStats where
  layerIsCompletedAndInFile : Bool
  knotsInLayer : Nat
  wonStateCount : Nat
  lostStateCount : Nat
  drawnStateCount : Nat
  invalidStateCount : Nat
  sizeInBytes : Nat
  succeedingLayerCount : Nat
  succeedingLayers : List Nat
  partnerLayer : Nat
deriving DecidableEq, Repr

/-- The one member of `PlyInfo` that the statistics code reads. -/
structure PlyInfo where
  sizeInBytes : Nat
deriving DecidableEq, Repr

/-- One record of `listArrays`. -/
structure ArrayInfo where
  type : Nat
  sizeInBytes : Int
  compressedSizeInBytes : Int
  belongsToLayer : Nat
  updateCounter : Nat
deriving DecidableEq, Repr

/-- A `list<ArrayInfo>::iterator`: either the past-the-end iterator or a reference to one
list node.  A node is named by the number it received when it was allocated; an iterator
whose node has been erased keeps that number and refers to no node of the list any more. -/
inductive ListIter where
  | node (id : Nat)
  | listEnd
deriving DecidableEq, Repr

/-- One `ArrayInfoChange`: `arrayInfo` is a pointer to the record inside a list node
(`none` is `nullptr`), `itemIndex` a position in `listArrays`. -/
structure ArrayInfoChange where
  arrayInfo : Option Nat
  itemIndex : Nat
deriving DecidableEq, Repr

/-- The members of `ArrayInfoContainer`.  `listArrays` is the `std::list`: its nodes in list
order, each with the number that names it; `nextNode` is the number the next allocated node
receives, so a node number is never used twice. -/
structure ArrayInfoContainer where
  listArrays : List (Nat × ArrayInfo)
  nextNode : Nat
  vectorArrays : List ListIter
  arrayInfosToBeUpdated : List ArrayInfoChange
deriving DecidableEq, Repr

/-- The members of `MiniMax` that the statistics code reads or writes.

* `layerStats`, `plyInfos`: `none` is the null pointer, otherwise the array.
* `shortKnotValues layer state`: the value `readKnotValueFromDatabase` yields for that state.
* `hFileShortKnotValues`, `userPrintFunc`: whether the handle / the callback is non-null.
* `userPrintCalls`: how often the callback `userPrintFunc` has been invoked.
* `falseOrStopCalls`: how often the hard stop `falseOrStop` has been raised. -/
structure MiniMax where
  layerStats : Option (List LayerStats)
  plyInfos : Option (List PlyInfo)
  shortKnotValues : Nat → Nat → TwoBit
  skvfHeaderLayerCount : Nat
  hFileShortKnotValues : Bool
  layerInDatabase : Bool
  lastCalculatedLayer : List Nat
  curCalculatedLayer : Nat
  curCalcActionId : Nat
  arrayInfos : ArrayInfoContainer
  userPrintFunc : Bool
  userPrintCalls : Nat
  falseOrStopCalls : Nat

/-! ## The completed-layer queue -/

/-- `MiniMax::anyFreshlyCalculatedLayer`. -/
def anyFreshlyCalculatedLayer (m : MiniMax) : Bool :=
  decide (m.lastCalculatedLayer.length > 0)

/-- `MiniMax::getLastCalculatedLayer`: `front()` followed by `pop_front()`. -/
def getLastCalculatedLayer (m : MiniMax) : Option (Nat × MiniMax) :=
  match m.lastCalculatedLayer with
  | [] => none
  | tmp :: rest => some (tmp, { m with lastCalculatedLayer := rest })

/-- Modelled from the spec: the producer side of the completed-layer queue is not among the
sources; the spec calls the queue "a FIFO of layer identifiers as they finish", so a finished
layer is appended at the back. -/
def pushLastCalculatedLayer (m : MiniMax) (layer : Nat) : MiniMax :=
  { m with lastCalculatedLayer := m.lastCalculatedLayer ++ [layer] }

/-- Appending a sequence of finished layers, one after the other. -/
def pushCalculatedLayers (m : MiniMax) (ids : List Nat) : MiniMax :=
  ids.foldl pushLastCalculatedLayer m

/-- Calling `getLastCalculatedLayer` `n` times in a row, collecting what it returns. -/
def drainCalculatedLayers : Nat → MiniMax → Option (List Nat × MiniMax)
  | 0, m => some ([], m)
  | n + 1, m =>
    match getLastCalculatedLayer m with
    | none => none
    | some (tmp, m1) =>
      match drainCalculatedLayers n m1 with
      | none => none
      | some (rest, m2) => some (tmp :: rest, m2)

/-! ## Catalog queries -/

/-- `MiniMax::isLayerInDatabase`; the state after the call is returned next to the result. -/
def isLayerInDatabase (m : MiniMax) (layerNum : Nat) : Option (Bool × MiniMax) :=
  match m.layerStats with
  | none => some (false, m)
  | some ls =>
    match ls[layerNum]? with
    | none => none
    | some l => some (l.layerIsCompletedAndInFile, m)

/-- `MiniMax::getCurCalculatedLayer`.  `layers` is the vector passed by reference; the
vector after the call is returned.  `layerStats` is only read when
`shallRetroAnalysisBeUsed` holds (short-circuit `&&`). -/
def getCurCalculatedLayer (shallRetroAnalysisBeUsed : Nat → Bool) (m : MiniMax)
    (layers : List Nat) : Option (List Nat) :=
  let resize (n : Nat) (v : List Nat) : List Nat := v.take n ++ List.replicate (n - v.length) 0
  if shallRetroAnalysisBeUsed m.curCalculatedLayer then
    match m.layerStats with
    | none => none
    | some ls =>
      match ls[m.curCalculatedLayer]? with
      | none => none
      | some l =>
        if l.partnerLayer ≠ m.curCalculatedLayer then
          some (((resize 2 layers).set 0 m.curCalculatedLayer).set 1 l.partnerLayer)
        else
          some ((resize 1 layers).set 0 m.curCalculatedLayer)
  else
    some ((resize 1 layers).set 0 m.curCalculatedLayer)

/-! ## Layer statistics -/

/-- `MiniMax::getWonStateCount`. -/
def getWonStateCount (m : MiniMax) (layerNum : Nat) : Option Nat :=
  match m.layerStats with
  | none => some 0
  | some ls => (ls[layerNum]?).map (fun l => l.wonStateCount)

/-- `MiniMax::getLostStateCount`. -/
def getLostStateCount (m : MiniMax) (layerNum : Nat) : Option Nat :=
  match m.layerStats with
  | none => some 0
  | some ls => (ls[layerNum]?).map (fun l => l.lostStateCount)

/-- `MiniMax::getDrawnStateCount`. -/
def getDrawnStateCount (m : MiniMax) (layerNum : Nat) : Option Nat :=
  match m.layerStats with
  | none => some 0
  | some ls => (ls[layerNum]?).map (fun l => l.drawnStateCount)

/-- `MiniMax::getInvalidStateCount`. -/
def getInvalidStateCount (m : MiniMax) (layerNum : Nat) : Option Nat :=
  match m.layerStats with
  | none => some 0
  | some ls => (ls[layerNum]?).map (fun l => l.invalidStateCount)

/-- The statement `statsValueCounter[curStateValue]++` on an array of four `uint32_t`. -/
def incrStatsValueCounter (statsValueCounter : TwoBit → Nat) (curStateValue : TwoBit) :
    TwoBit → Nat :=
  fun i => if i = curStateValue then (statsValueCounter i + 1) % 2 ^ 32 else statsValueCounter i

/-- The scanning loop of `showLayerStats`: `stateNumber` runs from `0` up to
`knotsInLayer - 1`, and the counter of the value read for each state is incremented.
`values stateNumber` is what `readKnotValueFromDatabase` yields. -/
def scanLayer (values : Nat → TwoBit) (knotsInLayer : Nat) : TwoBit → Nat :=
  (List.range knotsInLayer).foldl
    (fun statsValueCounter stateNumber =>
      incrStatsValueCounter statsValueCounter (values stateNumber))
    (fun _ => 0)

/-- `MiniMax::showLayerStats` (the text it prints is not modelled). -/
def showLayerStats (skv : SkvValues) (m : MiniMax) (layerNumber : Nat) : Option MiniMax :=
  match m.layerStats with
  | none => none
  | some ls =>
    match ls[layerNumber]? with
    | none => none
    | some l =>
      let statsValueCounter := scanLayer (m.shortKnotValues layerNumber) l.knotsInLayer
      some { m with
        layerStats := some (ls.set layerNumber
          { l with
            wonStateCount := statsValueCounter skv.SKV_VALUE_GAME_WON
            lostStateCount := statsValueCounter skv.SKV_VALUE_GAME_LOST
            drawnStateCount := statsValueCounter skv.SKV_VALUE_GAME_DRAWN
            invalidStateCount := statsValueCounter skv.SKV_VALUE_INVALID }) }

/-! ## The array-info container -/

/-- The record a list iterator refers to: the record of the node with that number, if the
list still has such a node. -/
def findNode (id : Nat) : List (Nat × ArrayInfo) → Option ArrayInfo
  | [] => none
  | (i, a) :: rest => if i = id then some a else findNode id rest

/-- `std::distance(listArrays.begin(), itr)` for an iterator that refers to node `id`. -/
def nodeIndex (id : Nat) : List (Nat × ArrayInfo) → Nat
  | [] => 0
  | (i, _) :: rest => if i = id then 0 else nodeIndex id rest + 1

/-- `listArrays.erase(itr)` for an iterator that refers to node `id`. -/
def eraseNode (id : Nat) : List (Nat × ArrayInfo) → List (Nat × ArrayInfo)
  | [] => []
  | (i, a) :: rest => if i = id then rest else (i, a) :: eraseNode id rest

/-- The assignment `itr->updateCounter = v` for an iterator that refers to node `id`. -/
def setUpdateCounter (id : Nat) (v : Nat) : List (Nat × ArrayInfo) → List (Nat × ArrayInfo)
  | [] => []
  | (i, a) :: rest =>
    if i = id then (i, { a with updateCounter := v }) :: rest
    else (i, a) :: setUpdateCounter id v rest

/-- The index expression `layerNumber * ArrayInfo::arrayTypeCount + type`, evaluated in
`uint32_t`. -/
def slotIndex (arrayTypeCount layerNumber type : Nat) : Nat :=
  (layerNumber * arrayTypeCount + type) % 2 ^ 32

/-- The statement `if (c->userPrintFunc != nullptr) c->userPrintFunc(c->pDataForUserPrintFunc)`.
The callback belongs to the user interface; only the fact that it was invoked is recorded. -/
def updateGui (m : MiniMax) : MiniMax :=
  if m.userPrintFunc then { m with userPrintCalls := m.userPrintCalls + 1 } else m

/-- Modelled from the spec: `falseOrStop` is defined outside the sources; the spec calls it
"a hard stop rather than a recoverable error".  Raising it is recorded in
`falseOrStopCalls`. -/
def falseOrStop (m : MiniMax) : MiniMax :=
  { m with falseOrStopCalls := m.falseOrStopCalls + 1 }

/-- `MiniMax::ArrayInfoContainer::addArray`.  The write to `vectorArrays` is undefined when
the slot lies outside the vector. -/
def addArray (arrayTypeCount : Nat) (m : MiniMax) (layerNumber type : Nat)
    (size compressedSize : Int) : Option MiniMax :=
  let c := m.arrayInfos
  let ais : ArrayInfo :=
    { belongsToLayer := layerNumber
      compressedSizeInBytes := compressedSize
      sizeInBytes := size
      type := type
      updateCounter := 0 }
  let listArrays := c.listArrays ++ [(c.nextNode, ais)]
  let aic : ArrayInfoChange :=
    { arrayInfo := some c.nextNode
      itemIndex := (listArrays.length % 2 ^ 32 + 2 ^ 32 - 1) % 2 ^ 32 }
  let slot := slotIndex arrayTypeCount layerNumber type
  if slot < c.vectorArrays.length then
    some (updateGui { m with
      arrayInfos :=
        { listArrays := listArrays
          nextNode := c.nextNode + 1
          vectorArrays := c.vectorArrays.set slot (ListIter.node c.nextNode)
          arrayInfosToBeUpdated := c.arrayInfosToBeUpdated ++ [aic] } })
  else
    none

/-- `MiniMax::ArrayInfoContainer::removeArray`.  Reading a member through an iterator whose
node has been erased is undefined.  The source goes on after `falseOrStop()`, and so does
the model. -/
def removeArray (arrayTypeCount : Nat) (m : MiniMax) (layerNumber type : Nat)
    (size compressedSize : Int) : Option MiniMax :=
  let c := m.arrayInfos
  let slot := slotIndex arrayTypeCount layerNumber type
  if c.vectorArrays.length > slot then
    match c.vectorArrays.getD slot ListIter.listEnd with
    | ListIter.listEnd => some (updateGui m)
    | ListIter.node id =>
      match findNode id c.listArrays with
      | none => none
      | some itr =>
        let m1 :=
          if itr.belongsToLayer ≠ layerNumber ∨ itr.type ≠ type ∨ itr.sizeInBytes ≠ size ∨
              itr.compressedSizeInBytes ≠ compressedSize then
            falseOrStop m
          else m
        let aic : ArrayInfoChange :=
          { arrayInfo := none
            itemIndex := nodeIndex id c.listArrays % 2 ^ 32 }
        some (updateGui { m1 with
          arrayInfos :=
            { c with
              arrayInfosToBeUpdated := c.arrayInfosToBeUpdated ++ [aic]
              listArrays := eraseNode id c.listArrays } })
  else
    some (updateGui m)

/-- `MiniMax::ArrayInfoContainer::updateArray`.  The slot is read without a range check and
the iterator is dereferenced without a check, so a slot outside the vector, the end iterator
and an iterator whose node has been erased are undefined. -/
def updateArray (arrayTypeCount updateCounterThreshold : Nat) (m : MiniMax)
    (layerNumber type : Nat) : Option MiniMax :=
  let c := m.arrayInfos
  match c.vectorArrays[slotIndex arrayTypeCount layerNumber type]? with
  | none => none
  | some ListIter.listEnd => none
  | some (ListIter.node id) =>
    match findNode id c.listArrays with
    | none => none
    | some itr =>
      let updateCounter := (itr.updateCounter + 1) % 2 ^ 32
      if updateCounter > updateCounterThreshold then
        let aic : ArrayInfoChange :=
          { arrayInfo := some id
            itemIndex := nodeIndex id c.listArrays % 2 ^ 32 }
        some (updateGui { m with
          arrayInfos :=
            { c with
              arrayInfosToBeUpdated := c.arrayInfosToBeUpdated ++ [aic]
              listArrays := setUpdateCounter id 0 c.listArrays } })
      else
        some { m with
          arrayInfos := { c with listArrays := setUpdateCounter id updateCounter c.listArrays } }

/-- `MiniMax::anyArrayInfoToUpdate`. -/
def anyArrayInfoToUpdate (m : MiniMax) : Bool :=
  decide (m.arrayInfos.arrayInfosToBeUpdated.length > 0)

/-- `MiniMax::getArrayInfoForUpdate`: `front()` followed by `pop_front()`. -/
def getArrayInfoForUpdate (m : MiniMax) : Option (ArrayInfoChange × MiniMax) :=
  match m.arrayInfos.arrayInfosToBeUpdated with
  | [] => none
  | tmp :: rest =>
    some (tmp, { m with arrayInfos := { m.arrayInfos with arrayInfosToBeUpdated := rest } })

/-- Calling `getArrayInfoForUpdate` `n` times in a row, collecting what it returns. -/
def drainArrayInfos : Nat → MiniMax → Option (List ArrayInfoChange × MiniMax)
  | 0, m => some ([], m)
  | n + 1, m =>
    match getArrayInfoForUpdate m with
    | none => none
    | some (tmp, m1) =>
      match drainArrayInfos n m1 with
      | none => none
      | some (rest, m2) => some (tmp :: rest, m2)

/-- `k` consecutive calls of `updateArray` for the same array. -/
def updateArrayTimes (arrayTypeCount updateCounterThreshold : Nat) (layerNumber type : Nat) :
    Nat → MiniMax → Option MiniMax
  | 0, m => some m
  | k + 1, m =>
    match updateArray arrayTypeCount updateCounterThreshold m layerNumber type with
    | none => none
    | some m1 => updateArrayTimes arrayTypeCount updateCounterThreshold layerNumber type k m1

/-- One call into the array-info container. -/
inductive ArrayCall where
  | add (layerNumber type : Nat) (size compressedSize : Int)
  | remove (layerNumber type : Nat) (size compressedSize : Int)
  | update (layerNumber type : Nat)
deriving DecidableEq, Repr

/-- Executing one call. -/
def ArrayCall.run (arrayTypeCount updateCounterThreshold : Nat) (m : MiniMax) :
    ArrayCall → Option MiniMax
  | ArrayCall.add l t s cs => addArray arrayTypeCount m l t s cs
  | ArrayCall.remove l t s cs => removeArray arrayTypeCount m l t s cs
  | ArrayCall.update l t => updateArray arrayTypeCount updateCounterThreshold m l t

/-- Executing a sequence of calls, first to last. -/
def runArrayCalls (arrayTypeCount updateCounterThreshold : Nat) :
    List ArrayCall → MiniMax → Option MiniMax
  | [], m => some m
  | call :: calls, m =>
    match call.run arrayTypeCount updateCounterThreshold m with
    | none => none
    | some m1 => runArrayCalls arrayTypeCount updateCounterThreshold calls m1

/-- The array referred to by the slot of `(layerNumber, type)` is tracked: the slot lies
inside `vectorArrays` and its iterator refers to a node of `listArrays`, whose record is
`itr`. -/
def Tracked (arrayTypeCount : Nat) (m : MiniMax) (layerNumber type : Nat) (id : Nat)
    (itr : ArrayInfo) : Prop :=
  m.arrayInfos.vectorArrays[slotIndex arrayTypeCount layerNumber type]? = some (ListIter.node id) ∧
  findNode id m.arrayInfos.listArrays = some itr

/-- No node of `listArrays` has a number that is still to be handed out. -/
def NodesAllocated (c : ArrayInfoContainer) : Prop :=
  ∀ p ∈ c.listArrays, p.1 < c.nextNode

instance (c : ArrayInfoContainer) : Decidable (NodesAllocated c) := by
  unfold NodesAllocated
  infer_instance

/-- The number of state numbers `s < knotsInLayer` whose stored value is `v`: the tally a
full scan of the layer is meant to produce. -/
def countStates (values : Nat → TwoBit) (knotsInLayer : Nat) (v : TwoBit) : Nat :=
  (List.range knotsInLayer).countP (fun s => decide (values s = v))

/-! ## A small concrete instance -/

/-- The usual numbering of the four knot values. -/
def skvExample : SkvValues :=
  { SKV_VALUE_INVALID := 0, SKV_VALUE_GAME_LOST := 1, SKV_VALUE_GAME_DRAWN := 2,
    SKV_VALUE_GAME_WON := 3 }

/-- A layer of three states whose partner is `partner`. -/
def layerExample (partner : Nat) (completed : Bool) : LayerStats :=
  { layerIsCompletedAndInFile := completed, knotsInLayer := 3, wonStateCount := 7,
    lostStateCount := 7, drawnStateCount := 7, invalidStateCount := 7, sizeInBytes := 1,
    succeedingLayerCount := 0, succeedingLayers := [0, 0], partnerLayer := partner }

/-- A database of two partner layers with three states each, an empty array-info container
with four slots, and empty queues. -/
def miniMaxExample : MiniMax :=
  { layerStats := some [layerExample 1 true, layerExample 0 false]
    plyInfos := some [{ sizeInBytes := 3 }, { sizeInBytes := 3 }]
    shortKnotValues := fun _ stateNumber => if stateNumber = 0 then 1 else if stateNumber = 1 then 3 else 1
    skvfHeaderLayerCount := 2
    hFileShortKnotValues := true
    layerInDatabase := false
    lastCalculatedLayer := []
    curCalculatedLayer := 0
    curCalcActionId := 0
    arrayInfos :=
      { listArrays := [], nextNode := 0,
        vectorArrays := [ListIter.listEnd, ListIter.listEnd, ListIter.listEnd, ListIter.listEnd],
        arrayInfosToBeUpdated := [] }
    userPrintFunc := false
    userPrintCalls := 0
    falseOrStopCalls := 0 }

/-- The state of `miniMaxExample` after `addArray(0, 0, 8, 8)` with two array types per
layer: one tracked array, node 0, in slot 0. -/
def miniMaxTracked : MiniMax :=
  { miniMaxExample with
    arrayInfos :=
      { listArrays :=
          [(0, { type := 0, sizeInBytes := 8, compressedSizeInBytes := 8, belongsToLayer := 0,
                 updateCounter := 0 })],
        nextNode := 1,
        vectorArrays := [ListIter.node 0, ListIter.listEnd, ListIter.listEnd, ListIter.listEnd],
        arrayInfosToBeUpdated := [{ arrayInfo := some 0, itemIndex := 0 }] } }

/-! ## Layer sizes and the statistics report -/

/-- The conversion `(int64_t) x` of a non-negative integer value. -/
def toInt64 (x : Nat) : Int :=
  ((x : Int) + 2 ^ 63) % 2 ^ 64 - 2 ^ 63

/-- `MiniMax::getLayerSizeInBytes`.  Both sizes are converted to `int64_t` before they are
added; a sum outside the range of `int64_t` is undefined. -/
def getLayerSizeInBytes (m : MiniMax) (layerNum : Nat) : Option Int :=
  match m.plyInfos, m.layerStats with
  | none, _ => some 0
  | _, none => some 0
  | some ps, some ls =>
    match ls[layerNum]?, ps[layerNum]? with
    | some l, some p =>
      let sum : Int := toInt64 l.sizeInBytes + toInt64 p.sizeInBytes
      if -(2 ^ 63) ≤ sum ∧ sum < 2 ^ 63 then some sum else none
    | _, _ => none

/-- What the conversion `%d` of `sprintf_s` writes for an argument of 32 bits whose unsigned
value is `x`: the same 32 bits read as a signed `int`, which is `x` below 2^31 and
`x - 2^32` from 2^31 on. -/
def printedInt (x : Nat) : Int :=
  ((x : Int) + 2 ^ 31) % 2 ^ 32 - 2 ^ 31

/-- One line of the statistics report: the numbers that `sprintf_s` writes for one layer, in
the order of the argument list.  Every number is written with `%d`, so each is the signed
reading of the 32 bits of its argument.  The text of `getOutputInfo` and the layout of the
line are not modelled. -/
structure StatRow where
  layerNumber : Int
  wonStates : Int
  lostStates : Int
  drawnStates : Int
  invalidStates : Int
  knotsInLayer : Int
  succeedingLayerCount : Int
  partnerLayer : Int
  sizeInBytes : Int
  succeedingLayers0 : Int
  succeedingLayers1 : Int
deriving DecidableEq, Repr

/-- Modelled from the spec: `unloadLayer` belongs to Database Storage, whose code is not among
the sources.  The spec has layer arrays "paged in/out of memory on demand" and array-info
entries "removed when evicted"; of the members of the record `MiniMax` an eviction can
therefore only touch the array-info container, and what it does there is the parameter
`evict`. -/
def unloadLayer (evict : Nat → ArrayInfoContainer → ArrayInfoContainer) (m : MiniMax)
    (layerNum : Nat) : MiniMax :=
  { m with arrayInfos := evict layerNum m.arrayInfos }

/-- The body of the layer loop of `calcLayerStatistics` for one value of
`curState.layerNumber`: the four counters of the layer are zeroed, a completed layer is
scanned and unloaded, and the line of the layer is written with `%d` for each of the eleven
numbers, which are `uint32_t` values.  (`unloadLayer` leaves `layerStats` as it is, so the
line is built from the record read at the start.) -/
def calcLayerStatisticsStep (skv : SkvValues)
    (evict : Nat → ArrayInfoContainer → ArrayInfoContainer) (m : MiniMax) (layerNumber : Nat) :
    Option (StatRow × MiniMax) :=
  match m.layerStats with
  | none => none
  | some ls =>
    match ls[layerNumber]? with
    | none => none
    | some l =>
      let statsValueCounter : TwoBit → Nat :=
        if l.layerIsCompletedAndInFile then
          scanLayer (m.shortKnotValues layerNumber) l.knotsInLayer
        else fun _ => 0
      let m1 := if l.layerIsCompletedAndInFile then unloadLayer evict m layerNumber else m
      match l.succeedingLayers[0]?, l.succeedingLayers[1]? with
      | some s0, some s1 =>
        some ({ layerNumber := printedInt layerNumber
                wonStates := printedInt (statsValueCounter skv.SKV_VALUE_GAME_WON)
                lostStates := printedInt (statsValueCounter skv.SKV_VALUE_GAME_LOST)
                drawnStates := printedInt (statsValueCounter skv.SKV_VALUE_GAME_DRAWN)
                invalidStates := printedInt (statsValueCounter skv.SKV_VALUE_INVALID)
                knotsInLayer := printedInt l.knotsInLayer
                succeedingLayerCount := printedInt l.succeedingLayerCount
                partnerLayer := printedInt l.partnerLayer
                sizeInBytes := printedInt l.sizeInBytes
                succeedingLayers0 := printedInt s0
                succeedingLayers1 := printedInt s1 }, m1)
      | _, _ => none

/-- The layer loop of `calcLayerStatistics` over the given layer numbers, first to last. -/
def calcLayerStatisticsLoop (skv : SkvValues)
    (evict : Nat → ArrayInfoContainer → ArrayInfoContainer) :
    List Nat → MiniMax → Option (List StatRow × MiniMax)
  | [], m => some ([], m)
  | layerNumber :: rest, m =>
    match calcLayerStatisticsStep skv evict m layerNumber with
    | none => none
    | some (row, m1) =>
      match calcLayerStatisticsLoop skv evict rest m1 with
      | none => none
      | some (rows, m2) => some (row :: rows, m2)

/-- `MiniMax::calcLayerStatistics`.  The result holds the return value, the state after the
call and the lines written to the statistics file.  `fileOpens` tells whether `CreateFileA`
yields a valid handle; `actionCalcLayerStats` is the constant `MM_ACTION_CALC_LAYER_STATS` of
the absent header.  The counter array has `4 * LayerCount` elements, computed in `uint32_t`:
when that product wraps, the zeroing of the counters writes outside the array. -/
def calcLayerStatistics (skv : SkvValues) (actionCalcLayerStats : Nat)
    (evict : Nat → ArrayInfoContainer → ArrayInfoContainer) (fileOpens : Bool) (m : MiniMax) :
    Option (Bool × MiniMax × List StatRow) :=
  if m.hFileShortKnotValues = false then some (false, m, [])
  else if fileOpens = false then some (false, m, [])
  else if 2 ^ 32 ≤ 4 * m.skvfHeaderLayerCount then none
  else
    match calcLayerStatisticsLoop skv evict (List.range m.skvfHeaderLayerCount)
        { m with curCalcActionId := actionCalcLayerStats, layerInDatabase := false } with
    | none => none
    | some (rows, m1) => some (true, m1, rows)

/-- Every member of `MiniMax` other than the array-info container and the two call counters
has the same value in `m1` as in `m`. -/
def SameOutsideArrayInfos (m m1 : MiniMax) : Prop :=
  m1.layerStats = m.layerStats ∧ m1.plyInfos = m.plyInfos ∧
  m1.shortKnotValues = m.shortKnotValues ∧
  m1.skvfHeaderLayerCount = m.skvfHeaderLayerCount ∧
  m1.hFileShortKnotValues = m.hFileShortKnotValues ∧
  m1.layerInDatabase = m.layerInDatabase ∧
  m1.lastCalculatedLayer = m.lastCalculatedLayer ∧
  m1.curCalculatedLayer = m.curCalculatedLayer ∧
  m1.curCalcActionId = m.curCalcActionId ∧
  m1.userPrintFunc = m.userPrintFunc

/-- A database of one layer whose value array and ply array have 4,000,000,000 bytes each. -/
def miniMaxLarge : MiniMax :=
  { miniMaxExample with
    layerStats := some
      [{ layerIsCompletedAndInFile := true, knotsInLayer := 3, wonStateCount := 0,
         lostStateCount := 0, drawnStateCount := 0, invalidStateCount := 0,
         sizeInBytes := 4000000000, succeedingLayerCount := 0, succeedingLayers := [0, 0],
         partnerLayer := 0 }]
    plyInfos := some [{ sizeInBytes := 4000000000 }] }

/-- What a line of the report has to show for layer `layerNumber` with catalog record `l`:
the layer number, and as its four counts the tallies of a full scan of the stored values when
the layer is completed, and four zeros when it is not. -/
def RowMatches (skv : SkvValues) (values : Nat → Nat → TwoBit) (layerNumber : Nat)
    (l : LayerStats) (row : StatRow) : Prop :=
  row.layerNumber = (layerNumber : Int) ∧
  (l.layerIsCompletedAndInFile = true →
    row.wonStates =
      (countStates (values layerNumber) l.knotsInLayer skv.SKV_VALUE_GAME_WON : Int) ∧
    row.lostStates =
      (countStates (values layerNumber) l.knotsInLayer skv.SKV_VALUE_GAME_LOST : Int) ∧
    row.drawnStates =
      (countStates (values layerNumber) l.knotsInLayer skv.SKV_VALUE_GAME_DRAWN : Int) ∧
    row.invalidStates =
      (countStates (values layerNumber) l.knotsInLayer skv.SKV_VALUE_INVALID : Int)) ∧
  (l.layerIsCompletedAndInFile = false →
    row.wonStates = 0 ∧ row.lostStates = 0 ∧ row.drawnStates = 0 ∧ row.invalidStates = 0)

/-- What a line of the report does show for layer `layerNumber` with catalog record `l`: the
layer number and, for a completed layer of fewer than 2^32 states, the tallies of a full scan
of the stored values, each as `%d` writes it; four zeros for a layer that is not
completed. -/
def RowPrinted (skv : SkvValues) (values : Nat → Nat → TwoBit) (layerNumber : Nat)
    (l : LayerStats) (row : StatRow) : Prop :=
  row.layerNumber = printedInt layerNumber ∧
  row.knotsInLayer = printedInt l.knotsInLayer ∧
  (l.layerIsCompletedAndInFile = true →
    row.wonStates =
      printedInt (countStates (values layerNumber) l.knotsInLayer skv.SKV_VALUE_GAME_WON) ∧
    row.lostStates =
      printedInt (countStates (values layerNumber) l.knotsInLayer skv.SKV_VALUE_GAME_LOST) ∧
    row.drawnStates =
      printedInt (countStates (values layerNumber) l.knotsInLayer skv.SKV_VALUE_GAME_DRAWN) ∧
    row.invalidStates =
      printedInt (countStates (values layerNumber) l.knotsInLayer skv.SKV_VALUE_INVALID)) ∧
  (l.layerIsCompletedAndInFile = false →
    row.wonStates = 0 ∧ row.lostStates = 0 ∧ row.drawnStates = 0 ∧ row.invalidStates = 0)

/-- A completed layer of 2^31 states. -/
def layerHuge : LayerStats :=
  { layerIsCompletedAndInFile := true, knotsInLayer := 2147483648, wonStateCount := 0,
    lostStateCount := 0, drawnStateCount := 0, invalidStateCount := 0, sizeInBytes := 536870912,
    succeedingLayerCount := 0, succeedingLayers := [0, 0], partnerLayer := 0 }

/-- A database of the one layer `layerHuge`, every state of which is stored as won. -/
def miniMaxHuge : MiniMax :=
  { miniMaxExample with
    layerStats := some [layerHuge]
    plyInfos := some [{ sizeInBytes := 0 }]
    shortKnotValues := fun _ _ => skvExample.SKV_VALUE_GAME_WON
    skvfHeaderLayerCount := 1 }

/-! ## The statistics interface as a whole -/

/-- One call of the statistics interface. -/
inductive StatCall where
  | showStats (layerNumber : Nat)
  | calcStats (fileOpens : Bool)
  | wonCount (layerNum : Nat)
  | lostCount (layerNum : Nat)
  | drawnCount (layerNum : Nat)
  | invalidCount (layerNum : Nat)
  | inDatabase (layerNum : Nat)
  | sizeInBytes (layerNum : Nat)
  | lastLayer
  | arrayInfoForUpdate
  | array (call : ArrayCall)
deriving DecidableEq, Repr

/-- The state after one call of the statistics interface (`showLayerStats`,
`calcLayerStatistics`, the four count getters, `isLayerInDatabase`, `getLayerSizeInBytes`,
`getLastCalculatedLayer`, `getArrayInfoForUpdate`, and the three container calls). -/
def StatCall.run (skv : SkvValues) (actionCalcLayerStats : Nat)
    (evict : Nat → ArrayInfoContainer → ArrayInfoContainer)
    (arrayTypeCount updateCounterThreshold : Nat) (m : MiniMax) : StatCall → Option MiniMax
  | StatCall.showStats layerNumber => showLayerStats skv m layerNumber
  | StatCall.calcStats fileOpens =>
    (calcLayerStatistics skv actionCalcLayerStats evict fileOpens m).map (fun r => r.2.1)
  | StatCall.wonCount layerNum => (getWonStateCount m layerNum).map (fun _ => m)
  | StatCall.lostCount layerNum => (getLostStateCount m layerNum).map (fun _ => m)
  | StatCall.drawnCount layerNum => (getDrawnStateCount m layerNum).map (fun _ => m)
  | StatCall.invalidCount layerNum => (getInvalidStateCount m layerNum).map (fun _ => m)
  | StatCall.inDatabase layerNum => (isLayerInDatabase m layerNum).map (fun r => r.2)
  | StatCall.sizeInBytes layerNum => (getLayerSizeInBytes m layerNum).map (fun _ => m)
  | StatCall.lastLayer => (getLastCalculatedLayer m).map (fun r => r.2)
  | StatCall.arrayInfoForUpdate => (getArrayInfoForUpdate m).map (fun r => r.2)
  | StatCall.array call => call.run arrayTypeCount updateCounterThreshold m

/-- Runs a sequence of calls of the statistics interface, first to last; `none` when one of
the calls is undefined. -/
def runStatCalls (skv : SkvValues) (actionCalcLayerStats : Nat)
    (evict : Nat → ArrayInfoContainer → ArrayInfoContainer)
    (arrayTypeCount updateCounterThreshold : Nat) : List StatCall → MiniMax → Option MiniMax
  | [], m => some m
  | call :: rest, m =>
    match call.run skv actionCalcLayerStats evict arrayTypeCount updateCounterThreshold m with
    | none => none
    | some m1 =>
      runStatCalls skv actionCalcLayerStats evict arrayTypeCount updateCounterThreshold rest m1

/-- The four state counters of the catalog record `l` are valid: each is the number of
states of the layer whose stored value, read from `values`, is the value it counts. -/
def CountersValid (skv : SkvValues) (values : Nat → TwoBit) (l : LayerStats) : Prop :=
  l.wonStateCount = countStates values l.knotsInLayer skv.SKV_VALUE_GAME_WON ∧
  l.lostStateCount = countStates values l.knotsInLayer skv.SKV_VALUE_GAME_LOST ∧
  l.drawnStateCount = countStates values l.knotsInLayer skv.SKV_VALUE_GAME_DRAWN ∧
  l.invalidStateCount = countStates values l.knotsInLayer skv.SKV_VALUE_INVALID

/-- The completed layer 0 of `miniMaxExample` with valid counters: of its three states one
is stored as won and two as lost. -/
def layerCounted : LayerStats :=
  { layerExample 1 true with
    wonStateCount := 1, lostStateCount := 2, drawnStateCount := 0, invalidStateCount := 0 }

/-- The database `miniMaxExample` with layer 0 completed and counted. -/
def miniMaxCounted : MiniMax :=
  { miniMaxExample with layerStats := some [layerCounted, layerExample 0 false] }

/-! ## The container calls statement by statement

For the lock discipline the three container functions are unfolded into the sequence of
statements they execute on the shared data, in source order, together with the calls that
enter and leave the critical section `csOsPrint`. -/

/-- One executed statement of `addArray`, `removeArray` or `updateArray`. -/
inductive MicroOp where
  /-- `EnterCriticalSection(&c->csOsPrint)` -/
  | enterCriticalSection
  /-- `LeaveCriticalSection(&c->csOsPrint)` -/
  | leaveCriticalSection
  /-- `listArrays.push_back(ais)` -/
  | listPushBack (ais : ArrayInfo)
  /-- `arrayInfosToBeUpdated.push_back(aic)` -/
  | queuePushBack (aic : ArrayInfoChange)
  /-- `vectorArrays[slot] = itr` -/
  | vectorAssign (slot : Nat) (itr : ListIter)
  /-- `listArrays.erase(itr)` for the iterator of node `id` -/
  | listErase (id : Nat)
  /-- `itr->updateCounter++` or `itr->updateCounter = 0`, with the value stored -/
  | counterAssign (id : Nat) (v : Nat)
  /-- the guarded call of `c->userPrintFunc` -/
  | userPrint
  /-- `c->falseOrStop()` -/
  | stop
deriving DecidableEq, Repr

/-- The statement writes to one of the shared progress structures (the entries of
`listArrays` with their update counters, `vectorArrays`, `arrayInfosToBeUpdated`). -/
def MicroOp.mutatesShared : MicroOp → Bool
  | MicroOp.listPushBack _ => true
  | MicroOp.queuePushBack _ => true
  | MicroOp.vectorAssign _ _ => true
  | MicroOp.listErase _ => true
  | MicroOp.counterAssign _ _ => true
  | _ => false

/-- The effect of one statement on the state. -/
def MicroOp.apply (m : MiniMax) : MicroOp → MiniMax
  | MicroOp.enterCriticalSection => m
  | MicroOp.leaveCriticalSection => m
  | MicroOp.listPushBack ais =>
    { m with arrayInfos := { m.arrayInfos with
        listArrays := m.arrayInfos.listArrays ++ [(m.arrayInfos.nextNode, ais)]
        nextNode := m.arrayInfos.nextNode + 1 } }
  | MicroOp.queuePushBack aic =>
    { m with arrayInfos := { m.arrayInfos with
        arrayInfosToBeUpdated := m.arrayInfos.arrayInfosToBeUpdated ++ [aic] } }
  | MicroOp.vectorAssign slot itr =>
    { m with arrayInfos := { m.arrayInfos with
        vectorArrays := m.arrayInfos.vectorArrays.set slot itr } }
  | MicroOp.listErase id =>
    { m with arrayInfos := { m.arrayInfos with
        listArrays := eraseNode id m.arrayInfos.listArrays } }
  | MicroOp.counterAssign id v =>
    { m with arrayInfos := { m.arrayInfos with
        listArrays := setUpdateCounter id v m.arrayInfos.listArrays } }
  | MicroOp.userPrint => updateGui m
  | MicroOp.stop => falseOrStop m

/-- The statements `addArray` executes, in source order. -/
def addArraySteps (arrayTypeCount : Nat) (m : MiniMax) (layerNumber type : Nat)
    (size compressedSize : Int) : Option (List MicroOp) :=
  let c := m.arrayInfos
  let ais : ArrayInfo :=
    { belongsToLayer := layerNumber
      compressedSizeInBytes := compressedSize
      sizeInBytes := size
      type := type
      updateCounter := 0 }
  let aic : ArrayInfoChange :=
    { arrayInfo := some c.nextNode
      itemIndex := ((c.listArrays ++ [(c.nextNode, ais)]).length % 2 ^ 32 + 2 ^ 32 - 1) % 2 ^ 32 }
  let slot := slotIndex arrayTypeCount layerNumber type
  if slot < c.vectorArrays.length then
    some [MicroOp.enterCriticalSection, MicroOp.listPushBack ais, MicroOp.queuePushBack aic,
      MicroOp.vectorAssign slot (ListIter.node c.nextNode), MicroOp.userPrint,
      MicroOp.leaveCriticalSection]
  else
    none

/-- The statements `removeArray` executes, in source order. -/
def removeArraySteps (arrayTypeCount : Nat) (m : MiniMax) (layerNumber type : Nat)
    (size compressedSize : Int) : Option (List MicroOp) :=
  let c := m.arrayInfos
  let slot := slotIndex arrayTypeCount layerNumber type
  if c.vectorArrays.length > slot then
    match c.vectorArrays.getD slot ListIter.listEnd with
    | ListIter.listEnd =>
      some [MicroOp.enterCriticalSection, MicroOp.userPrint, MicroOp.leaveCriticalSection]
    | ListIter.node id =>
      match findNode id c.listArrays with
      | none => none
      | some itr =>
        let aic : ArrayInfoChange :=
          { arrayInfo := none
            itemIndex := nodeIndex id c.listArrays % 2 ^ 32 }
        some ([MicroOp.enterCriticalSection] ++
          (if itr.belongsToLayer ≠ layerNumber ∨ itr.type ≠ type ∨ itr.sizeInBytes ≠ size ∨
              itr.compressedSizeInBytes ≠ compressedSize then [MicroOp.stop] else []) ++
          [MicroOp.queuePushBack aic, MicroOp.listErase id, MicroOp.userPrint,
            MicroOp.leaveCriticalSection])
  else
    some [MicroOp.enterCriticalSection, MicroOp.userPrint, MicroOp.leaveCriticalSection]

/-- The statements `updateArray` executes, in source order: the increment of the counter
comes first, the critical section is entered only inside the test of the threshold. -/
def updateArraySteps (arrayTypeCount updateCounterThreshold : Nat) (m : MiniMax)
    (layerNumber type : Nat) : Option (List MicroOp) :=
  let c := m.arrayInfos
  match c.vectorArrays[slotIndex arrayTypeCount layerNumber type]? with
  | none => none
  | some ListIter.listEnd => none
  | some (ListIter.node id) =>
    match findNode id c.listArrays with
    | none => none
    | some itr =>
      let updateCounter := (itr.updateCounter + 1) % 2 ^ 32
      if updateCounter > updateCounterThreshold then
        let aic : ArrayInfoChange :=
          { arrayInfo := some id
            itemIndex := nodeIndex id c.listArrays % 2 ^ 32 }
        some [MicroOp.counterAssign id updateCounter, MicroOp.enterCriticalSection,
          MicroOp.queuePushBack aic, MicroOp.userPrint, MicroOp.counterAssign id 0,
          MicroOp.leaveCriticalSection]
      else
        some [MicroOp.counterAssign id updateCounter]

/-- Running a sequence of statements. -/
def runSteps (m : MiniMax) (ops : List MicroOp) : MiniMax :=
  ops.foldl MicroOp.apply m

/-- The lock discipline: every statement that writes to a shared structure is executed while
the critical section is held.  `held` tells whether it is held before the first statement. -/
def lockDiscipline : Bool → List MicroOp → Bool
  | _, [] => true
  | _, MicroOp.enterCriticalSection :: rest => lockDiscipline true rest
  | _, MicroOp.leaveCriticalSection :: rest => lockDiscipline false rest
  | held, op :: rest => (held || !op.mutatesShared) && lockDiscipline held rest

/-! ## The layer catalog and the position's undo -/

/-- Modelled from the spec: the material signature that a layer stands for ("partition of
the full state space sharing a material signature (e.g., piece counts per side)"). -/
structure MaterialSignature where
  piecesA : Nat
  piecesB : Nat
deriving DecidableEq, Repr

/-- Modelled from the spec: "swapping the two players' roles" on a material signature. -/
def MaterialSignature.swapRoles (s : MaterialSignature) : MaterialSignature :=
  { piecesA := s.piecesB, piecesB := s.piecesA }

/-- What the rules engine supplies for a material signature: the number of states
("derived from the rules engine's combinatorics for that layer's material signature") and
the layers a move can lead to. -/
structure LayerRules where
  knotsInLayer : MaterialSignature → Nat
  succeedingLayers : MaterialSignature → List Nat

/-- Modelled from the spec: the Layer Catalog, whose code is not among the sources.  "Given
the game's material-parameter space, enumerates all layers ... and computes the partner-layer
relation deterministically from the material signature's color-swap symmetry.  Fails if a
declared partner layer does not have matching size."  Layer `i` is the `i`-th signature; its
partner is the layer of the swapped signature; the value array takes 2 bits per state. -/
def buildLayerCatalog (rules : LayerRules) (signatures : List MaterialSignature) :
    Option (List LayerStats) :=
  if signatures.all (fun s =>
      decide (s.swapRoles ∈ signatures) &&
      decide (rules.knotsInLayer s.swapRoles = rules.knotsInLayer s)) then
    some (signatures.map (fun s =>
      { layerIsCompletedAndInFile := false
        knotsInLayer := rules.knotsInLayer s
        wonStateCount := 0
        lostStateCount := 0
        drawnStateCount := 0
        invalidStateCount := 0
        sizeInBytes := (rules.knotsInLayer s + 3) / 4
        succeedingLayerCount := (rules.succeedingLayers s).length
        succeedingLayers := rules.succeedingLayers s
        partnerLayer := signatures.indexOf s.swapRoles }))
  else
    none

/-- A rules engine for the examples: the number of states is the product of the two piece
counts. -/
def rulesExample : LayerRules :=
  { knotsInLayer := fun s => s.piecesA * s.piecesB, succeedingLayers := fun _ => [0, 0] }

/-- Three layers: 3 against 4 pieces, 4 against 3 pieces, 3 against 3 pieces. -/
def signaturesExample : List MaterialSignature :=
  [{ piecesA := 3, piecesB := 4 }, { piecesA := 4, piecesB := 3 },
    { piecesA := 3, piecesB := 3 }]

/-- A `Move` (an enumeration over `int32_t`). -/
abbrev Move := Int

/-- `Position::undo_move(Move m)`.  The statements that would unmake the move stand between
`#if 0` and `#endif`; what is compiled declares `ret = false`, assigns `m` to itself and
returns `ret`.  No member of the position is read or written, so the embedding is generic in
the record of the position; the position after the call is returned next to the result. -/
def undo_move {Position : Type} (pos : Position) (m : Move) : Bool × Position :=
  let ret := false
  let _m := m
  (ret, pos)

/-! ## The position of the mill game (`position.cpp`)

The headers `types.h`, `position.h`, `rule.h`, `movegen.h` and `misc.h` are not part of the
sources at hand. What `position.cpp` takes from them is collected in `Types` (constants,
the operator `~` on colours, the move encoding, the Zobrist table, the move table, the
clock and the default arguments) and is a parameter of every function below. The members
of `Position` that only carry text (`tips`, `cmdline`, `cmdlist`) and the bitboards
`byTypeBB` are written by the functions below but read by none of them; they are left out
of the record. The score tally of `set_tips` is part of the record: its statement
`score[winner]++` writes outside the array `score` when the game is over without a winner,
and a call of `put_piece` or `remove_piece` in which that happens is undefined (`none`). -/

/-- The fields of `struct Rule` (declared in `rule.h`) that `position.cpp` reads. -/
structure Rule where
  nTotalPiecesEachSide : Int
  nPiecesAtLeast : Int
  hasObliqueLines : Bool
  hasBannedLocations : Bool
  isDefenderMoveFirst : Bool
  allowRemoveMultiPiecesWhenCloseMultiMill : Bool
  allowRemovePieceInMill : Bool
  isBlackLosebutNotDrawWhenBoardFull : Bool
  isLoseButNotChangeTurnWhenNoWay : Bool
  allowFlyWhenRemainThreePieces : Bool
  allowRemovePiecesRepeatedlyWhenCloseSameMill : Bool
  maxStepsLedToDraw : Int
  maxTimeLedToLose : Int
  deriving DecidableEq, Repr

/-- What `position.cpp` uses of the headers that are not at hand: the enumeration constants,
`opposite` for the operator `~` on a colour, `type_of`, `to_sq`, `from_sq` and `make_move`
for the encoding of a move, `psq` for `Zobrist::psq`, `moveTable` for
`MoveList::moveTable`, `time n` for the value of the `n`-th call of `time(nullptr)`, and the
default arguments of `put_piece`/`remove_piece` (`updateCmdlistDefault`), of
`check_gameover_condition` (`checkUpdateCmdlistDefault`) and of `in_how_many_mills`
(`squareSelectedDefault`). -/
structure Types where
  PLAYER_SHIFT : Nat
  NO_PIECE : Nat
  BAN_STONE : Nat
  B_STONE : Nat
  W_STONE : Nat
  BLACK : Nat
  WHITE : Nat
  NOBODY : Nat
  DRAW : Nat
  BAN : Nat
  opposite : Nat → Nat
  SQ_0 : Nat
  SQ_BEGIN : Nat
  SQ_END : Nat
  SQUARE_NB : Nat
  FILE_NB : Nat
  RANK_NB : Nat
  LD_NB : Nat
  MD_BEGIN : Nat
  MD_NB : Nat
  PHASE_NONE : Nat
  PHASE_READY : Nat
  PHASE_PLACING : Nat
  PHASE_MOVING : Nat
  PHASE_GAMEOVER : Nat
  PHASE_PLAYING : Nat
  PHASE_NOTPLAYING : Nat
  ACTION_SELECT : Nat
  ACTION_PLACE : Nat
  ACTION_REMOVE : Nat
  MOVETYPE_PLACE : Nat
  MOVETYPE_MOVE : Nat
  MOVETYPE_REMOVE : Nat
  type_of : Move → Nat
  to_sq : Move → Nat
  from_sq : Move → Nat
  make_move : Nat → Nat → Move
  psq : Nat → Nat → Nat
  moveTable : Nat → Nat → Nat
  time : Nat → Int
  updateCmdlistDefault : Bool
  checkUpdateCmdlistDefault : Bool
  squareSelectedDefault : Nat

/-- The data members of `Position` that the functions below read. `key` is `st->key`;
`millTable` is the static table filled by `create_mill_table`; `timeReads` counts the calls
of `time(nullptr)` made so far (it selects the next clock reading of `Types.time`); `score`
and `score_draw` are the tallies of games won and drawn that `set_tips` keeps. Arrays are
lists, read with `getD` and written with `set`. -/
structure Position where
  rule : Rule
  board : List Nat
  pieceCountInHand : List Int
  pieceCountOnBoard : List Int
  pieceCountNeedRemove : Int
  sideToMove : Nat
  them : Nat
  phase : Nat
  action : Nat
  winner : Nat
  currentSquare : Nat
  move : Move
  key : Nat
  millList : List Nat
  millListSize : Int
  millTable : List (List (List Nat))
  currentStep : Int
  moveStep : Int
  elapsedSeconds : List Int
  startTime : Int
  currentTime : Int
  timeReads : Nat
  score : List Int
  score_draw : Int
  deriving DecidableEq, Repr

/-- The table `Position::onBoard`. -/
def onBoard : List Nat :=
  [0x00, 0x00, 0x00, 0x00, 0x00, 0x00, 0x00, 0x00,
   0xff, 0xff, 0xff, 0xff, 0xff, 0xff, 0xff, 0xff,
   0xff, 0xff, 0xff, 0xff, 0xff, 0xff, 0xff, 0xff,
   0xff, 0xff, 0xff, 0xff, 0xff, 0xff, 0xff, 0xff,
   0x00, 0x00, 0x00, 0x00, 0x00, 0x00, 0x00, 0x00]

/-- The local table `millTable_noObliqueLine` of `create_mill_table`. -/
def millTable_noObliqueLine : List (List (List Nat)) :=
  [[[0, 0], [0, 0], [0, 0]], [[0, 0], [0, 0], [0, 0]], [[0, 0], [0, 0], [0, 0]], [[0, 0], [0, 0], [0, 0]],
   [[0, 0], [0, 0], [0, 0]], [[0, 0], [0, 0], [0, 0]], [[0, 0], [0, 0], [0, 0]], [[0, 0], [0, 0], [0, 0]],
   [[16, 24], [9, 15], [0, 0]], [[0, 0], [15, 8], [10, 11]], [[18, 26], [11, 9], [0, 0]], [[0, 0], [9, 10], [12, 13]],
   [[20, 28], [13, 11], [0, 0]], [[0, 0], [11, 12], [14, 15]], [[22, 30], [15, 13], [0, 0]], [[0, 0], [13, 14], [8, 9]],
   [[8, 24], [17, 23], [0, 0]], [[0, 0], [23, 16], [18, 19]], [[10, 26], [19, 17], [0, 0]], [[0, 0], [17, 18], [20, 21]],
   [[12, 28], [21, 19], [0, 0]], [[0, 0], [19, 20], [22, 23]], [[14, 30], [23, 21], [0, 0]], [[0, 0], [21, 22], [16, 17]],
   [[8, 16], [25, 31], [0, 0]], [[0, 0], [31, 24], [26, 27]], [[10, 18], [27, 25], [0, 0]], [[0, 0], [25, 26], [28, 29]],
   [[12, 20], [29, 27], [0, 0]], [[0, 0], [27, 28], [30, 31]], [[14, 22], [31, 29], [0, 0]], [[0, 0], [29, 30], [24, 25]],
   [[0, 0], [0, 0], [0, 0]], [[0, 0], [0, 0], [0, 0]], [[0, 0], [0, 0], [0, 0]], [[0, 0], [0, 0], [0, 0]],
   [[0, 0], [0, 0], [0, 0]], [[0, 0], [0, 0], [0, 0]], [[0, 0], [0, 0], [0, 0]], [[0, 0], [0, 0], [0, 0]]]

/-- The local table `millTable_hasObliqueLines` of `create_mill_table`. -/
def millTable_hasObliqueLines : List (List (List Nat)) :=
  [[[0, 0], [0, 0], [0, 0]], [[0, 0], [0, 0], [0, 0]], [[0, 0], [0, 0], [0, 0]], [[0, 0], [0, 0], [0, 0]],
   [[0, 0], [0, 0], [0, 0]], [[0, 0], [0, 0], [0, 0]], [[0, 0], [0, 0], [0, 0]], [[0, 0], [0, 0], [0, 0]],
   [[16, 24], [9, 15], [0, 0]], [[17, 25], [15, 8], [10, 11]], [[18, 26], [11, 9], [0, 0]], [[19, 27], [9, 10], [12, 13]],
   [[20, 28], [13, 11], [0, 0]], [[21, 29], [11, 12], [14, 15]], [[22, 30], [15, 13], [0, 0]], [[23, 31], [13, 14], [8, 9]],
   [[8, 24], [17, 23], [0, 0]], [[9, 25], [23, 16], [18, 19]], [[10, 26], [19, 17], [0, 0]], [[11, 27], [17, 18], [20, 21]],
   [[12, 28], [21, 19], [0, 0]], [[13, 29], [19, 20], [22, 23]], [[14, 30], [23, 21], [0, 0]], [[15, 31], [21, 22], [16, 17]],
   [[8, 16], [25, 31], [0, 0]], [[9, 17], [31, 24], [26, 27]], [[10, 18], [27, 25], [0, 0]], [[11, 19], [25, 26], [28, 29]],
   [[12, 20], [29, 27], [0, 0]], [[13, 21], [27, 28], [30, 31]], [[14, 22], [31, 29], [0, 0]], [[15, 23], [29, 30], [24, 25]],
   [[0, 0], [0, 0], [0, 0]], [[0, 0], [0, 0], [0, 0]], [[0, 0], [0, 0], [0, 0]], [[0, 0], [0, 0], [0, 0]],
   [[0, 0], [0, 0], [0, 0]], [[0, 0], [0, 0], [0, 0]], [[0, 0], [0, 0], [0, 0]], [[0, 0], [0, 0], [0, 0]]]

/-- `Position::create_mill_table`: copies one of the two tables into `millTable`. -/
def create_mill_table (p : Position) : Position :=
  { p with millTable := if p.rule.hasObliqueLines then millTable_hasObliqueLines
                        else millTable_noObliqueLine }

/-- The entry `millTable[s][l][k]`. -/
def millAt (p : Position) (s l k : Nat) : Nat :=
  ((p.millTable.getD s []).getD l []).getD k 0

/-- `Position::color_on`. -/
def color_on (T : Types) (p : Position) (s : Nat) : Nat :=
  (p.board.getD s 0 &&& 0x30) >>> T.PLAYER_SHIFT

/-- `Position::update_key`. -/
def update_key (T : Types) (p : Position) (s : Nat) : Position :=
  { p with key := p.key ^^^ T.psq (color_on T p s) s }

/-- `Position::revert_key`. -/
def revert_key (T : Types) (p : Position) (s : Nat) : Position :=
  update_key T p s

/-- `Position::set_side_to_move`. -/
def set_side_to_move (T : Types) (p : Position) (c : Nat) : Position :=
  { p with sideToMove := c, them := T.opposite c }

/-- `Position::change_side_to_move`. -/
def change_side_to_move (T : Types) (p : Position) : Position :=
  set_side_to_move T p (T.opposite p.sideToMove)

/-- `Position::in_how_many_mills`. The board is changed at `squareSelected` for the time of
the count and restored before the return, so the position is left as it was and only the
count is returned. -/
def in_how_many_mills (T : Types) (p : Position) (s c squareSelected : Nat) : Int :=
  let c := if c = T.NOBODY then color_on T p s >>> T.PLAYER_SHIFT else c
  let board := if squareSelected ≠ T.SQ_0 then p.board.set squareSelected T.NO_PIECE
    else p.board
  (List.range T.LD_NB).foldl
    (fun n l =>
      if (c <<< T.PLAYER_SHIFT) &&& board.getD (millAt p s l 0) 0 &&&
          board.getD (millAt p s l 1) 0 ≠ 0 then n + 1 else n) 0

/-- One round `j` of the selection sort of `idx[3]` in `add_mills`. -/
def sortIdxRound (idx : List Nat) (j : Nat) : List Nat :=
  let min := (List.range' (j + 1) (3 - (j + 1))).foldl
    (fun min k => if idx.getD min 0 > idx.getD k 0 then k else min) j
  if min = j then idx else (idx.set min (idx.getD j 0)).set j (idx.getD min 0)

/-- The selection sort of `idx[3]` in `add_mills` (rounds `j = 0, 1`). -/
def sortIdx (idx : List Nat) : List Nat :=
  sortIdxRound (sortIdxRound idx 0) 1

/-- The 64-bit value by which `add_mills` identifies a closed mill. -/
def millValue (p : Position) (idx : List Nat) : Nat :=
  ((p.board.getD (idx.getD 0 0) 0 <<< 40) + (idx.getD 0 0 <<< 32) +
    (p.board.getD (idx.getD 1 0) 0 <<< 24) + (idx.getD 1 0 <<< 16) +
    (p.board.getD (idx.getD 2 0) 0 <<< 8) + idx.getD 2 0) % 2 ^ 64

/-- The body of the loop `for (int i = 0; i < 3; i++)` of `add_mills`, on the pair of the
running count `n` and the position. -/
def add_millsRound (T : Types) (s m : Nat) (st : Int × Position) (i : Nat) : Int × Position :=
  let n := st.1
  let p := st.2
  let idx1 := millAt p s i 0
  let idx2 := millAt p s i 1
  if (m <<< T.PLAYER_SHIFT) &&& p.board.getD idx1 0 &&& p.board.getD idx2 0 = 0 then (n, p)
  else
    let mill := millValue p (sortIdx [s, idx1, idx2])
    if p.rule.allowRemovePiecesRepeatedlyWhenCloseSameMill then (n + 1, p)
    else
      let im : Int :=
        match (List.range p.millListSize.toNat).find? (fun im => mill = p.millList.getD im 0) with
        | some k => (k : Int)
        | none => (p.millListSize.toNat : Int)
      if im = p.millListSize then
        (n + 1, { p with millList := p.millList.set i mill, millListSize := p.millListSize + 1 })
      else (n, p)

/-- `Position::add_mills`: the count returned and the position left behind. -/
def add_mills (T : Types) (p : Position) (s : Nat) : Int × Position :=
  [0, 1, 2].foldl (add_millsRound T s (color_on T p s)) (0, p)

/-- `Position::is_all_in_mills`. -/
def is_all_in_mills (T : Types) (p : Position) (c : Nat) : Bool :=
  (List.range' T.SQ_BEGIN (T.SQ_END - T.SQ_BEGIN)).all
    (fun i =>
      if p.board.getD i 0 &&& ((c <<< T.PLAYER_SHIFT) % 256) ≠ 0 then
        decide (in_how_many_mills T p i T.NOBODY T.squareSelectedDefault ≠ 0)
      else true)

/-- `Position::is_all_surrounded`. -/
def is_all_surrounded (T : Types) (p : Position) : Bool :=
  if p.pieceCountOnBoard.getD T.BLACK 0 + p.pieceCountOnBoard.getD T.WHITE 0 ≥
      ((T.RANK_NB * T.FILE_NB : Nat) : Int) then true
  else if p.pieceCountOnBoard.getD p.sideToMove 0 ≤ p.rule.nPiecesAtLeast ∧
      p.rule.allowFlyWhenRemainThreePieces = true then false
  else
    (List.range' T.SQ_BEGIN (T.SQ_END - T.SQ_BEGIN)).all
      (fun s =>
        if p.sideToMove &&& color_on T p s = 0 then true
        else
          (List.range' T.MD_BEGIN (T.MD_NB - T.MD_BEGIN)).all
            (fun d => ! decide (T.moveTable s d ≠ 0 ∧ p.board.getD (T.moveTable s d) 0 = 0)))

/-- The body of the loop `for (int i = 1; i <= 2; i++)` in the time branch of
`check_gameover_condition`. -/
def timeOverRound (T : Types) (p : Position) (i : Nat) : Position :=
  if p.elapsedSeconds.getD i 0 > p.rule.maxTimeLedToLose * 60 then
    { p with elapsedSeconds := p.elapsedSeconds.set i (p.rule.maxTimeLedToLose * 60)
             winner := T.opposite i }
  else p

/-- `Position::check_gameover_condition`: the value returned and the position left behind. -/
def check_gameover_condition (T : Types) (p : Position) (updateCmdlist : Bool) :
    Bool × Position :=
  if p.phase &&& T.PHASE_NOTPLAYING ≠ 0 then (true, p)
  else if p.rule.maxTimeLedToLose > 0 then
    let p := { p with phase := T.PHASE_GAMEOVER }
    (true, if updateCmdlist then [1, 2].foldl (timeOverRound T) p else p)
  else if p.rule.maxStepsLedToDraw > 0 ∧ p.moveStep > p.rule.maxStepsLedToDraw then
    (true, { p with winner := T.DRAW, phase := T.PHASE_GAMEOVER })
  else if p.pieceCountOnBoard.getD 1 0 + p.pieceCountInHand.getD 1 0 < p.rule.nPiecesAtLeast then
    (true, { p with winner := T.opposite 1, phase := T.PHASE_GAMEOVER })
  else if p.pieceCountOnBoard.getD 2 0 + p.pieceCountInHand.getD 2 0 < p.rule.nPiecesAtLeast then
    (true, { p with winner := T.opposite 2, phase := T.PHASE_GAMEOVER })
  else if p.pieceCountOnBoard.getD T.BLACK 0 + p.pieceCountOnBoard.getD T.WHITE 0 ≥
      ((T.RANK_NB * T.FILE_NB : Nat) : Int) then
    (true, { p with phase := T.PHASE_GAMEOVER
                    winner := if p.rule.isBlackLosebutNotDrawWhenBoardFull then T.WHITE
                              else T.DRAW })
  else if p.phase = T.PHASE_MOVING ∧ p.action = T.ACTION_SELECT ∧
      is_all_surrounded T p = true then
    let p := { p with phase := T.PHASE_GAMEOVER }
    if p.rule.isLoseButNotChangeTurnWhenNoWay then
      (true, if updateCmdlist then { p with winner := T.opposite p.sideToMove } else p)
    else (false, change_side_to_move T p)
  else (false, p)

/-- `Position::update`: the seconds returned and the position left behind. -/
def update (T : Types) (p : Position) : Int × Position :=
  let us := p.sideToMove
  let theirSeconds := p.elapsedSeconds.getD p.them 0
  if p.phase &&& T.PHASE_PLAYING = 0 then (-1, p)
  else
    let now := T.time p.timeReads
    let p := { p with currentTime := now, timeReads := p.timeReads + 1 }
    let r : Int × Position :=
      if (-1 : Int) ≥ p.elapsedSeconds.getD us 0 then
        let p := { p with elapsedSeconds := p.elapsedSeconds.set us (-1) }
        (-1, { p with startTime := p.currentTime -
                 (p.elapsedSeconds.getD T.BLACK 0 + p.elapsedSeconds.getD T.WHITE 0) })
      else
        (p.currentTime - p.startTime - theirSeconds,
          { p with elapsedSeconds :=
              p.elapsedSeconds.set us (p.currentTime - p.startTime - theirSeconds) })
    if r.2.rule.maxTimeLedToLose > 0 then
      (r.1, (check_gameover_condition T r.2 T.checkUpdateCmdlistDefault).2)
    else r

/-- The squares `f * RANK_NB + r` visited by `for f in 1..files, for r in 0..RANK_NB-1`. -/
def fileRankSquares (T : Types) (files : Nat) : List Nat :=
  (List.range files).flatMap (fun f => (List.range T.RANK_NB).map (fun r => (f + 1) * T.RANK_NB + r))

/-- `Position::clean_banned`. -/
def clean_banned (T : Types) (p : Position) : Position :=
  if ¬ p.rule.hasBannedLocations then p
  else
    (fileRankSquares T T.FILE_NB).foldl
      (fun p s =>
        if p.board.getD s 0 = T.BAN_STONE then
          let p := revert_key T p s
          { p with board := p.board.set s T.NO_PIECE }
        else p) p

/-- The body of the loops of `pieces_on_board_count` for the square `s`. -/
def countRound (T : Types) (p : Position) (s : Nat) : Position :=
  if p.board.getD s 0 &&& T.B_STONE ≠ 0 then
    { p with pieceCountOnBoard :=
        p.pieceCountOnBoard.set T.BLACK (p.pieceCountOnBoard.getD T.BLACK 0 + 1) }
  else if p.board.getD s 0 &&& T.W_STONE ≠ 0 then
    { p with pieceCountOnBoard :=
        p.pieceCountOnBoard.set T.WHITE (p.pieceCountOnBoard.getD T.WHITE 0 + 1) }
  else p

/-- `Position::pieces_on_board_count`: the value returned and the position left behind. -/
def pieces_on_board_count (T : Types) (p : Position) : Int × Position :=
  let p := { p with pieceCountOnBoard := (p.pieceCountOnBoard.set T.WHITE 0).set T.BLACK 0 }
  let p := (fileRankSquares T (T.FILE_NB + 1)).foldl (countRound T) p
  if p.pieceCountOnBoard.getD T.BLACK 0 > p.rule.nTotalPiecesEachSide ∨
      p.pieceCountOnBoard.getD T.WHITE 0 > p.rule.nTotalPiecesEachSide then (-1, p)
  else (p.pieceCountOnBoard.getD T.BLACK 0 + p.pieceCountOnBoard.getD T.WHITE 0, p)

/-- `Position::pieces_in_hand_count`: the value returned and the position left behind. -/
def pieces_in_hand_count (T : Types) (p : Position) : Int × Position :=
  let black := p.rule.nTotalPiecesEachSide - p.pieceCountOnBoard.getD T.BLACK 0
  let p := { p with pieceCountInHand := p.pieceCountInHand.set T.BLACK black }
  let white := p.rule.nTotalPiecesEachSide - p.pieceCountOnBoard.getD T.WHITE 0
  let p := { p with pieceCountInHand := p.pieceCountInHand.set T.WHITE white }
  (p.pieceCountInHand.getD T.BLACK 0 + p.pieceCountInHand.getD T.WHITE 0, p)

/-- The first statements of `set_position`, up to the clearing of the board and the key:
the rule is copied, the step counters are zeroed, the phase is READY, black is to move and
the action is to place. -/
def clearPosition (T : Types) (p : Position) (newRule : Rule) : Position :=
  let p := { p with rule := newRule, currentStep := 0, moveStep := 0, phase := T.PHASE_READY }
  let p := set_side_to_move T p T.BLACK
  { p with action := T.ACTION_PLACE, board := List.replicate T.SQUARE_NB 0, key := 0 }

/-- `Position::set_position`: the value returned and the position left behind.
`MoveList::create()` fills the move table, which is the parameter `Types.moveTable`;
`sprintf` returns the number of characters written, which is positive. The call of
`set_tips()` finds the phase READY, assigned above, in which `set_tips` writes the text
`tips` only. -/
def set_position (T : Types) (p : Position) (newRule : Rule) : Bool × Position :=
  let p := clearPosition T p newRule
  let r := pieces_on_board_count T p
  if r.1 = -1 then (false, r.2)
  else
    let p := (pieces_in_hand_count T r.2).2
    let p := { p with pieceCountNeedRemove := 0, millListSize := 0, winner := T.NOBODY }
    let p := create_mill_table p
    (true, { p with currentSquare := T.SQ_0
                    elapsedSeconds := (p.elapsedSeconds.set T.WHITE 0).set T.BLACK 0 })

/-- `Position::reset`: the value returned and the position left behind. The test
`elapsedSeconds[BLACK] == elapsedSeconds[WHITE] == 0` compares the truth value of the first
equality with 0. The call of `set_tips()` finds the phase READY, assigned above, in which
`set_tips` writes the text `tips` only. -/
def reset (T : Types) (p : Position) : Bool × Position :=
  if p.phase = T.PHASE_READY ∧
      (if p.elapsedSeconds.getD T.BLACK 0 = p.elapsedSeconds.getD T.WHITE 0 then (1 : Nat) else 0)
        = 0 then (true, p)
  else
    let p := { p with currentStep := 0, moveStep := 0, phase := T.PHASE_READY }
    let p := set_side_to_move T p T.BLACK
    let p := { p with action := T.ACTION_PLACE, winner := T.NOBODY
                      board := List.replicate T.SQUARE_NB 0, key := 0 }
    let p := { p with pieceCountOnBoard := (p.pieceCountOnBoard.set T.WHITE 0).set T.BLACK 0 }
    let n := p.rule.nTotalPiecesEachSide
    let p := { p with pieceCountInHand := (p.pieceCountInHand.set T.WHITE n).set T.BLACK n }
    (true, { p with pieceCountNeedRemove := 0, millListSize := 0, currentSquare := T.SQ_0
                    elapsedSeconds := (p.elapsedSeconds.set T.WHITE 0).set T.BLACK 0 })

/-- The statements under `case PHASE_READY:` of `Position::start`. -/
def startClock (T : Types) (p : Position) : Position :=
  { p with startTime := T.time p.timeReads, timeReads := p.timeReads + 1
           phase := T.PHASE_PLACING }

/-- `Position::start`: the value returned and the position left behind. -/
def start (T : Types) (p : Position) : Bool × Position :=
  if p.phase = T.PHASE_PLACING ∨ p.phase = T.PHASE_MOVING then (false, p)
  else if p.phase = T.PHASE_GAMEOVER then (true, startClock T (reset T p).2)
  else if p.phase = T.PHASE_READY then (true, startClock T p)
  else (false, p)

/-- How the statements of `put_piece` or `remove_piece` before the label `out:` end: with a
`return` of a value, or with control at the label `out:` (by `goto out` or by reaching the
end of the statements). -/
inductive Exit where
  | returns (value : Bool)
  | out
  deriving DecidableEq, Repr

/-- `Position::set_tips`. The text `tips` is not modelled, so the cases READY, PLACING and
MOVING of the `switch` leave the position as it is. In phase GAMEOVER a draw increments
`score_draw`; otherwise `score[winner]++` writes the array `score`, and that write is
undefined (`none`) when `winner` is no index of the array. -/
def set_tips (T : Types) (p : Position) : Option Position :=
  if p.phase = T.PHASE_READY then some p
  else if p.phase = T.PHASE_PLACING then some p
  else if p.phase = T.PHASE_MOVING then some p
  else if p.phase = T.PHASE_GAMEOVER then
    if p.winner = T.DRAW then some { p with score_draw := p.score_draw + 1 }
    else if p.winner < p.score.length then
      some { p with score := p.score.set p.winner (p.score.getD p.winner 0 + 1) }
    else none
  else some p

/-- What `put_piece` and `remove_piece` do once the statements before the label `out:` have
ended in `r`: a `return` gives its value; at the label `out:` the function calls
`set_tips()` if `updateCmdlist` is set, and returns true. -/
def atExit (T : Types) (r : Exit × Position) (updateCmdlist : Bool) :
    Option (Bool × Position) :=
  match r.1 with
  | Exit.returns value => some (value, r.2)
  | Exit.out =>
    if updateCmdlist then (set_tips T r.2).map (fun p => (true, p)) else some (true, r.2)

/-- The statements of `put_piece` and `remove_piece` that end the placing phase: phase and
action are set, the banned squares are cleaned, the side to move is set by the rule and the
end of the game is tested. -/
def enterMoving (T : Types) (p : Position) (updateCmdlist : Bool) : Position :=
  let p := { p with phase := T.PHASE_MOVING, action := T.ACTION_SELECT }
  let p := clean_banned T p
  let p := if p.rule.isDefenderMoveFirst then set_side_to_move T p T.WHITE
    else set_side_to_move T p T.BLACK
  (check_gameover_condition T p updateCmdlist).2

/-- The statements of the placing branch of `put_piece` that put the stone on the board:
the piece is numbered, the counts, the board and the key are updated and the move is
recorded; `us` is the side to move read at the entry of `put_piece`. -/
def placeStone (T : Types) (p : Position) (s us : Nat) : Position :=
  let piece : Nat :=
    ((((0x01 ||| (p.sideToMove <<< T.PLAYER_SHIFT) : Nat) : Int) +
      p.rule.nTotalPiecesEachSide - p.pieceCountInHand.getD us 0) % 256).toNat
  let p := { p with pieceCountInHand :=
    p.pieceCountInHand.set us (p.pieceCountInHand.getD us 0 - 1) }
  let p := { p with pieceCountOnBoard :=
    p.pieceCountOnBoard.set us (p.pieceCountOnBoard.getD us 0 + 1) }
  let p := { p with board := p.board.set s piece }
  let p := update_key T p s
  { p with move := (s : Int) }

/-- The end of the placing branch of `put_piece`, from `if (n == 0)` to `goto out`, for the
number `n` of mills that `add_mills` has returned. -/
def afterPlacing (T : Types) (p : Position) (n : Int) (updateCmdlist : Bool) : Position :=
  if n = 0 then
    if p.pieceCountInHand.getD T.BLACK 0 = 0 ∧ p.pieceCountInHand.getD T.WHITE 0 = 0 then
      let g := check_gameover_condition T p updateCmdlist
      if g.1 then g.2 else enterMoving T g.2 updateCmdlist
    else change_side_to_move T p
  else
    { p with pieceCountNeedRemove :=
               if p.rule.allowRemoveMultiPiecesWhenCloseMultiMill then n else 1
             action := T.ACTION_REMOVE }

/-- The branch `if (phase == PHASE_PLACING)` of `put_piece`, which always ends at the label
`out:`; `us` is the side to move read at the entry of `put_piece`. -/
def put_piece_placing (T : Types) (p : Position) (s us : Nat) (updateCmdlist : Bool) :
    Position :=
  let p := placeStone T p s us
  let p := if updateCmdlist then
      { (update T p).2 with currentStep := (update T p).2.currentStep + 1 }
    else p
  let p := { p with currentSquare := s }
  let r := add_mills T p p.currentSquare
  afterPlacing T r.2 r.1 updateCmdlist

/-- The statements of the moving part of `put_piece` that move the stone from the current
square to `s`: the board and the key are updated and `s` becomes the current square. -/
def moveStone (T : Types) (p : Position) (s : Nat) : Position :=
  let p := { p with board := p.board.set s (p.board.getD p.currentSquare 0) }
  let p := update_key T p s
  let p := revert_key T p p.currentSquare
  let p := { p with board := p.board.set p.currentSquare T.NO_PIECE }
  { p with currentSquare := s }

/-- The end of the moving part of `put_piece`, from `if (n == 0)` to the label `out`, for
the number `n` of mills that `add_mills` has returned. -/
def afterMoving (T : Types) (p : Position) (n : Int) (updateCmdlist : Bool) : Position :=
  if n = 0 then
    (check_gameover_condition T (change_side_to_move T { p with action := T.ACTION_SELECT })
      updateCmdlist).2
  else
    { p with pieceCountNeedRemove :=
               if p.rule.allowRemoveMultiPiecesWhenCloseMultiMill then n else 1
             action := T.ACTION_REMOVE }

/-- The test `if illegal` of the moving part of `put_piece`: unless the side to move may
fly, `s` has to be one of the four entries of the move table for the current square. -/
def moveIsIllegal (T : Types) (p : Position) (s : Nat) : Bool :=
  (decide (p.pieceCountOnBoard.getD p.sideToMove 0 > p.rule.nPiecesAtLeast) ||
      !p.rule.allowFlyWhenRemainThreePieces) &&
    !(List.range 4).any (fun i => decide (s = T.moveTable p.currentSquare i))

/-- The part of `put_piece` after the placing branch (the moving phase), up to the label
`out:`. -/
def put_piece_moving (T : Types) (p : Position) (s : Nat) (updateCmdlist : Bool) :
    Exit × Position :=
  let g := check_gameover_condition T p updateCmdlist
  if g.1 then (Exit.out, g.2)
  else
    let p := g.2
    if moveIsIllegal T p s then (Exit.returns false, p)
    else
      let p := { p with move := T.make_move p.currentSquare s }
      let p := if updateCmdlist then
          { (update T p).2 with currentStep := (update T p).2.currentStep + 1
                                moveStep := (update T p).2.moveStep + 1 }
        else p
      let p := moveStone T p s
      let r := add_mills T p p.currentSquare
      (Exit.out, afterMoving T r.2 r.1 updateCmdlist)

/-- The statements of `put_piece` before the label `out:`: how they end and the position
they leave. -/
def put_piece_steps (T : Types) (p : Position) (s : Nat) (updateCmdlist : Bool) :
    Exit × Position :=
  let us := p.sideToMove
  if p.phase = T.PHASE_GAMEOVER then (Exit.returns false, p)
  else
    let p := if p.phase = T.PHASE_READY then (start T p).2 else p
    if p.action ≠ T.ACTION_PLACE then (Exit.returns false, p)
    else if onBoard.getD s 0 = 0 ∨ p.board.getD s 0 ≠ 0 then (Exit.returns false, p)
    else if p.phase = T.PHASE_PLACING then
      (Exit.out, put_piece_placing T p s us updateCmdlist)
    else put_piece_moving T p s updateCmdlist

/-- `Position::put_piece`: the value returned and the position left behind; `none` when the
call is undefined, which happens when `set_tips()` at the label `out:` writes outside the
array `score`. -/
def put_piece (T : Types) (p : Position) (s : Nat) (updateCmdlist : Bool) :
    Option (Bool × Position) :=
  atExit T (put_piece_steps T p s updateCmdlist) updateCmdlist

/-- The statements of `remove_piece` that take the stone off the board: the key and the
board are updated (a ban stone is left in the placing phase under a rule with banned
locations), the count of the opponent is decremented and the move is recorded. -/
def takeStone (T : Types) (p : Position) (s : Nat) : Position :=
  let p := if p.rule.hasBannedLocations = true ∧ p.phase = T.PHASE_PLACING then
      let p := revert_key T p s
      let p := { p with board := p.board.set s T.BAN_STONE }
      update_key T p s
    else
      let p := revert_key T p s
      { p with board := p.board.set s T.NO_PIECE }
  let p := { p with pieceCountOnBoard :=
    p.pieceCountOnBoard.set p.them (p.pieceCountOnBoard.getD p.them 0 - 1) }
  { p with move := -(s : Int) }

/-- The end of `remove_piece`, from the comment `Remove piece completed` to the label
`out:`: how the statements end and the position they leave. With pieces left to remove the
function returns true at once; every other path ends at the label `out:`. -/
def afterRemoving (T : Types) (p : Position) (updateCmdlist : Bool) : Exit × Position :=
  let g := check_gameover_condition T p updateCmdlist
  let p := g.2
  if g.1 then (Exit.out, p)
  else if p.pieceCountNeedRemove > 0 then (Exit.returns true, p)
  else if p.phase = T.PHASE_PLACING then
    if p.pieceCountInHand.getD T.BLACK 0 = 0 ∧ p.pieceCountInHand.getD T.WHITE 0 = 0 then
      (Exit.out, enterMoving T p updateCmdlist)
    else
      (Exit.out, (check_gameover_condition T
        (change_side_to_move T { p with action := T.ACTION_PLACE }) updateCmdlist).2)
  else
    (Exit.out, (check_gameover_condition T
      (change_side_to_move T { p with action := T.ACTION_SELECT }) updateCmdlist).2)

/-- The statements of `remove_piece` before the label `out:`: how they end and the position
they leave. -/
def remove_piece_steps (T : Types) (p : Position) (s : Nat) (updateCmdlist : Bool) :
    Exit × Position :=
  if p.phase &&& T.PHASE_NOTPLAYING ≠ 0 then (Exit.returns false, p)
  else if p.action ≠ T.ACTION_REMOVE then (Exit.returns false, p)
  else if p.pieceCountNeedRemove ≤ 0 then (Exit.returns false, p)
  else if (p.them <<< T.PLAYER_SHIFT) &&& p.board.getD s 0 = 0 then (Exit.returns false, p)
  else if p.rule.allowRemovePieceInMill = false ∧
      in_how_many_mills T p s T.NOBODY T.squareSelectedDefault ≠ 0 ∧
      is_all_in_mills T p (T.opposite p.sideToMove) = false then (Exit.returns false, p)
  else
    let p := takeStone T p s
    let p := if updateCmdlist then
        { (update T p).2 with currentStep := (update T p).2.currentStep + 1, moveStep := 0 }
      else p
    let p := { p with currentSquare := T.SQ_0 }
    let p := { p with pieceCountNeedRemove := p.pieceCountNeedRemove - 1 }
    afterRemoving T p updateCmdlist

/-- `Position::remove_piece`: the value returned and the position left behind; `none` when
the call is undefined, which happens when `set_tips()` at the label `out:` writes outside
the array `score`. -/
def remove_piece (T : Types) (p : Position) (s : Nat) (updateCmdlist : Bool) :
    Option (Bool × Position) :=
  atExit T (remove_piece_steps T p s updateCmdlist) updateCmdlist

/-- `Position::select_piece`: the value returned and the position left behind. -/
def select_piece (T : Types) (p : Position) (s : Nat) : Bool × Position :=
  if p.phase ≠ T.PHASE_MOVING then (false, p)
  else if p.action ≠ T.ACTION_SELECT ∧ p.action ≠ T.ACTION_PLACE then (false, p)
  else if p.board.getD s 0 &&& (p.sideToMove <<< T.PLAYER_SHIFT) ≠ 0 then
    (true, { p with currentSquare := s, action := T.ACTION_PLACE })
  else (false, p)

/-- The member `move_piece(from, to)` as `Position::command` spells it out for a move
command: `select_piece(from)` and, if that succeeds, `put_piece(to)`. Its declaration is in
`position.h`; `do_move` below takes it as a parameter. -/
def move_piece (T : Types) (p : Position) (fromSq toSq : Nat) : Option (Bool × Position) :=
  let r := select_piece T p fromSq
  if r.1 then put_piece T r.2 toSq T.updateCmdlistDefault else some (false, r.2)

/-- `Position::do_move`, with the member `move_piece` as a parameter; `none` when the call
it makes is undefined. -/
def do_move (T : Types) (movePiece : Position → Nat → Nat → Option (Bool × Position))
    (p : Position) (m : Move) : Option (Bool × Position) :=
  let mt := T.type_of m
  if mt = T.MOVETYPE_REMOVE then remove_piece T p (-m).toNat T.updateCmdlistDefault
  else if mt = T.MOVETYPE_MOVE then movePiece p (T.from_sq m) (T.to_sq m)
  else if mt = T.MOVETYPE_PLACE then put_piece T p (T.to_sq m) T.updateCmdlistDefault
  else some (false, p)

/-- `Position::next_primary_key`. -/
def next_primary_key (T : Types) (p : Position) (m : Move) : Nat :=
  let npKey := p.key
  let s := T.to_sq m
  let mt := T.type_of m
  if mt = T.MOVETYPE_REMOVE then
    let npKey := npKey ^^^ T.psq (T.opposite p.sideToMove) s
    if p.rule.hasBannedLocations = true ∧ p.phase = T.PHASE_PLACING then
      npKey ^^^ T.psq T.BAN s
    else npKey
  else
    let npKey := npKey ^^^ T.psq p.sideToMove s
    if mt = T.MOVETYPE_MOVE then npKey ^^^ T.psq p.sideToMove (T.from_sq m) else npKey

/-- The declarations of the absent headers with the values `position.cpp` is written for:
colours 1 (black) and 2 (white) as in the comment of `update_key` and the loops
`for (int i = 1; i <= 2; i++)`, the shift 4 that goes with the mask `0x30` of `color_on`,
the ban stone `0x0f` and piece type 3 of the same comment, 40 squares in files of 8 of which
`onBoard` marks 8..31, three line directions as in the rows of the mill tables, four move
directions as in the loop of `put_piece`, phases and actions as distinct bits, and the move
encoding `mirror` relies on (a removal is the negated square, a move is
`(from << 8) | to`). The colour operator `~` exchanges 1 and 2. The Zobrist table, the move
table, the clock and the two boolean default arguments stay parameters. -/
def sanmillTypes (psq : Nat → Nat → Nat) (moveTable : Nat → Nat → Nat) (time : Nat → Int)
    (updateCmdlistDefault checkUpdateCmdlistDefault : Bool) : Types where
  PLAYER_SHIFT := 4
  NO_PIECE := 0
  BAN_STONE := 0x0f
  B_STONE := 0x10
  W_STONE := 0x20
  BLACK := 1
  WHITE := 2
  NOBODY := 8
  DRAW := 4
  BAN := 3
  opposite := fun c => c ^^^ 3
  SQ_0 := 0
  SQ_BEGIN := 8
  SQ_END := 32
  SQUARE_NB := 40
  FILE_NB := 3
  RANK_NB := 8
  LD_NB := 3
  MD_BEGIN := 0
  MD_NB := 4
  PHASE_NONE := 0
  PHASE_READY := 1
  PHASE_PLACING := 2
  PHASE_MOVING := 4
  PHASE_GAMEOVER := 8
  PHASE_PLAYING := 6
  PHASE_NOTPLAYING := 9
  ACTION_SELECT := 0x0100
  ACTION_PLACE := 0x0200
  ACTION_REMOVE := 0x0400
  MOVETYPE_PLACE := 0
  MOVETYPE_MOVE := 1
  MOVETYPE_REMOVE := 2
  type_of := fun m => if m < 0 then 2 else if m.toNat &&& 0x1f00 ≠ 0 then 1 else 0
  to_sq := fun m => (if m < 0 then (-m).toNat else m.toNat) &&& 0x00ff
  from_sq := fun m => (m / 256).toNat
  make_move := fun a b => ((a <<< 8) + b : Nat)
  psq := psq
  moveTable := moveTable
  time := time
  updateCmdlistDefault := updateCmdlistDefault
  checkUpdateCmdlistDefault := checkUpdateCmdlistDefault
  squareSelectedDefault := 0

/-- A Zobrist table with independent entries: entry `(pt, s)` is the single bit
`40 * pt + s`. -/
def psqExample (pt s : Nat) : Nat :=
  2 ^ (40 * pt + s)

/-- The move table of the board without oblique lines: direction 0 and 1 are the two
neighbours on the ring of `s`, direction 2 and 3 the neighbours on the inner and outer ring,
which exist for the squares of even rank only; 0 stands for no neighbour. -/
def moveTableExample (s d : Nat) : Nat :=
  if s < 8 ∨ 32 ≤ s then 0
  else if d = 0 then s / 8 * 8 + (s % 8 + 1) % 8
  else if d = 1 then s / 8 * 8 + (s % 8 + 7) % 8
  else if d = 2 then (if s % 2 = 0 ∧ 16 ≤ s then s - 8 else 0)
  else if d = 3 then (if s % 2 = 0 ∧ s < 24 then s + 8 else 0)
  else 0

/-- A clock that advances one second per reading. -/
def timeExample (n : Nat) : Int :=
  (n : Int)

/-- The instance of the header declarations used for the concrete evaluations. -/
def typesExample : Types :=
  sanmillTypes psqExample moveTableExample timeExample false false

/-- Nine men's morris: nine pieces a side, no oblique lines, no banned locations, a piece
in a mill is protected, no time or step limit. -/
def ruleExample : Rule where
  nTotalPiecesEachSide := 9
  nPiecesAtLeast := 3
  hasObliqueLines := false
  hasBannedLocations := false
  isDefenderMoveFirst := false
  allowRemoveMultiPiecesWhenCloseMultiMill := false
  allowRemovePieceInMill := false
  isBlackLosebutNotDrawWhenBoardFull := true
  isLoseButNotChangeTurnWhenNoWay := true
  allowFlyWhenRemainThreePieces := false
  allowRemovePiecesRepeatedlyWhenCloseSameMill := false
  maxStepsLedToDraw := 0
  maxTimeLedToLose := 0

/-- A position object with every member zero (arrays of 40 squares, 3 colours, 4 mills; the
array `score` has an entry for each of the 3 colours). -/
def blankPosition : Position where
  rule := ruleExample
  board := List.replicate 40 0
  pieceCountInHand := [0, 0, 0]
  pieceCountOnBoard := [0, 0, 0]
  pieceCountNeedRemove := 0
  sideToMove := 0
  them := 0
  phase := 0
  action := 0
  winner := 0
  currentSquare := 0
  move := 0
  key := 0
  millList := [0, 0, 0, 0]
  millListSize := 0
  millTable := List.replicate 40 [[0, 0], [0, 0], [0, 0]]
  currentStep := 0
  moveStep := 0
  elapsedSeconds := [0, 0, 0]
  startTime := 0
  currentTime := 0
  timeReads := 0
  score := [0, 0, 0]
  score_draw := 0

/-- A call of one of the three functions by which a game is played. -/
inductive PosCall where
  | put (s : Nat) (updateCmdlist : Bool)
  | select (s : Nat)
  | remove (s : Nat) (updateCmdlist : Bool)
  deriving DecidableEq, Repr

/-- The argument `updateCmdlist` of a call (`select_piece` has none). -/
def PosCall.updateCmdlist : PosCall → Bool
  | PosCall.put _ u => u
  | PosCall.select _ => false
  | PosCall.remove _ u => u

/-- Runs one call: the value returned and the position left behind; `none` when the call is
undefined. -/
def PosCall.run (T : Types) (p : Position) : PosCall → Option (Bool × Position)
  | PosCall.put s u => put_piece T p s u
  | PosCall.select s => some (select_piece T p s)
  | PosCall.remove s u => remove_piece T p s u

/-- Runs a sequence of calls, whatever each of them returns; `none` when one of the calls is
undefined. -/
def runPosCalls (T : Types) : List PosCall → Position → Option Position
  | [], p => some p
  | c :: rest, p =>
    match c.run T p with
    | none => none
    | some r => runPosCalls T rest r.2

/-- The position that a sequence of calls leaves behind, for the sequences of the examples
below, on which every call is defined (`blankPosition` stands for an undefined run). -/
def positionAfter (calls : List PosCall) (p : Position) : Position :=
  (runPosCalls typesExample calls p).getD blankPosition

/-- The position `set_position` leaves behind for rule `r`, called on a blank object. -/
def freshPosition (r : Rule) : Position :=
  (set_position typesExample blankPosition r).2

/-- Black places 8, 9, 12, 13 and white 17, 18, 30, 19: the last placement closes the
white mill 17-18-19. -/
def whiteMillCalls : List PosCall :=
  [PosCall.put 8 false, PosCall.put 17 false, PosCall.put 9 false, PosCall.put 18 false,
   PosCall.put 12 false, PosCall.put 30 false, PosCall.put 13 false, PosCall.put 19 false]

/-- The position after `whiteMillCalls`: white has closed the mill 17-18-19 and is to
remove a black piece. -/
def whiteMillPosition : Position :=
  positionAfter whiteMillCalls (freshPosition ruleExample)

/-- The position after white has removed the black piece on 12 and black has closed the
mill 15-8-9: black is to remove a white piece; white stands on 17, 18, 19 (a closed mill)
and on 30 (in no mill). -/
def blackToRemovePosition : Position :=
  positionAfter [PosCall.remove 12 false, PosCall.put 15 false] whiteMillPosition

/-- The rule `ruleExample` with a time limit of five minutes. -/
def timedRule : Rule :=
  { ruleExample with maxTimeLedToLose := 5 }

/-- The position after the first placement (black on 12) of a game under `timedRule`. -/
def timedPosition : Position :=
  positionAfter [PosCall.put 12 false] (freshPosition timedRule)

/-- The rule `ruleExample` with `isLoseButNotChangeTurnWhenNoWay` switched off: a player
who cannot move passes. -/
def passRule : Rule :=
  { ruleExample with isLoseButNotChangeTurnWhenNoWay := false }

/-- Eighteen placements, black and white in turn, that close no mill: black ends on
12, 13, 14, 24, 26, 27, 28, 30, 31 and white on 9, 11, 15, 16, 18, 20, 22, 25, 29, so that
every empty square (8, 10, 17, 19, 21, 23) has white neighbours only. -/
def blockadeCalls : List PosCall :=
  [12, 9, 13, 11, 14, 15, 24, 16, 26, 18, 27, 20, 28, 22, 30, 25, 31, 29].map
    (fun s => PosCall.put s false)

/-- The position before the last placement of `blockadeCalls`. -/
def beforeBlockadePosition : Position :=
  positionAfter (blockadeCalls.take 17) (freshPosition passRule)

/-- The position on which the last placement of `blockadeCalls` calls
`check_gameover_condition` after it has entered the moving phase: all pieces are placed,
black is to select a piece and none of the black pieces has an empty neighbour. -/
def blockedPosition : Position :=
  { positionAfter blockadeCalls (freshPosition passRule) with
    phase := typesExample.PHASE_MOVING, sideToMove := typesExample.BLACK
    them := typesExample.WHITE }

/-- The rule `ruleExample` with banned locations: a piece removed in the placing phase
leaves a ban stone behind. -/
def bannedRule : Rule :=
  { ruleExample with hasBannedLocations := true }

/-- Black places 8, 9, 15 and white 16, 17: the last placement closes the black mill
15-8-9. -/
def blackMillCalls : List PosCall :=
  [8, 16, 9, 17, 15].map (fun s => PosCall.put s false)

/-- The position after `blackMillCalls` under `bannedRule`: black has closed the mill
15-8-9 in the placing phase and is to remove a white piece. -/
def bannedRemovalPosition : Position :=
  positionAfter blackMillCalls (freshPosition bannedRule)

/-- The number of `i < n` with `P i`. -/
def countUpTo (P : Nat → Bool) : Nat → Nat
  | 0 => 0
  | n + 1 => countUpTo P n + (if P n then 1 else 0)

/-- The number of stones of colour `c` on the board: the squares `s` of the board array
with `color_on(s) = c`. -/
def stonesOnBoard (T : Types) (p : Position) (c : Nat) : Nat :=
  countUpTo (fun s => decide (color_on T p s = c)) T.SQUARE_NB

/-- The values of the header constants that the invariant of a game depends on: the shift
and the piece values, the colours and their exchange by `~`, the size of the board, and the
phases and actions as distinct bits. -/
structure Types.Standard (T : Types) : Prop where
  shift : T.PLAYER_SHIFT = 4
  noPiece : T.NO_PIECE = 0
  banStone : T.BAN_STONE = 15
  bStone : T.B_STONE = 16
  wStone : T.W_STONE = 32
  black : T.BLACK = 1
  white : T.WHITE = 2
  oppBlack : T.opposite 1 = 2
  oppWhite : T.opposite 2 = 1
  sq0 : T.SQ_0 = 0
  squareNb : T.SQUARE_NB = 40
  fileNb : T.FILE_NB = 3
  rankNb : T.RANK_NB = 8
  ready : T.PHASE_READY = 1
  placing : T.PHASE_PLACING = 2
  moving : T.PHASE_MOVING = 4
  gameover : T.PHASE_GAMEOVER = 8
  playing : T.PHASE_PLAYING = 6
  notPlaying : T.PHASE_NOTPLAYING = 9
  select : T.ACTION_SELECT = 256
  place : T.ACTION_PLACE = 512
  remove : T.ACTION_REMOVE = 1024

/-- The relation between a position `p` and the position `r` that a bookkeeping step
(`check_gameover_condition`, `update`, `add_mills`) leaves behind: rule, board, counts, key,
current square and action are the same, and either phase and side to move are the same too,
or the phase is GAMEOVER and the side to move is the same or the other one. -/
def Bookkeeping (T : Types) (p r : Position) : Prop :=
  r.rule = p.rule ∧ r.board = p.board ∧ r.pieceCountInHand = p.pieceCountInHand ∧
  r.pieceCountOnBoard = p.pieceCountOnBoard ∧ r.key = p.key ∧
  r.currentSquare = p.currentSquare ∧ r.action = p.action ∧
  ((r.phase = p.phase ∧ r.sideToMove = p.sideToMove ∧ r.them = p.them) ∨
    (r.phase = T.PHASE_GAMEOVER ∧
      ((r.sideToMove = p.sideToMove ∧ r.them = p.them) ∨
        (r.sideToMove = T.opposite p.sideToMove ∧
          r.them = T.opposite (T.opposite p.sideToMove)))))

/-- The square that `mirror` sends square `s` to: `f = s / RANK_NB; r = s % RANK_NB;
r = (RANK_NB - r) % RANK_NB;` and the result `f * RANK_NB + r`. -/
def mirrorSquare (T : Types) (s : Nat) : Nat :=
  let f := s / T.RANK_NB
  let r := s % T.RANK_NB
  let r := (T.RANK_NB - r) % T.RANK_NB
  f * T.RANK_NB + r

/-- The exchange of `board[i]` and `board[j]` through the local `ch`. -/
def swapSquares (board : List Nat) (i j : Nat) : List Nat :=
  let ch := board.getD i 0
  let board := board.set i (board.getD j 0)
  board.set j ch

/-- The loop of `mirror` over the board: for `f = 1 .. FILE_NB` and
`r = 1 .. RANK_NB / 2 - 1` it exchanges `board[f * RANK_NB + r]` and
`board[(f + 1) * RANK_NB - r]`. -/
def mirrorBoard (T : Types) (board : List Nat) : List Nat :=
  (List.range' 1 T.FILE_NB).foldl (fun board f =>
    (List.range' 1 (T.RANK_NB / 2 - 1)).foldl (fun board r =>
      swapSquares board (f * T.RANK_NB + r) ((f + 1) * T.RANK_NB - r)) board) board

/-- The body of the loop over `millList` that `mirror` and `rotate` share, with `g` the
transform of a square: the bytes at bit 32, 16 and 0 are taken out, transformed and put
back. With squares below 256 no value leaves the 64 bits of the entry. -/
def mapMill (g : Nat → Nat) (mill : Nat) : Nat :=
  let llp0 := (mill &&& 0x000000ff00000000) >>> 32
  let llp1 := (mill &&& 0x0000000000ff0000) >>> 16
  let llp2 := mill &&& 0x00000000000000ff
  let llp0 := g llp0
  let llp1 := g llp1
  let llp2 := g llp2
  let mill := mill &&& 0xffffff00ff00ff00
  mill ||| ((llp0 <<< 32) ||| (llp1 <<< 16) ||| llp2)

/-- The re-encoding of the recorded move that `mirror` and `rotate` share, with `g` the
transform of a square: a negative move is the negated square, any other move is taken
apart with `from_sq` and `to_sq` and put together as `(llp[0] << 8) | llp[1]`. -/
def mapMove (T : Types) (g : Nat → Nat) (move : Move) : Move :=
  if move < 0 then
    -((g (-move).toNat : Nat) : Int)
  else
    let llp0 := T.from_sq move
    let llp1 := T.to_sq move
    let llp0 := g llp0
    let llp1 := g llp1
    (((llp0 <<< 8) ||| llp1 : Nat) : Int)

/-- `Position::mirror`, without the rewriting of the command texts that `cmdChange` asks
for. -/
def mirror (T : Types) (p : Position) (_cmdChange : Bool) : Position :=
  let p := { p with board := mirrorBoard T p.board }
  let p := { p with move := mapMove T (mirrorSquare T) p.move }
  let p :=
    if p.currentSquare ≠ 0 then { p with currentSquare := mirrorSquare T p.currentSquare }
    else p
  if p.rule.allowRemovePiecesRepeatedlyWhenCloseSameMill then
    { p with millList := p.millList.map (mapMill (mirrorSquare T)) }
  else p

/-- The square that `rotate` sends square `s` to, `degrees` being 2, 4 or 6:
`f = s / RANK_NB; r = s % RANK_NB; r = (r + RANK_NB - degrees) % RANK_NB;` and the result
`f * RANK_NB + r`. -/
def rotateSquare (T : Types) (degrees s : Nat) : Nat :=
  let f := s / T.RANK_NB
  let r := s % T.RANK_NB
  let r := (r + T.RANK_NB - degrees) % T.RANK_NB
  f * T.RANK_NB + r

/-- The board loop of `rotate` for `degrees == 2`. -/
def rotateBoard2 (T : Types) (board : List Nat) : List Nat :=
  (List.range' 1 T.FILE_NB).foldl (fun board f =>
    let ch1 := board.getD (f * T.RANK_NB) 0
    let ch2 := board.getD (f * T.RANK_NB + 1) 0
    let board := (List.range (T.RANK_NB - 2)).foldl (fun board r =>
      board.set (f * T.RANK_NB + r) (board.getD (f * T.RANK_NB + r + 2) 0)) board
    let board := board.set (f * T.RANK_NB + 6) ch1
    board.set (f * T.RANK_NB + 7) ch2) board

/-- The board loop of `rotate` for `degrees == 6`. -/
def rotateBoard6 (T : Types) (board : List Nat) : List Nat :=
  (List.range' 1 T.FILE_NB).foldl (fun board f =>
    let ch1 := board.getD (f * T.RANK_NB + 7) 0
    let ch2 := board.getD (f * T.RANK_NB + 6) 0
    let board := (List.range' 2 (T.RANK_NB - 2)).reverse.foldl (fun board r =>
      board.set (f * T.RANK_NB + r) (board.getD (f * T.RANK_NB + r - 2) 0)) board
    let board := board.set (f * T.RANK_NB + 1) ch1
    board.set (f * T.RANK_NB) ch2) board

/-- The board loop of `rotate` for `degrees == 4`. -/
def rotateBoard4 (T : Types) (board : List Nat) : List Nat :=
  (List.range' 1 T.FILE_NB).foldl (fun board f =>
    (List.range (T.RANK_NB / 2)).foldl (fun board r =>
      swapSquares board (f * T.RANK_NB + r) (f * T.RANK_NB + r + 4)) board) board

/-- `Position::rotate`, without the rewriting of the command texts that `cmdChange` asks
for. `%` and `/` on `int` truncate towards zero. -/
def rotate (T : Types) (p : Position) (degrees : Int) (_cmdChange : Bool) : Position :=
  let degrees := degrees.tmod 360
  let degrees := if degrees < 0 then degrees + 360 else degrees
  if degrees = 0 ∨ degrees.tmod 90 ≠ 0 then p
  else
    let degrees := degrees.tdiv 45
    let rotated : Option (List Nat) :=
      if degrees = 2 then some (rotateBoard2 T p.board)
      else if degrees = 6 then some (rotateBoard6 T p.board)
      else if degrees = 4 then some (rotateBoard4 T p.board)
      else none
    match rotated with
    | none => p
    | some board =>
      let p := { p with board := board }
      let p := { p with move := mapMove T (rotateSquare T degrees.toNat) p.move }
      let p :=
        if p.currentSquare ≠ 0 then
          { p with currentSquare := rotateSquare T degrees.toNat p.currentSquare }
        else p
      if p.rule.allowRemovePiecesRepeatedlyWhenCloseSameMill then
        { p with millList := p.millList.map (mapMill (rotateSquare T degrees.toNat)) }
      else p

/-- The position after black has placed a piece on square 9 of the fresh board. -/
def firstPlacementPosition : Position :=
  positionAfter [PosCall.put 9 false] (freshPosition ruleExample)

/-- The lines a mill table lists: for every square `s` of the 40 and every direction `l` of
the 3 whose entry is not `{0, 0}`, the three squares `s`, `millTable[s][l][0]` and
`millTable[s][l][1]` in increasing order. -/
def linesOfTable (t : List (List (List Nat))) : List (List Nat) :=
  (List.range 40).flatMap fun s =>
    (List.range 3).filterMap fun l =>
      let a := ((t.getD s []).getD l []).getD 0 0
      let b := ((t.getD s []).getD l []).getD 1 0
      if a = 0 ∧ b = 0 then none else some (List.insertionSort (fun x y => x ≤ y) [s, a, b])

/-- The distinct mills of a mill table: its lines without repetition. -/
def distinctMills (t : List (List (List Nat))) : List (List Nat) :=
  (linesOfTable t).dedup

/-- A well-formed mill table with `n` mills: 40 rows of 3 lines of 2 entries; the rows of
the squares that `onBoard` does not mark, which are the squares below 8 and from 32 on, are
all zero; every non-zero entry is a square 8..31 that `onBoard` marks; whenever `{a, b}` is
a line of `s`, then `{s, b}` in some order is a line of `a` and `{s, a}` in some order is a
line of `b`; and the table lists exactly `n` distinct mills. -/
def WellFormedMillTable (t : List (List (List Nat))) (n : Nat) : Prop :=
  t.length = 40 ∧
  (∀ s < 40, (t.getD s []).length = 3 ∧ ∀ l < 3, ((t.getD s []).getD l []).length = 2) ∧
  (∀ s < 40, (onBoard.getD s 0 = 0 ↔ (s < 8 ∨ 32 ≤ s))) ∧
  (∀ s < 40, onBoard.getD s 0 = 0 →
    ∀ l < 3, ∀ k < 2, ((t.getD s []).getD l []).getD k 0 = 0) ∧
  (∀ s < 40, ∀ l < 3, ∀ k < 2, ((t.getD s []).getD l []).getD k 0 ≠ 0 →
    8 ≤ ((t.getD s []).getD l []).getD k 0 ∧ ((t.getD s []).getD l []).getD k 0 < 32 ∧
    onBoard.getD (((t.getD s []).getD l []).getD k 0) 0 ≠ 0) ∧
  (∀ s < 40, ∀ l < 3,
    ¬ (((t.getD s []).getD l []).getD 0 0 = 0 ∧ ((t.getD s []).getD l []).getD 1 0 = 0) →
    ([s, ((t.getD s []).getD l []).getD 1 0] ∈ t.getD (((t.getD s []).getD l []).getD 0 0) [] ∨
      [((t.getD s []).getD l []).getD 1 0, s] ∈
        t.getD (((t.getD s []).getD l []).getD 0 0) []) ∧
    ([s, ((t.getD s []).getD l []).getD 0 0] ∈ t.getD (((t.getD s []).getD l []).getD 1 0) [] ∨
      [((t.getD s []).getD l []).getD 0 0, s] ∈
        t.getD (((t.getD s []).getD l []).getD 1 0) [])) ∧
  (distinctMills t).length = n

/-! ## Theorems: the completed-layer queue -/

theorem pushCalculatedLayers_queue (ids : List Nat) (m : MiniMax) :
    (pushCalculatedLayers m ids).lastCalculatedLayer = m.lastCalculatedLayer ++ ids := by
  induction ids generalizing m with
  | nil => simp [pushCalculatedLayers]
  | cons x xs ih =>
    have h := ih (pushLastCalculatedLayer m x)
    simp only [pushCalculatedLayers, List.foldl_cons] at h ⊢
    rw [h]
    simp [pushLastCalculatedLayer]

theorem drainCalculatedLayers_take (k : Nat) (m : MiniMax)
    (hk : k ≤ m.lastCalculatedLayer.length) :
    ∃ mk, drainCalculatedLayers k m = some (m.lastCalculatedLayer.take k, mk) ∧
      mk.lastCalculatedLayer = m.lastCalculatedLayer.drop k := by
  induction k generalizing m with
  | zero => exact ⟨m, by simp [drainCalculatedLayers]⟩
  | succ n ih =>
    cases hq : m.lastCalculatedLayer with
    | nil => simp [hq] at hk
    | cons x rest =>
      have hlen : n ≤ ({ m with lastCalculatedLayer := rest } : MiniMax).lastCalculatedLayer.length := by
        simp [hq] at hk
        simpa using hk
      obtain ⟨mk, h1, h2⟩ := ih { m with lastCalculatedLayer := rest } hlen
      refine ⟨mk, ?_, ?_⟩
      · simp only [drainCalculatedLayers, getLastCalculatedLayer, hq, h1]
        simp
      · simpa using h2

/-- C1: layer ids appended to the completed-layer queue are returned by
`getLastCalculatedLayer` in the order they were appended, each exactly once: starting from an
empty queue, as many calls as ids were appended return exactly the appended list and leave
`anyFreshlyCalculatedLayer` false, and after any smaller number `k` of calls the first `k`
ids have been returned and `anyFreshlyCalculatedLayer` is still true. -/
theorem getLastCalculatedLayer_fifo (m : MiniMax) (ids : List Nat)
    (hempty : m.lastCalculatedLayer = []) :
    (∃ m1, drainCalculatedLayers ids.length (pushCalculatedLayers m ids) = some (ids, m1) ∧
      anyFreshlyCalculatedLayer m1 = false) ∧
    ∀ k, k < ids.length →
      ∃ mk, drainCalculatedLayers k (pushCalculatedLayers m ids) = some (ids.take k, mk) ∧
        anyFreshlyCalculatedLayer mk = true := by
  have hq : (pushCalculatedLayers m ids).lastCalculatedLayer = ids := by
    rw [pushCalculatedLayers_queue, hempty, List.nil_append]
  constructor
  · obtain ⟨m1, h1, h2⟩ :=
      drainCalculatedLayers_take ids.length (pushCalculatedLayers m ids) (by rw [hq])
    refine ⟨m1, ?_, ?_⟩
    · rw [h1, hq, List.take_length]
    · simp [anyFreshlyCalculatedLayer, h2, hq]
  · intro k hk
    obtain ⟨mk, h1, h2⟩ :=
      drainCalculatedLayers_take k (pushCalculatedLayers m ids) (by rw [hq]; omega)
    refine ⟨mk, ?_, ?_⟩
    · rw [h1, hq]
    · simp only [anyFreshlyCalculatedLayer, h2, hq, List.length_drop, gt_iff_lt,
        decide_eq_true_eq]
      omega

theorem getLastCalculatedLayer_fifo_witness :
    miniMaxExample.lastCalculatedLayer = [] ∧
    ((∃ m1, drainCalculatedLayers 3 (pushCalculatedLayers miniMaxExample [4, 2, 7]) =
        some ([4, 2, 7], m1) ∧ anyFreshlyCalculatedLayer m1 = false) ∧
      ∀ k, k < 3 →
        ∃ mk, drainCalculatedLayers k (pushCalculatedLayers miniMaxExample [4, 2, 7]) =
          some ([4, 2, 7].take k, mk) ∧ anyFreshlyCalculatedLayer mk = true) :=
  ⟨rfl, getLastCalculatedLayer_fifo miniMaxExample [4, 2, 7] rfl⟩

/-! ## Theorems: catalog queries -/

/-- C9: when the catalog holds the current layer, `getCurCalculatedLayer` yields the current
layer alone if the layer is its own partner or retro-analysis is not used for it, and
otherwise exactly the current layer followed by its partner; the result has length 1 or 2,
starts with the current layer and lists no layer twice. -/
theorem getCurCalculatedLayer_spec (shallRetroAnalysisBeUsed : Nat → Bool) (m : MiniMax)
    (layers : List Nat) (ls : List LayerStats) (l : LayerStats)
    (hls : m.layerStats = some ls) (hl : ls[m.curCalculatedLayer]? = some l) :
    ∃ out, getCurCalculatedLayer shallRetroAnalysisBeUsed m layers = some out ∧
      (l.partnerLayer = m.curCalculatedLayer ∨
          shallRetroAnalysisBeUsed m.curCalculatedLayer = false →
        out = [m.curCalculatedLayer]) ∧
      (l.partnerLayer ≠ m.curCalculatedLayer ∧
          shallRetroAnalysisBeUsed m.curCalculatedLayer = true →
        out = [m.curCalculatedLayer, l.partnerLayer]) ∧
      (out.length = 1 ∨ out.length = 2) ∧
      out.head? = some m.curCalculatedLayer ∧
      out.Nodup := by
  have r1 : ∀ v : List Nat, ∀ a : Nat,
      (v.take 1 ++ List.replicate (1 - v.length) 0).set 0 a = [a] := by
    intro v a
    cases v with
    | nil => rfl
    | cons x xs => simp
  have r2 : ∀ v : List Nat, ∀ a b : Nat,
      ((v.take 2 ++ List.replicate (2 - v.length) 0).set 0 a).set 1 b = [a, b] := by
    intro v a b
    cases v with
    | nil => rfl
    | cons x xs =>
      cases xs with
      | nil => rfl
      | cons y ys => simp
  by_cases hs : shallRetroAnalysisBeUsed m.curCalculatedLayer = true
  · by_cases hp : l.partnerLayer = m.curCalculatedLayer
    · refine ⟨[m.curCalculatedLayer], ?_, ?_⟩
      · simp only [getCurCalculatedLayer, hs, hls, hl, hp, r1]
        simp
      · simp [hp]
    · refine ⟨[m.curCalculatedLayer, l.partnerLayer], ?_, ?_⟩
      · simp only [getCurCalculatedLayer, hs, hls, hl, r2]
        simp [hp]
      · simp [hp, hs]
        exact fun h => hp h.symm
  · refine ⟨[m.curCalculatedLayer], ?_, ?_⟩
    · simp only [getCurCalculatedLayer, hs, r1]
      simp
    · simp [hs]

theorem getCurCalculatedLayer_spec_witness :
    miniMaxExample.layerStats = some [layerExample 1 true, layerExample 0 false] ∧
    [layerExample 1 true, layerExample 0 false][miniMaxExample.curCalculatedLayer]? =
      some (layerExample 1 true) ∧
    ∃ out, getCurCalculatedLayer (fun _ => true) miniMaxExample [5, 6, 7] = some out ∧
      ((layerExample 1 true).partnerLayer = miniMaxExample.curCalculatedLayer ∨
          (fun _ : Nat => true) miniMaxExample.curCalculatedLayer = false →
        out = [miniMaxExample.curCalculatedLayer]) ∧
      ((layerExample 1 true).partnerLayer ≠ miniMaxExample.curCalculatedLayer ∧
          (fun _ : Nat => true) miniMaxExample.curCalculatedLayer = true →
        out = [miniMaxExample.curCalculatedLayer, (layerExample 1 true).partnerLayer]) ∧
      (out.length = 1 ∨ out.length = 2) ∧
      out.head? = some miniMaxExample.curCalculatedLayer ∧
      out.Nodup :=
  ⟨rfl, rfl,
    getCurCalculatedLayer_spec (fun _ => true) miniMaxExample [5, 6, 7]
      [layerExample 1 true, layerExample 0 false] (layerExample 1 true) rfl rfl⟩

/-- C10: `isLayerInDatabase` yields false when `layerStats` is null, and otherwise the flag
`layerIsCompletedAndInFile` of the layer asked for; in both cases the state after the call
is the state before it. -/
theorem isLayerInDatabase_spec (m : MiniMax) (layerNum : Nat) :
    (m.layerStats = none → isLayerInDatabase m layerNum = some (false, m)) ∧
    (∀ ls l, m.layerStats = some ls → ls[layerNum]? = some l →
      isLayerInDatabase m layerNum = some (l.layerIsCompletedAndInFile, m)) := by
  constructor
  · intro h
    simp [isLayerInDatabase, h]
  · intro ls l h1 h2
    simp [isLayerInDatabase, h1, h2]

theorem isLayerInDatabase_spec_witness :
    isLayerInDatabase { miniMaxExample with layerStats := none } 1 =
        some (false, { miniMaxExample with layerStats := none }) ∧
    isLayerInDatabase miniMaxExample 0 = some (true, miniMaxExample) ∧
    isLayerInDatabase miniMaxExample 1 = some (false, miniMaxExample) :=
  ⟨(isLayerInDatabase_spec { miniMaxExample with layerStats := none } 1).1 rfl,
    (isLayerInDatabase_spec miniMaxExample 0).2 _ (layerExample 1 true) rfl rfl,
    (isLayerInDatabase_spec miniMaxExample 1).2 _ (layerExample 0 false) rfl rfl⟩

/-! ## Theorems: layer statistics -/

theorem scanLayer_succ (values : Nat → TwoBit) (n : Nat) :
    scanLayer values (n + 1) = incrStatsValueCounter (scanLayer values n) (values n) := by
  simp [scanLayer, List.range_succ, List.foldl_append]

theorem countStates_succ (values : Nat → TwoBit) (n : Nat) (v : TwoBit) :
    countStates values (n + 1) v = countStates values n v + (if values n = v then 1 else 0) := by
  simp [countStates, List.range_succ, List.countP_append, List.countP_cons]

theorem countStates_le (values : Nat → TwoBit) (n : Nat) (v : TwoBit) :
    countStates values n v ≤ n := by
  have h := List.countP_le_length (fun s => decide (values s = v)) (l := List.range n)
  simpa [countStates] using h

theorem scanLayer_eq_mod (values : Nat → TwoBit) (n : Nat) (v : TwoBit) :
    scanLayer values n v = countStates values n v % 2 ^ 32 := by
  induction n with
  | zero => simp [scanLayer, countStates]
  | succ n ih =>
    rw [scanLayer_succ, countStates_succ]
    unfold incrStatsValueCounter
    by_cases h : v = values n
    · have h2 : values n = v := h.symm
      subst h
      simp only [if_true, ih]
      omega
    · have h2 : ¬ values n = v := fun e => h e.symm
      simp only [h, h2, if_false, ih, Nat.add_zero]

theorem scanLayer_eq (values : Nat → TwoBit) (n : Nat) (v : TwoBit) (hn : n < 2 ^ 32) :
    scanLayer values n v = countStates values n v := by
  rw [scanLayer_eq_mod]
  exact Nat.mod_eq_of_lt (lt_of_le_of_lt (countStates_le values n v) hn)

theorem countStates_sum (skv : SkvValues) (hdist : skv.Distinct) (values : Nat → TwoBit)
    (n : Nat)
    (hvals : ∀ s, s < n →
      values s = skv.SKV_VALUE_GAME_WON ∨ values s = skv.SKV_VALUE_GAME_LOST ∨
      values s = skv.SKV_VALUE_GAME_DRAWN ∨ values s = skv.SKV_VALUE_INVALID) :
    countStates values n skv.SKV_VALUE_GAME_WON + countStates values n skv.SKV_VALUE_GAME_LOST +
      countStates values n skv.SKV_VALUE_GAME_DRAWN + countStates values n skv.SKV_VALUE_INVALID
      = n := by
  induction n with
  | zero => simp [countStates]
  | succ n ih =>
    have ih1 := ih (fun s hs => hvals s (Nat.lt_succ_of_lt hs))
    obtain ⟨d1, d2, d3, d4, d5, d6⟩ := hdist
    simp only [countStates_succ]
    rcases hvals n (Nat.lt_succ_self n) with h | h | h | h
    · simp only [h, if_true, if_neg d1, if_neg d2, if_neg d3]
      omega
    · simp only [h, if_true, if_neg (Ne.symm d1), if_neg d4, if_neg d5]
      omega
    · simp only [h, if_true, if_neg (Ne.symm d2), if_neg (Ne.symm d4), if_neg d6]
      omega
    · simp only [h, if_true, if_neg (Ne.symm d3), if_neg (Ne.symm d5), if_neg (Ne.symm d6)]
      omega

theorem showLayerStats_eq (skv : SkvValues) (m : MiniMax) (layerNumber : Nat)
    (ls : List LayerStats) (l : LayerStats) (hls : m.layerStats = some ls)
    (hl : ls[layerNumber]? = some l) :
    showLayerStats skv m layerNumber = some { m with
      layerStats := some (ls.set layerNumber
        { l with
          wonStateCount :=
            scanLayer (m.shortKnotValues layerNumber) l.knotsInLayer skv.SKV_VALUE_GAME_WON
          lostStateCount :=
            scanLayer (m.shortKnotValues layerNumber) l.knotsInLayer skv.SKV_VALUE_GAME_LOST
          drawnStateCount :=
            scanLayer (m.shortKnotValues layerNumber) l.knotsInLayer skv.SKV_VALUE_GAME_DRAWN
          invalidStateCount :=
            scanLayer (m.shortKnotValues layerNumber) l.knotsInLayer skv.SKV_VALUE_INVALID }) } := by
  simp [showLayerStats, hls, hl]

theorem getElem?_set_same {α : Type} (xs : List α) (i : Nat) (x y : α)
    (h : xs[i]? = some x) : (xs.set i y)[i]? = some y := by
  have hi : i < xs.length := by
    by_contra hc
    have : xs[i]? = none := List.getElem?_eq_none (Nat.le_of_not_lt hc)
    rw [this] at h
    cases h
  simp [List.getElem?_set, hi]

/-- C3: if the four value constants are distinct, the layer has fewer than 2^32 states and
every stored value of layer L is one of WON, LOST, DRAWN, INVALID, then `showLayerStats L`
returns, and afterwards the four getters of layer L add up to `knotsInLayer` of layer L
(which the call leaves as it was). -/
theorem showLayerStats_sum_eq_knotsInLayer (skv : SkvValues) (m : MiniMax) (layerNumber : Nat)
    (ls : List LayerStats) (l : LayerStats) (hls : m.layerStats = some ls)
    (hl : ls[layerNumber]? = some l) (hdist : skv.Distinct)
    (hknots : l.knotsInLayer < 2 ^ 32)
    (hvals : ∀ s, s < l.knotsInLayer →
      m.shortKnotValues layerNumber s = skv.SKV_VALUE_GAME_WON ∨
      m.shortKnotValues layerNumber s = skv.SKV_VALUE_GAME_LOST ∨
      m.shortKnotValues layerNumber s = skv.SKV_VALUE_GAME_DRAWN ∨
      m.shortKnotValues layerNumber s = skv.SKV_VALUE_INVALID) :
    ∃ m1 ls1 l1 won lost drawn invalid,
      showLayerStats skv m layerNumber = some m1 ∧
      m1.layerStats = some ls1 ∧ ls1[layerNumber]? = some l1 ∧
      l1.knotsInLayer = l.knotsInLayer ∧
      getWonStateCount m1 layerNumber = some won ∧
      getLostStateCount m1 layerNumber = some lost ∧
      getDrawnStateCount m1 layerNumber = some drawn ∧
      getInvalidStateCount m1 layerNumber = some invalid ∧
      won + lost + drawn + invalid = l1.knotsInLayer := by
  refine ⟨_, _, _,
    scanLayer (m.shortKnotValues layerNumber) l.knotsInLayer skv.SKV_VALUE_GAME_WON,
    scanLayer (m.shortKnotValues layerNumber) l.knotsInLayer skv.SKV_VALUE_GAME_LOST,
    scanLayer (m.shortKnotValues layerNumber) l.knotsInLayer skv.SKV_VALUE_GAME_DRAWN,
    scanLayer (m.shortKnotValues layerNumber) l.knotsInLayer skv.SKV_VALUE_INVALID,
    showLayerStats_eq skv m layerNumber ls l hls hl, rfl,
    getElem?_set_same ls layerNumber l _ hl, rfl, ?_, ?_, ?_, ?_, ?_⟩
  · simp [getWonStateCount, getElem?_set_same ls layerNumber l _ hl]
  · simp [getLostStateCount, getElem?_set_same ls layerNumber l _ hl]
  · simp [getDrawnStateCount, getElem?_set_same ls layerNumber l _ hl]
  · simp [getInvalidStateCount, getElem?_set_same ls layerNumber l _ hl]
  · simp only [scanLayer_eq _ _ _ hknots]
    exact countStates_sum skv hdist _ _ hvals

theorem showLayerStats_sum_eq_knotsInLayer_witness :
    skvExample.Distinct ∧ (layerExample 1 true).knotsInLayer < 2 ^ 32 ∧
    ∃ m1 ls1 l1 won lost drawn invalid,
      showLayerStats skvExample miniMaxExample 0 = some m1 ∧
      m1.layerStats = some ls1 ∧ ls1[0]? = some l1 ∧
      l1.knotsInLayer = (layerExample 1 true).knotsInLayer ∧
      getWonStateCount m1 0 = some won ∧
      getLostStateCount m1 0 = some lost ∧
      getDrawnStateCount m1 0 = some drawn ∧
      getInvalidStateCount m1 0 = some invalid ∧
      won + lost + drawn + invalid = l1.knotsInLayer :=
  ⟨by decide, by decide,
    showLayerStats_sum_eq_knotsInLayer skvExample miniMaxExample 0
      [layerExample 1 true, layerExample 0 false] (layerExample 1 true) rfl rfl
      (by decide) (by decide)
      (by
        intro s hs
        have h3 : s < 3 := hs
        interval_cases s <;> decide)⟩

/-- C4: when the layer has fewer than 2^32 states, `showLayerStats L` returns and leaves in
each of the four counters of layer L the number of state numbers below `knotsInLayer` whose
stored value is WON, LOST, DRAWN, INVALID respectively; started with any other contents of
the four counters it returns the very same state. -/
theorem showLayerStats_tallies_stored_values (skv : SkvValues) (m : MiniMax) (layerNumber : Nat)
    (ls : List LayerStats) (l : LayerStats) (hls : m.layerStats = some ls)
    (hl : ls[layerNumber]? = some l) (hknots : l.knotsInLayer < 2 ^ 32) :
    ∃ m1, showLayerStats skv m layerNumber = some m1 ∧
      getWonStateCount m1 layerNumber =
        some (countStates (m.shortKnotValues layerNumber) l.knotsInLayer
          skv.SKV_VALUE_GAME_WON) ∧
      getLostStateCount m1 layerNumber =
        some (countStates (m.shortKnotValues layerNumber) l.knotsInLayer
          skv.SKV_VALUE_GAME_LOST) ∧
      getDrawnStateCount m1 layerNumber =
        some (countStates (m.shortKnotValues layerNumber) l.knotsInLayer
          skv.SKV_VALUE_GAME_DRAWN) ∧
      getInvalidStateCount m1 layerNumber =
        some (countStates (m.shortKnotValues layerNumber) l.knotsInLayer
          skv.SKV_VALUE_INVALID) ∧
      ∀ won lost drawn invalid : Nat,
        showLayerStats skv
          { m with layerStats := some (ls.set layerNumber
              { l with wonStateCount := won, lostStateCount := lost,
                       drawnStateCount := drawn, invalidStateCount := invalid }) }
          layerNumber = some m1 := by
  refine ⟨_, showLayerStats_eq skv m layerNumber ls l hls hl, ?_, ?_, ?_, ?_, ?_⟩
  · simp [getWonStateCount, getElem?_set_same ls layerNumber l _ hl, scanLayer_eq _ _ _ hknots]
  · simp [getLostStateCount, getElem?_set_same ls layerNumber l _ hl, scanLayer_eq _ _ _ hknots]
  · simp [getDrawnStateCount, getElem?_set_same ls layerNumber l _ hl, scanLayer_eq _ _ _ hknots]
  · simp [getInvalidStateCount, getElem?_set_same ls layerNumber l _ hl,
      scanLayer_eq _ _ _ hknots]
  · intro won lost drawn invalid
    rw [showLayerStats_eq skv _ layerNumber _ _ rfl (getElem?_set_same ls layerNumber l _ hl)]
    simp [List.set_set]

theorem showLayerStats_tallies_stored_values_witness :
    (layerExample 1 true).knotsInLayer < 2 ^ 32 ∧
    ∃ m1, showLayerStats skvExample miniMaxExample 0 = some m1 ∧
      getWonStateCount m1 0 = some 1 ∧
      getLostStateCount m1 0 = some 2 ∧
      getDrawnStateCount m1 0 = some 0 ∧
      getInvalidStateCount m1 0 = some 0 ∧
      ∀ won lost drawn invalid : Nat,
        showLayerStats skvExample
          { miniMaxExample with
            layerStats := some ([layerExample 1 true, layerExample 0 false].set 0
              { layerIsCompletedAndInFile := true, knotsInLayer := 3, wonStateCount := won,
                lostStateCount := lost, drawnStateCount := drawn, invalidStateCount := invalid,
                sizeInBytes := 1, succeedingLayerCount := 0, succeedingLayers := [0, 0],
                partnerLayer := 1 }) }
          0 = some m1 :=
  ⟨by decide,
    showLayerStats_tallies_stored_values skvExample miniMaxExample 0
      [layerExample 1 true, layerExample 0 false] (layerExample 1 true) rfl rfl (by decide)⟩

/-! ## Theorems: the array-info container -/

theorem updateGui_arrayInfos (m : MiniMax) : (updateGui m).arrayInfos = m.arrayInfos := by
  unfold updateGui
  split <;> rfl

theorem updateGui_falseOrStopCalls (m : MiniMax) :
    (updateGui m).falseOrStopCalls = m.falseOrStopCalls := by
  unfold updateGui
  split <;> rfl

theorem findNode_setUpdateCounter (id v : Nat) (l : List (Nat × ArrayInfo)) (a : ArrayInfo)
    (h : findNode id l = some a) :
    findNode id (setUpdateCounter id v l) = some { a with updateCounter := v } := by
  induction l with
  | nil => simp [findNode] at h
  | cons p rest ih =>
    obtain ⟨i, b⟩ := p
    by_cases hi : i = id
    · simp only [findNode, hi, if_true, Option.some.injEq] at h
      simp [setUpdateCounter, findNode, hi, h]
    · simp only [findNode, hi, if_false] at h
      simp [setUpdateCounter, findNode, hi, ih h]

theorem getElem?_some_lt {α : Type} (xs : List α) (i : Nat) (x : α) (h : xs[i]? = some x) :
    i < xs.length := by
  by_contra hc
  have : xs[i]? = none := List.getElem?_eq_none (Nat.le_of_not_lt hc)
  rw [this] at h
  cases h

/-- One call of `updateArray` on a tracked array: it returns, the array stays tracked, and
either the incremented counter exceeds the threshold, one event is appended and the counter
is reset, or nothing is appended and the incremented counter is stored. -/
theorem updateArray_step (atc T : Nat) (m : MiniMax) (layerNumber type id : Nat)
    (itr : ArrayInfo) (h : Tracked atc m layerNumber type id itr) :
    ∃ m1 itr1, updateArray atc T m layerNumber type = some m1 ∧
      Tracked atc m1 layerNumber type id itr1 ∧
      (((itr.updateCounter + 1) % 2 ^ 32 > T ∧ itr1.updateCounter = 0 ∧
          m1.arrayInfos.arrayInfosToBeUpdated = m.arrayInfos.arrayInfosToBeUpdated ++
            [{ arrayInfo := some id
               itemIndex := nodeIndex id m.arrayInfos.listArrays % 2 ^ 32 }]) ∨
       (¬ (itr.updateCounter + 1) % 2 ^ 32 > T ∧
          itr1.updateCounter = (itr.updateCounter + 1) % 2 ^ 32 ∧
          m1.arrayInfos.arrayInfosToBeUpdated = m.arrayInfos.arrayInfosToBeUpdated)) := by
  obtain ⟨h1, h2⟩ := h
  by_cases hc : (itr.updateCounter + 1) % 2 ^ 32 > T
  · have heq : updateArray atc T m layerNumber type = some (updateGui { m with
        arrayInfos :=
          { m.arrayInfos with
            arrayInfosToBeUpdated := m.arrayInfos.arrayInfosToBeUpdated ++
              [{ arrayInfo := some id
                 itemIndex := nodeIndex id m.arrayInfos.listArrays % 2 ^ 32 }]
            listArrays := setUpdateCounter id 0 m.arrayInfos.listArrays } }) := by
      simp only [updateArray, h1, h2, hc, if_true]
    refine ⟨_, { itr with updateCounter := 0 }, heq, ?_, Or.inl ⟨hc, rfl, ?_⟩⟩
    · constructor
      · rw [updateGui_arrayInfos]
        exact h1
      · rw [updateGui_arrayInfos]
        exact findNode_setUpdateCounter id 0 _ itr h2
    · rw [updateGui_arrayInfos]
  · have heq : updateArray atc T m layerNumber type = some { m with
        arrayInfos :=
          { m.arrayInfos with
            listArrays :=
              setUpdateCounter id ((itr.updateCounter + 1) % 2 ^ 32) m.arrayInfos.listArrays } } := by
      simp only [updateArray, h1, h2, hc, if_false]
    exact ⟨_, { itr with updateCounter := (itr.updateCounter + 1) % 2 ^ 32 }, heq,
      ⟨h1, findNode_setUpdateCounter id _ _ itr h2⟩, Or.inr ⟨hc, rfl, rfl⟩⟩

/-- Repeated touches of a tracked array: every call returns, and each enqueued event is paid
for by more than `T` touches. -/
theorem updateArrayTimes_bound (atc T : Nat) (layerNumber type id : Nat) (k : Nat) :
    ∀ (m : MiniMax) (itr : ArrayInfo), Tracked atc m layerNumber type id itr →
    ∃ m1 itr1 evs, updateArrayTimes atc T layerNumber type k m = some m1 ∧
      Tracked atc m1 layerNumber type id itr1 ∧
      m1.arrayInfos.arrayInfosToBeUpdated = m.arrayInfos.arrayInfosToBeUpdated ++ evs ∧
      evs.length * (T + 1) + itr1.updateCounter ≤ k + itr.updateCounter := by
  induction k with
  | zero =>
    intro m itr h
    exact ⟨m, itr, [], rfl, h, by simp, by simp⟩
  | succ k ih =>
    intro m itr h
    obtain ⟨m1, itr1, hs, ht, hcase⟩ := updateArray_step atc T m layerNumber type id itr h
    obtain ⟨m2, itr2, evs, hrun, ht2, hq, hb⟩ := ih m1 itr1 ht
    have hmod : (itr.updateCounter + 1) % 2 ^ 32 ≤ itr.updateCounter + 1 := Nat.mod_le _ _
    rcases hcase with ⟨hc, hz, hq1⟩ | ⟨hc, hz, hq1⟩
    · refine ⟨m2, itr2,
        { arrayInfo := some id
          itemIndex := nodeIndex id m.arrayInfos.listArrays % 2 ^ 32 } :: evs, ?_, ht2, ?_, ?_⟩
      · simp only [updateArrayTimes, hs, hrun]
      · rw [hq, hq1]
        simp
      · rw [hz] at hb
        simp only [List.length_cons]
        have : (evs.length + 1) * (T + 1) = evs.length * (T + 1) + (T + 1) := by ring
        omega
    · refine ⟨m2, itr2, evs, ?_, ht2, ?_, ?_⟩
      · simp only [updateArrayTimes, hs, hrun]
      · rw [hq, hq1]
      · rw [hz] at hb
        omega

/-- C2: `k` consecutive `updateArray` calls on a tracked array whose update counter is 0 all
return and, for a threshold of at least 1, append at most `1 + k / threshold` events to the
change queue; for `k > 0` (so for 1000 touches) the number of events stays below `k`. -/
theorem updateArray_coalesces (atc T : Nat) (hT : 1 ≤ T) (m : MiniMax)
    (layerNumber type id : Nat) (itr : ArrayInfo)
    (htracked : Tracked atc m layerNumber type id itr) (hzero : itr.updateCounter = 0)
    (k : Nat) :
    ∃ m1 evs, updateArrayTimes atc T layerNumber type k m = some m1 ∧
      m1.arrayInfos.arrayInfosToBeUpdated = m.arrayInfos.arrayInfosToBeUpdated ++ evs ∧
      evs.length ≤ 1 + k / T ∧
      (0 < k → evs.length < k) := by
  obtain ⟨m1, itr1, evs, hrun, _, hq, hb⟩ :=
    updateArrayTimes_bound atc T layerNumber type id k m itr htracked
  rw [hzero] at hb
  have h1 : evs.length * (T + 1) ≤ k := by omega
  have h2 : evs.length * T ≤ k := by
    have : evs.length * (T + 1) = evs.length * T + evs.length := by ring
    omega
  refine ⟨m1, evs, hrun, hq, ?_, ?_⟩
  · have : evs.length ≤ k / T := (Nat.le_div_iff_mul_le (by omega)).2 h2
    omega
  · intro hk
    have h3 : evs.length * 2 ≤ evs.length * (T + 1) := Nat.mul_le_mul_left _ (by omega)
    omega

theorem updateArray_coalesces_witness :
    1 ≤ 2 ∧
    Tracked 2 miniMaxTracked 0 0 0
      { type := 0, sizeInBytes := 8, compressedSizeInBytes := 8, belongsToLayer := 0,
        updateCounter := 0 } ∧
    ∃ m1 evs, updateArrayTimes 2 2 0 0 1000 miniMaxTracked = some m1 ∧
      m1.arrayInfos.arrayInfosToBeUpdated =
        miniMaxTracked.arrayInfos.arrayInfosToBeUpdated ++ evs ∧
      evs.length ≤ 1 + 1000 / 2 ∧
      (0 < 1000 → evs.length < 1000) :=
  ⟨by decide, ⟨rfl, rfl⟩,
    updateArray_coalesces 2 2 (by decide) miniMaxTracked 0 0 0 _ ⟨rfl, rfl⟩ rfl 1000⟩

theorem removeArray_eq (atc : Nat) (m : MiniMax) (layerNumber type : Nat)
    (size compressedSize : Int) (id : Nat) (itr : ArrayInfo)
    (h : Tracked atc m layerNumber type id itr) :
    removeArray atc m layerNumber type size compressedSize =
      some (updateGui {
        (if itr.belongsToLayer ≠ layerNumber ∨ itr.type ≠ type ∨ itr.sizeInBytes ≠ size ∨
            itr.compressedSizeInBytes ≠ compressedSize then falseOrStop m else m) with
        arrayInfos :=
          { m.arrayInfos with
            arrayInfosToBeUpdated := m.arrayInfos.arrayInfosToBeUpdated ++
              [{ arrayInfo := none
                 itemIndex := nodeIndex id m.arrayInfos.listArrays % 2 ^ 32 }]
            listArrays := eraseNode id m.arrayInfos.listArrays } }) := by
  obtain ⟨h1, h2⟩ := h
  have hlt := getElem?_some_lt _ _ _ h1
  have hget : m.arrayInfos.vectorArrays.getD (slotIndex atc layerNumber type) ListIter.listEnd
      = ListIter.node id := by
    simp [List.getD_eq_getElem?_getD, h1]
  simp only [removeArray, gt_iff_lt, hlt, if_true, hget, h2]

/-- C5: `removeArray` on a tracked array returns, and it raises `falseOrStop` exactly when the
recorded layer, type, size or compressed size of the tracked entry differs from the
arguments; when all four agree, no stop is raised. -/
theorem removeArray_stop_iff (atc : Nat) (m : MiniMax) (layerNumber type : Nat)
    (size compressedSize : Int) (id : Nat) (itr : ArrayInfo)
    (h : Tracked atc m layerNumber type id itr) :
    ∃ m1, removeArray atc m layerNumber type size compressedSize = some m1 ∧
      (m1.falseOrStopCalls = m.falseOrStopCalls + 1 ↔
        (itr.belongsToLayer ≠ layerNumber ∨ itr.type ≠ type ∨ itr.sizeInBytes ≠ size ∨
          itr.compressedSizeInBytes ≠ compressedSize)) ∧
      (itr.belongsToLayer = layerNumber ∧ itr.type = type ∧ itr.sizeInBytes = size ∧
          itr.compressedSizeInBytes = compressedSize →
        m1.falseOrStopCalls = m.falseOrStopCalls) := by
  refine ⟨_, removeArray_eq atc m layerNumber type size compressedSize id itr h, ?_, ?_⟩
  · rw [updateGui_falseOrStopCalls]
    by_cases hc : itr.belongsToLayer ≠ layerNumber ∨ itr.type ≠ type ∨ itr.sizeInBytes ≠ size ∨
        itr.compressedSizeInBytes ≠ compressedSize
    · simp only [hc, if_true, falseOrStop, iff_true]
    · simp only [hc, if_false, iff_false]
      omega
  · rintro ⟨e1, e2, e3, e4⟩
    rw [updateGui_falseOrStopCalls]
    simp [e1, e2, e3, e4]

theorem removeArray_stop_iff_witness :
    Tracked 2 miniMaxTracked 0 0 0
      { type := 0, sizeInBytes := 8, compressedSizeInBytes := 8, belongsToLayer := 0,
        updateCounter := 0 } ∧
    ∃ m1, removeArray 2 miniMaxTracked 0 0 8 9 = some m1 ∧
      (m1.falseOrStopCalls = miniMaxTracked.falseOrStopCalls + 1 ↔
        ((0 : Nat) ≠ 0 ∨ (0 : Nat) ≠ 0 ∨ (8 : Int) ≠ 8 ∨ (8 : Int) ≠ 9)) ∧
      ((0 : Nat) = 0 ∧ (0 : Nat) = 0 ∧ (8 : Int) = 8 ∧ (8 : Int) = 9 →
        m1.falseOrStopCalls = miniMaxTracked.falseOrStopCalls) :=
  ⟨⟨rfl, rfl⟩, removeArray_stop_iff 2 miniMaxTracked 0 0 8 9 0 _ ⟨rfl, rfl⟩⟩

/-- C6 (the code at a double free): after `addArray(0, 0, 8, 8)` and the matching
`removeArray`, the list is empty but slot 0 still holds the iterator of the erased node, so
a second `removeArray(0, 0, 8, 8)` passes the end-iterator test and reads through the erased
iterator: the call has no defined outcome, and no `falseOrStop` is raised before that. -/
theorem removeArray_twice_undefined :
    ∃ m1 m2, addArray 2 miniMaxExample 0 0 8 8 = some m1 ∧
      removeArray 2 m1 0 0 8 8 = some m2 ∧
      m2.arrayInfos.listArrays = [] ∧
      m2.arrayInfos.vectorArrays[slotIndex 2 0 0]? = some (ListIter.node 0) ∧
      m2.falseOrStopCalls = 0 ∧
      removeArray 2 m2 0 0 8 8 = none :=
  ⟨_, _, rfl, rfl, rfl, rfl, rfl, rfl⟩

theorem findNode_append_fresh (id : Nat) (a : ArrayInfo) (l : List (Nat × ArrayInfo))
    (hfresh : ∀ p ∈ l, p.1 ≠ id) : findNode id (l ++ [(id, a)]) = some a := by
  induction l with
  | nil => simp [findNode]
  | cons p rest ih =>
    obtain ⟨i, b⟩ := p
    have hi : i ≠ id := hfresh (i, b) (List.mem_cons_self _ _)
    have hrest : ∀ q ∈ rest, q.1 ≠ id := fun q hq => hfresh q (List.mem_cons_of_mem _ hq)
    simp [findNode, hi, ih hrest]

theorem eraseNode_append_fresh (id : Nat) (a : ArrayInfo) (l : List (Nat × ArrayInfo))
    (hfresh : ∀ p ∈ l, p.1 ≠ id) : eraseNode id (l ++ [(id, a)]) = l := by
  induction l with
  | nil => simp [eraseNode]
  | cons p rest ih =>
    obtain ⟨i, b⟩ := p
    have hi : i ≠ id := hfresh (i, b) (List.mem_cons_self _ _)
    have hrest : ∀ q ∈ rest, q.1 ≠ id := fun q hq => hfresh q (List.mem_cons_of_mem _ hq)
    simp [eraseNode, hi, ih hrest]

theorem eraseNode_split (id : Nat) (a : ArrayInfo) (l : List (Nat × ArrayInfo))
    (h : findNode id l = some a) :
    ∃ pre post, l = pre ++ (id, a) :: post ∧ (∀ p ∈ pre, p.1 ≠ id) ∧
      eraseNode id l = pre ++ post := by
  induction l with
  | nil => simp [findNode] at h
  | cons p rest ih =>
    obtain ⟨i, b⟩ := p
    by_cases hi : i = id
    · simp only [findNode, hi, if_true, Option.some.injEq] at h
      subst hi
      subst h
      exact ⟨[], rest, rfl, by simp, by simp [eraseNode]⟩
    · simp only [findNode, hi, if_false] at h
      obtain ⟨pre, post, e1, e2, e3⟩ := ih h
      refine ⟨(i, b) :: pre, post, by rw [e1]; rfl, ?_, by simp [eraseNode, hi, e3]⟩
      intro q hq
      rcases List.mem_cons.1 hq with hq1 | hq1
      · rw [hq1]
        exact hi
      · exact e2 q hq1

theorem addArray_eq (atc : Nat) (m : MiniMax) (layerNumber type : Nat)
    (size compressedSize : Int)
    (hslot : slotIndex atc layerNumber type < m.arrayInfos.vectorArrays.length) :
    addArray atc m layerNumber type size compressedSize =
      some (updateGui { m with
        arrayInfos :=
          { listArrays := m.arrayInfos.listArrays ++
              [(m.arrayInfos.nextNode,
                { belongsToLayer := layerNumber, compressedSizeInBytes := compressedSize,
                  sizeInBytes := size, type := type, updateCounter := 0 })]
            nextNode := m.arrayInfos.nextNode + 1
            vectorArrays := m.arrayInfos.vectorArrays.set (slotIndex atc layerNumber type)
              (ListIter.node m.arrayInfos.nextNode)
            arrayInfosToBeUpdated := m.arrayInfos.arrayInfosToBeUpdated ++
              [{ arrayInfo := some m.arrayInfos.nextNode
                 itemIndex :=
                  ((m.arrayInfos.listArrays ++
                      [(m.arrayInfos.nextNode,
                        ({ belongsToLayer := layerNumber, compressedSizeInBytes := compressedSize,
                           sizeInBytes := size, type := type,
                           updateCounter := 0 } : ArrayInfo))]).length % 2 ^ 32 + 2 ^ 32 - 1)
                    % 2 ^ 32 }] } }) := by
  simp only [addArray, hslot, if_true]

/-- C7: `addArray` (with its slot inside `vectorArrays`) appends exactly one entry with the
given layer, type, sizes and update counter 0 behind the unchanged earlier entries;
`removeArray` of a tracked array with matching arguments deletes exactly the tracked entry,
keeps the entries before and after it in order and raises no stop; and `addArray` followed
by the matching `removeArray` gives back the primary sequence. -/
theorem addArray_removeArray_entries (atc : Nat) :
    (∀ (m : MiniMax) (layerNumber type : Nat) (size compressedSize : Int),
      slotIndex atc layerNumber type < m.arrayInfos.vectorArrays.length →
      ∃ m1, addArray atc m layerNumber type size compressedSize = some m1 ∧
        m1.arrayInfos.listArrays = m.arrayInfos.listArrays ++
          [(m.arrayInfos.nextNode,
            { belongsToLayer := layerNumber, type := type, sizeInBytes := size,
              compressedSizeInBytes := compressedSize, updateCounter := 0 })]) ∧
    (∀ (m : MiniMax) (layerNumber type : Nat) (size compressedSize : Int) (id : Nat)
        (itr : ArrayInfo),
      Tracked atc m layerNumber type id itr →
      itr.belongsToLayer = layerNumber → itr.type = type → itr.sizeInBytes = size →
      itr.compressedSizeInBytes = compressedSize →
      ∃ m1 pre post, removeArray atc m layerNumber type size compressedSize = some m1 ∧
        m.arrayInfos.listArrays = pre ++ (id, itr) :: post ∧
        (∀ p ∈ pre, p.1 ≠ id) ∧
        m1.arrayInfos.listArrays = pre ++ post ∧
        m1.falseOrStopCalls = m.falseOrStopCalls) ∧
    (∀ (m : MiniMax) (layerNumber type : Nat) (size compressedSize : Int),
      slotIndex atc layerNumber type < m.arrayInfos.vectorArrays.length →
      NodesAllocated m.arrayInfos →
      ∃ m1 m2, addArray atc m layerNumber type size compressedSize = some m1 ∧
        removeArray atc m1 layerNumber type size compressedSize = some m2 ∧
        m2.arrayInfos.listArrays = m.arrayInfos.listArrays ∧
        m2.falseOrStopCalls = m.falseOrStopCalls) := by
  refine ⟨?_, ?_, ?_⟩
  · intro m layerNumber type size compressedSize hslot
    refine ⟨_, addArray_eq atc m layerNumber type size compressedSize hslot, ?_⟩
    rw [updateGui_arrayInfos]
  · intro m layerNumber type size compressedSize id itr h e1 e2 e3 e4
    obtain ⟨pre, post, hsplit, hpre, herase⟩ := eraseNode_split id itr _ h.2
    refine ⟨_, pre, post, removeArray_eq atc m layerNumber type size compressedSize id itr h,
      hsplit, hpre, ?_, ?_⟩
    · rw [updateGui_arrayInfos]
      exact herase
    · rw [updateGui_falseOrStopCalls]
      simp [e1, e2, e3, e4]
  · intro m layerNumber type size compressedSize hslot hfresh
    have hne : ∀ p ∈ m.arrayInfos.listArrays, p.1 ≠ m.arrayInfos.nextNode :=
      fun p hp => Nat.ne_of_lt (hfresh p hp)
    obtain ⟨m1, hadd, hlist, hvec, hstop⟩ :
        ∃ m1, addArray atc m layerNumber type size compressedSize = some m1 ∧
          m1.arrayInfos.listArrays = m.arrayInfos.listArrays ++
            [(m.arrayInfos.nextNode,
              { belongsToLayer := layerNumber, compressedSizeInBytes := compressedSize,
                sizeInBytes := size, type := type, updateCounter := 0 })] ∧
          m1.arrayInfos.vectorArrays[slotIndex atc layerNumber type]? =
            some (ListIter.node m.arrayInfos.nextNode) ∧
          m1.falseOrStopCalls = m.falseOrStopCalls := by
      refine ⟨_, addArray_eq atc m layerNumber type size compressedSize hslot, ?_, ?_, ?_⟩
      · rw [updateGui_arrayInfos]
      · rw [updateGui_arrayInfos]
        simp [List.getElem?_set, hslot]
      · rw [updateGui_falseOrStopCalls]
    have htracked : Tracked atc m1 layerNumber type m.arrayInfos.nextNode
        { belongsToLayer := layerNumber, compressedSizeInBytes := compressedSize,
          sizeInBytes := size, type := type, updateCounter := 0 } :=
      ⟨hvec, by rw [hlist]; exact findNode_append_fresh _ _ _ hne⟩
    refine ⟨m1, _, hadd,
      removeArray_eq atc m1 layerNumber type size compressedSize _ _ htracked, ?_, ?_⟩
    · rw [updateGui_arrayInfos]
      simp only [hlist]
      exact eraseNode_append_fresh _ _ _ hne
    · rw [updateGui_falseOrStopCalls]
      simp [hstop]

theorem addArray_removeArray_entries_witness :
    (∃ m1, addArray 2 miniMaxExample 0 0 8 8 = some m1 ∧
      m1.arrayInfos.listArrays = miniMaxExample.arrayInfos.listArrays ++
        [(miniMaxExample.arrayInfos.nextNode,
          { belongsToLayer := 0, type := 0, sizeInBytes := 8, compressedSizeInBytes := 8,
            updateCounter := 0 })]) ∧
    (∃ m1 pre post, removeArray 2 miniMaxTracked 0 0 8 8 = some m1 ∧
      miniMaxTracked.arrayInfos.listArrays = pre ++
        (0, { type := 0, sizeInBytes := 8, compressedSizeInBytes := 8, belongsToLayer := 0,
              updateCounter := 0 }) :: post ∧
      (∀ p ∈ pre, p.1 ≠ 0) ∧
      m1.arrayInfos.listArrays = pre ++ post ∧
      m1.falseOrStopCalls = miniMaxTracked.falseOrStopCalls) ∧
    (∃ m1 m2, addArray 2 miniMaxTracked 1 1 16 4 = some m1 ∧
      removeArray 2 m1 1 1 16 4 = some m2 ∧
      m2.arrayInfos.listArrays = miniMaxTracked.arrayInfos.listArrays ∧
      m2.falseOrStopCalls = miniMaxTracked.falseOrStopCalls) :=
  ⟨(addArray_removeArray_entries 2).1 miniMaxExample 0 0 8 8 (by decide),
    (addArray_removeArray_entries 2).2.1 miniMaxTracked 0 0 8 8 0 _ ⟨rfl, rfl⟩ rfl rfl rfl rfl,
    (addArray_removeArray_entries 2).2.2 miniMaxTracked 1 1 16 4 (by decide) (by decide)⟩

theorem addArray_queue (atc : Nat) (m m1 : MiniMax) (layerNumber type : Nat)
    (size compressedSize : Int)
    (h : addArray atc m layerNumber type size compressedSize = some m1) :
    ∃ evs, m1.arrayInfos.arrayInfosToBeUpdated = m.arrayInfos.arrayInfosToBeUpdated ++ evs ∧
      evs.length ≤ 1 := by
  by_cases hslot : slotIndex atc layerNumber type < m.arrayInfos.vectorArrays.length
  · rw [addArray_eq atc m layerNumber type size compressedSize hslot] at h
    rw [← Option.some.inj h, updateGui_arrayInfos]
    exact ⟨[_], rfl, Nat.le_refl 1⟩
  · simp only [addArray, hslot, if_false] at h
    cases h

theorem removeArray_queue (atc : Nat) (m m1 : MiniMax) (layerNumber type : Nat)
    (size compressedSize : Int)
    (h : removeArray atc m layerNumber type size compressedSize = some m1) :
    ∃ evs, m1.arrayInfos.arrayInfosToBeUpdated = m.arrayInfos.arrayInfosToBeUpdated ++ evs ∧
      evs.length ≤ 1 := by
  unfold removeArray at h
  simp only at h
  split at h
  · split at h
    · cases h
      exact ⟨[], by rw [updateGui_arrayInfos]; simp, by simp⟩
    · split at h
      · cases h
      · cases h
        exact ⟨[_], by rw [updateGui_arrayInfos], by simp⟩
  · cases h
    exact ⟨[], by rw [updateGui_arrayInfos]; simp, by simp⟩

theorem updateArray_queue (atc T : Nat) (m m1 : MiniMax) (layerNumber type : Nat)
    (h : updateArray atc T m layerNumber type = some m1) :
    ∃ evs, m1.arrayInfos.arrayInfosToBeUpdated = m.arrayInfos.arrayInfosToBeUpdated ++ evs ∧
      evs.length ≤ 1 := by
  unfold updateArray at h
  simp only at h
  split at h
  · cases h
  · cases h
  · split at h
    · cases h
    · split at h
      · cases h
        exact ⟨[_], by rw [updateGui_arrayInfos], by simp⟩
      · cases h
        exact ⟨[], by simp, by simp⟩

theorem runArrayCalls_queue (atc T : Nat) (calls : List ArrayCall) :
    ∀ (m m1 : MiniMax), runArrayCalls atc T calls m = some m1 →
    ∃ evs, m1.arrayInfos.arrayInfosToBeUpdated = m.arrayInfos.arrayInfosToBeUpdated ++ evs ∧
      evs.length ≤ calls.length := by
  induction calls with
  | nil =>
    intro m m1 h
    simp only [runArrayCalls, Option.some.injEq] at h
    subst h
    exact ⟨[], by simp, by simp⟩
  | cons call calls ih =>
    intro m m1 h
    simp only [runArrayCalls] at h
    cases hstep : call.run atc T m with
    | none => simp [hstep] at h
    | some ma =>
      simp only [hstep] at h
      have hone : ∃ evs, ma.arrayInfos.arrayInfosToBeUpdated =
          m.arrayInfos.arrayInfosToBeUpdated ++ evs ∧ evs.length ≤ 1 := by
        cases call with
        | add l t s cs => exact addArray_queue atc m ma l t s cs hstep
        | remove l t s cs => exact removeArray_queue atc m ma l t s cs hstep
        | update l t => exact updateArray_queue atc T m ma l t hstep
      obtain ⟨e1, hq1, hl1⟩ := hone
      obtain ⟨e2, hq2, hl2⟩ := ih ma m1 h
      refine ⟨e1 ++ e2, by rw [hq2, hq1, List.append_assoc], ?_⟩
      simp only [List.length_append, List.length_cons]
      omega

theorem drainArrayInfos_take (k : Nat) (m : MiniMax)
    (hk : k ≤ m.arrayInfos.arrayInfosToBeUpdated.length) :
    ∃ mk, drainArrayInfos k m = some (m.arrayInfos.arrayInfosToBeUpdated.take k, mk) ∧
      mk.arrayInfos.arrayInfosToBeUpdated = m.arrayInfos.arrayInfosToBeUpdated.drop k := by
  induction k generalizing m with
  | zero => exact ⟨m, by simp [drainArrayInfos]⟩
  | succ n ih =>
    cases hq : m.arrayInfos.arrayInfosToBeUpdated with
    | nil => simp [hq] at hk
    | cons x rest =>
      have hlen : n ≤ ({ m with arrayInfos :=
          { m.arrayInfos with arrayInfosToBeUpdated := rest } } :
            MiniMax).arrayInfos.arrayInfosToBeUpdated.length := by
        simp [hq] at hk
        simpa using hk
      obtain ⟨mk, h1, h2⟩ := ih _ hlen
      refine ⟨mk, ?_, ?_⟩
      · simp only [drainArrayInfos, getArrayInfoForUpdate, hq, h1]
        simp
      · simpa using h2

/-- C8: the change queue is a FIFO.  Whatever calls of `addArray`, `removeArray` and
`updateArray` are executed, first `calls1` and then `calls2`, each call appends its events
(at most one) behind the pending ones, so the events of `calls1` stand before those of
`calls2`; `getArrayInfoForUpdate`, called once per pending event, returns the pending events
in that order and leaves `anyArrayInfoToUpdate` false, while after fewer calls
`anyArrayInfoToUpdate` is still true. -/
theorem arrayInfo_queue_fifo (atc T : Nat) (m ma mb : MiniMax) (calls1 calls2 : List ArrayCall)
    (h1 : runArrayCalls atc T calls1 m = some ma)
    (h2 : runArrayCalls atc T calls2 ma = some mb) :
    ∃ evs1 evs2,
      ma.arrayInfos.arrayInfosToBeUpdated = m.arrayInfos.arrayInfosToBeUpdated ++ evs1 ∧
      mb.arrayInfos.arrayInfosToBeUpdated =
        m.arrayInfos.arrayInfosToBeUpdated ++ evs1 ++ evs2 ∧
      evs1.length ≤ calls1.length ∧ evs2.length ≤ calls2.length ∧
      (∃ mz, drainArrayInfos mb.arrayInfos.arrayInfosToBeUpdated.length mb =
          some (m.arrayInfos.arrayInfosToBeUpdated ++ evs1 ++ evs2, mz) ∧
        anyArrayInfoToUpdate mz = false) ∧
      (∀ k, k < mb.arrayInfos.arrayInfosToBeUpdated.length →
        ∃ mk, drainArrayInfos k mb =
            some ((m.arrayInfos.arrayInfosToBeUpdated ++ evs1 ++ evs2).take k, mk) ∧
          anyArrayInfoToUpdate mk = true) ∧
      (anyArrayInfoToUpdate mb = true ↔ mb.arrayInfos.arrayInfosToBeUpdated ≠ []) := by
  obtain ⟨evs1, hq1, hl1⟩ := runArrayCalls_queue atc T calls1 m ma h1
  obtain ⟨evs2, hq2, hl2⟩ := runArrayCalls_queue atc T calls2 ma mb h2
  have hq : mb.arrayInfos.arrayInfosToBeUpdated =
      m.arrayInfos.arrayInfosToBeUpdated ++ evs1 ++ evs2 := by rw [hq2, hq1]
  refine ⟨evs1, evs2, hq1, hq, hl1, hl2, ?_, ?_, ?_⟩
  · obtain ⟨mz, hz1, hz2⟩ :=
      drainArrayInfos_take mb.arrayInfos.arrayInfosToBeUpdated.length mb (Nat.le_refl _)
    refine ⟨mz, ?_, ?_⟩
    · rw [hz1, List.take_length, hq]
    · simp [anyArrayInfoToUpdate, hz2]
  · intro k hk
    obtain ⟨mk, hk1, hk2⟩ := drainArrayInfos_take k mb (Nat.le_of_lt hk)
    refine ⟨mk, ?_, ?_⟩
    · rw [hk1, hq]
    · simp only [anyArrayInfoToUpdate, hk2, List.length_drop, gt_iff_lt, decide_eq_true_eq]
      omega
  · simp [anyArrayInfoToUpdate, List.length_pos]

theorem arrayInfo_queue_fifo_witness :
    ∃ ma mb,
      runArrayCalls 2 0 [ArrayCall.add 0 0 8 8, ArrayCall.update 0 0] miniMaxExample = some ma ∧
      runArrayCalls 2 0 [ArrayCall.add 1 1 16 4, ArrayCall.remove 0 0 8 8] ma = some mb ∧
      ∃ evs1 evs2,
        ma.arrayInfos.arrayInfosToBeUpdated =
          miniMaxExample.arrayInfos.arrayInfosToBeUpdated ++ evs1 ∧
        mb.arrayInfos.arrayInfosToBeUpdated =
          miniMaxExample.arrayInfos.arrayInfosToBeUpdated ++ evs1 ++ evs2 ∧
        evs1.length ≤ 2 ∧ evs2.length ≤ 2 ∧
        (∃ mz, drainArrayInfos mb.arrayInfos.arrayInfosToBeUpdated.length mb =
            some (miniMaxExample.arrayInfos.arrayInfosToBeUpdated ++ evs1 ++ evs2, mz) ∧
          anyArrayInfoToUpdate mz = false) ∧
        (∀ k, k < mb.arrayInfos.arrayInfosToBeUpdated.length →
          ∃ mk, drainArrayInfos k mb =
              some ((miniMaxExample.arrayInfos.arrayInfosToBeUpdated ++ evs1 ++ evs2).take k,
                mk) ∧
            anyArrayInfoToUpdate mk = true) ∧
        (anyArrayInfoToUpdate mb = true ↔ mb.arrayInfos.arrayInfosToBeUpdated ≠ []) :=
  ⟨((runArrayCalls 2 0 [ArrayCall.add 0 0 8 8, ArrayCall.update 0 0] miniMaxExample).getD
      miniMaxExample),
    (((runArrayCalls 2 0 [ArrayCall.add 0 0 8 8, ArrayCall.update 0 0] miniMaxExample).bind
      (runArrayCalls 2 0 [ArrayCall.add 1 1 16 4, ArrayCall.remove 0 0 8 8])).getD
        miniMaxExample),
    rfl, rfl,
    arrayInfo_queue_fifo 2 0 miniMaxExample _ _
      [ArrayCall.add 0 0 8 8, ArrayCall.update 0 0]
      [ArrayCall.add 1 1 16 4, ArrayCall.remove 0 0 8 8] rfl rfl⟩

/-! ## Theorems: layer sizes -/

theorem toInt64_small (x : Nat) (h : x < 2 ^ 32) : toInt64 x = (x : Int) := by
  unfold toInt64
  omega

/-- C11: `getLayerSizeInBytes` yields 0 when `layerStats` or `plyInfos` is null, and otherwise
(for two 32-bit sizes) the exact sum of the size of the value array and the size of the ply
array of the layer, also when that sum is 2^32 or more. -/
theorem getLayerSizeInBytes_spec (m : MiniMax) (layerNum : Nat) :
    (m.layerStats = none ∨ m.plyInfos = none → getLayerSizeInBytes m layerNum = some 0) ∧
    (∀ ls ps l p, m.layerStats = some ls → m.plyInfos = some ps →
      ls[layerNum]? = some l → ps[layerNum]? = some p →
      l.sizeInBytes < 2 ^ 32 → p.sizeInBytes < 2 ^ 32 →
      getLayerSizeInBytes m layerNum = some ((l.sizeInBytes : Int) + (p.sizeInBytes : Int))) := by
  constructor
  · intro h
    unfold getLayerSizeInBytes
    rcases h with h | h
    · rw [h]
      cases m.plyInfos <;> rfl
    · rw [h]
      cases m.layerStats <;> rfl
  · intro ls ps l p h1 h2 h3 h4 h5 h6
    have hrange : -(2 ^ 63 : Int) ≤ (l.sizeInBytes : Int) + (p.sizeInBytes : Int) ∧
        (l.sizeInBytes : Int) + (p.sizeInBytes : Int) < 2 ^ 63 := by
      constructor <;> omega
    simp only [getLayerSizeInBytes, h1, h2, h3, h4, toInt64_small _ h5, toInt64_small _ h6]
    rw [if_pos hrange]

theorem getLayerSizeInBytes_spec_witness :
    getLayerSizeInBytes { miniMaxExample with plyInfos := none } 0 = some 0 ∧
    getLayerSizeInBytes { miniMaxExample with layerStats := none } 0 = some 0 ∧
    (4000000000 : Nat) < 2 ^ 32 ∧ 2 ^ 32 ≤ (4000000000 : Nat) + 4000000000 ∧
    getLayerSizeInBytes miniMaxLarge 0 = some 8000000000 :=
  ⟨(getLayerSizeInBytes_spec { miniMaxExample with plyInfos := none } 0).1 (Or.inr rfl),
    (getLayerSizeInBytes_spec { miniMaxExample with layerStats := none } 0).1 (Or.inl rfl),
    by norm_num, by norm_num,
    (getLayerSizeInBytes_spec miniMaxLarge 0).2 _ _
      { layerIsCompletedAndInFile := true, knotsInLayer := 3, wonStateCount := 0,
        lostStateCount := 0, drawnStateCount := 0, invalidStateCount := 0,
        sizeInBytes := 4000000000, succeedingLayerCount := 0, succeedingLayers := [0, 0],
        partnerLayer := 0 }
      { sizeInBytes := 4000000000 } rfl rfl rfl rfl (by norm_num) (by norm_num)⟩

/-! ## Theorems: failure of the report and recomputation -/

/-- C13: when the database is not open (`hFileShortKnotValues` is null) or the statistics
file cannot be opened, `calcLayerStatistics` returns false, writes no line and leaves the
state exactly as it was. -/
theorem calcLayerStatistics_failure_unchanged (skv : SkvValues) (actionCalcLayerStats : Nat)
    (evict : Nat → ArrayInfoContainer → ArrayInfoContainer) (fileOpens : Bool) (m : MiniMax)
    (h : m.hFileShortKnotValues = false ∨ fileOpens = false) :
    calcLayerStatistics skv actionCalcLayerStats evict fileOpens m = some (false, m, []) := by
  unfold calcLayerStatistics
  rcases h with h | h
  · rw [if_pos h]
  · by_cases h0 : m.hFileShortKnotValues = false
    · rw [if_pos h0]
    · rw [if_neg h0, if_pos h]

theorem calcLayerStatistics_failure_unchanged_witness :
    ({ miniMaxExample with hFileShortKnotValues := false } : MiniMax).hFileShortKnotValues
      = false ∧
    calcLayerStatistics skvExample 6 (fun _ c => c) true
        { miniMaxExample with hFileShortKnotValues := false } =
      some (false, { miniMaxExample with hFileShortKnotValues := false }, []) ∧
    calcLayerStatistics skvExample 6 (fun _ c => c) false miniMaxExample =
      some (false, miniMaxExample, []) :=
  ⟨rfl,
    calcLayerStatistics_failure_unchanged skvExample 6 (fun _ c => c) true
      { miniMaxExample with hFileShortKnotValues := false } (Or.inl rfl),
    calcLayerStatistics_failure_unchanged skvExample 6 (fun _ c => c) false miniMaxExample
      (Or.inr rfl)⟩

/-- C14: `showLayerStats L` is idempotent.  On a catalog that holds layer L the first call
returns a state `m1`; a second call on `m1` returns `m1` again, and a second call on any
state with the catalog of `m1` and the same stored values of layer L leaves the catalog, and
so the four counters of layer L, as the first call left them. -/
theorem showLayerStats_idempotent (skv : SkvValues) (m : MiniMax) (layerNumber : Nat)
    (ls : List LayerStats) (l : LayerStats) (hls : m.layerStats = some ls)
    (hl : ls[layerNumber]? = some l) :
    ∃ m1, showLayerStats skv m layerNumber = some m1 ∧
      showLayerStats skv m1 layerNumber = some m1 ∧
      ∀ m2 : MiniMax, m2.layerStats = m1.layerStats →
        m2.shortKnotValues layerNumber = m.shortKnotValues layerNumber →
        ∃ m3, showLayerStats skv m2 layerNumber = some m3 ∧
          m3.layerStats = m1.layerStats ∧
          getWonStateCount m3 layerNumber = getWonStateCount m1 layerNumber ∧
          getLostStateCount m3 layerNumber = getLostStateCount m1 layerNumber ∧
          getDrawnStateCount m3 layerNumber = getDrawnStateCount m1 layerNumber ∧
          getInvalidStateCount m3 layerNumber = getInvalidStateCount m1 layerNumber := by
  have hset := getElem?_set_same ls layerNumber l
    { l with
      wonStateCount :=
        scanLayer (m.shortKnotValues layerNumber) l.knotsInLayer skv.SKV_VALUE_GAME_WON
      lostStateCount :=
        scanLayer (m.shortKnotValues layerNumber) l.knotsInLayer skv.SKV_VALUE_GAME_LOST
      drawnStateCount :=
        scanLayer (m.shortKnotValues layerNumber) l.knotsInLayer skv.SKV_VALUE_GAME_DRAWN
      invalidStateCount :=
        scanLayer (m.shortKnotValues layerNumber) l.knotsInLayer skv.SKV_VALUE_INVALID } hl
  have hagain : ∀ m2 : MiniMax, m2.layerStats = some (ls.set layerNumber
        { l with
          wonStateCount :=
            scanLayer (m.shortKnotValues layerNumber) l.knotsInLayer skv.SKV_VALUE_GAME_WON
          lostStateCount :=
            scanLayer (m.shortKnotValues layerNumber) l.knotsInLayer skv.SKV_VALUE_GAME_LOST
          drawnStateCount :=
            scanLayer (m.shortKnotValues layerNumber) l.knotsInLayer skv.SKV_VALUE_GAME_DRAWN
          invalidStateCount :=
            scanLayer (m.shortKnotValues layerNumber) l.knotsInLayer skv.SKV_VALUE_INVALID }) →
      m2.shortKnotValues layerNumber = m.shortKnotValues layerNumber →
      showLayerStats skv m2 layerNumber = some { m2 with layerStats := m2.layerStats } := by
    intro m2 h1 h2
    rw [showLayerStats_eq skv m2 layerNumber _ _ h1 hset, h2, h1]
    simp [List.set_set]
  refine ⟨_, showLayerStats_eq skv m layerNumber ls l hls hl, ?_, ?_⟩
  · exact hagain _ rfl rfl
  · intro m2 h1 h2
    refine ⟨_, hagain m2 h1 h2, h1, ?_, ?_, ?_, ?_⟩
    · simp only [getWonStateCount, h1]
    · simp only [getLostStateCount, h1]
    · simp only [getDrawnStateCount, h1]
    · simp only [getInvalidStateCount, h1]

theorem showLayerStats_idempotent_witness :
    miniMaxExample.layerStats = some [layerExample 1 true, layerExample 0 false] ∧
    ∃ m1, showLayerStats skvExample miniMaxExample 0 = some m1 ∧
      showLayerStats skvExample m1 0 = some m1 ∧
      ∀ m2 : MiniMax, m2.layerStats = m1.layerStats →
        m2.shortKnotValues 0 = miniMaxExample.shortKnotValues 0 →
        ∃ m3, showLayerStats skvExample m2 0 = some m3 ∧
          m3.layerStats = m1.layerStats ∧
          getWonStateCount m3 0 = getWonStateCount m1 0 ∧
          getLostStateCount m3 0 = getLostStateCount m1 0 ∧
          getDrawnStateCount m3 0 = getDrawnStateCount m1 0 ∧
          getInvalidStateCount m3 0 = getInvalidStateCount m1 0 :=
  ⟨rfl, showLayerStats_idempotent skvExample miniMaxExample 0
    [layerExample 1 true, layerExample 0 false] (layerExample 1 true) rfl rfl⟩

/-! ## Theorems: the container is observational; exact coalescing -/

theorem updateGui_sameOutside (m : MiniMax) : SameOutsideArrayInfos m (updateGui m) := by
  unfold updateGui SameOutsideArrayInfos
  split <;> simp

theorem sameOutside_trans (m m1 m2 : MiniMax) (h1 : SameOutsideArrayInfos m m1)
    (h2 : SameOutsideArrayInfos m1 m2) : SameOutsideArrayInfos m m2 := by
  unfold SameOutsideArrayInfos at *
  obtain ⟨a1, a2, a3, a4, a5, a6, a7, a8, a9, a10⟩ := h1
  obtain ⟨b1, b2, b3, b4, b5, b6, b7, b8, b9, b10⟩ := h2
  exact ⟨b1.trans a1, b2.trans a2, b3.trans a3, b4.trans a4, b5.trans a5, b6.trans a6,
    b7.trans a7, b8.trans a8, b9.trans a9, b10.trans a10⟩

theorem sameOutside_arrayInfos (m : MiniMax) (c : ArrayInfoContainer) :
    SameOutsideArrayInfos m { m with arrayInfos := c } := by
  unfold SameOutsideArrayInfos
  simp

theorem sameOutside_falseOrStop (m : MiniMax) : SameOutsideArrayInfos m (falseOrStop m) := by
  unfold SameOutsideArrayInfos falseOrStop
  simp

theorem addArray_sameOutside (atc : Nat) (m m1 : MiniMax) (layerNumber type : Nat)
    (size compressedSize : Int)
    (h : addArray atc m layerNumber type size compressedSize = some m1) :
    SameOutsideArrayInfos m m1 := by
  by_cases hslot : slotIndex atc layerNumber type < m.arrayInfos.vectorArrays.length
  · rw [addArray_eq atc m layerNumber type size compressedSize hslot] at h
    rw [← Option.some.inj h]
    exact sameOutside_trans _ _ _ (sameOutside_arrayInfos m _) (updateGui_sameOutside _)
  · simp only [addArray, hslot, if_false] at h
    cases h

theorem removeArray_sameOutside (atc : Nat) (m m1 : MiniMax) (layerNumber type : Nat)
    (size compressedSize : Int)
    (h : removeArray atc m layerNumber type size compressedSize = some m1) :
    SameOutsideArrayInfos m m1 := by
  unfold removeArray at h
  simp only at h
  split at h
  · split at h
    · rw [← Option.some.inj h]
      exact updateGui_sameOutside m
    · split at h
      · cases h
      · rw [← Option.some.inj h]
        refine sameOutside_trans _ _ _ ?_ (updateGui_sameOutside _)
        split
        · exact sameOutside_trans _ _ _ (sameOutside_falseOrStop m)
            (sameOutside_arrayInfos _ _)
        · exact sameOutside_arrayInfos _ _
  · rw [← Option.some.inj h]
    exact updateGui_sameOutside m

theorem updateArray_sameOutside (atc T : Nat) (m m1 : MiniMax) (layerNumber type : Nat)
    (h : updateArray atc T m layerNumber type = some m1) :
    SameOutsideArrayInfos m m1 := by
  unfold updateArray at h
  simp only at h
  split at h
  · cases h
  · cases h
  · split at h
    · cases h
    · split at h
      · rw [← Option.some.inj h]
        exact sameOutside_trans _ _ _ (sameOutside_arrayInfos m _) (updateGui_sameOutside _)
      · rw [← Option.some.inj h]
        exact sameOutside_arrayInfos m _

/-- C16: the array-info container is observational.  Whenever `addArray`, `removeArray` or
`updateArray` returns, the layer catalog, the ply infos, every stored knot value and every
other member of `MiniMax` outside the container (apart from the two records of calls to the
user callback and to `falseOrStop`) are what they were before; and the three calls do return
when the slot lies inside `vectorArrays` (`addArray`) or the array is tracked (`removeArray`,
`updateArray`). -/
theorem arrayInfo_calls_observational (atc T : Nat) :
    (∀ (call : ArrayCall) (m m1 : MiniMax), call.run atc T m = some m1 →
      SameOutsideArrayInfos m m1 ∧ m1.layerStats = m.layerStats ∧ m1.plyInfos = m.plyInfos ∧
      m1.shortKnotValues = m.shortKnotValues) ∧
    (∀ (m : MiniMax) (layerNumber type : Nat) (size compressedSize : Int),
      slotIndex atc layerNumber type < m.arrayInfos.vectorArrays.length →
      ∃ m1, addArray atc m layerNumber type size compressedSize = some m1 ∧
        SameOutsideArrayInfos m m1) ∧
    (∀ (m : MiniMax) (layerNumber type : Nat) (size compressedSize : Int) (id : Nat)
        (itr : ArrayInfo), Tracked atc m layerNumber type id itr →
      (∃ m1, removeArray atc m layerNumber type size compressedSize = some m1 ∧
        SameOutsideArrayInfos m m1) ∧
      (∃ m1, updateArray atc T m layerNumber type = some m1 ∧
        SameOutsideArrayInfos m m1)) := by
  have hrun : ∀ (call : ArrayCall) (m m1 : MiniMax), call.run atc T m = some m1 →
      SameOutsideArrayInfos m m1 := by
    intro call m m1 h
    cases call with
    | add l t s cs => exact addArray_sameOutside atc m m1 l t s cs h
    | remove l t s cs => exact removeArray_sameOutside atc m m1 l t s cs h
    | update l t => exact updateArray_sameOutside atc T m m1 l t h
  refine ⟨?_, ?_, ?_⟩
  · intro call m m1 h
    have hs := hrun call m m1 h
    exact ⟨hs, hs.1, hs.2.1, hs.2.2.1⟩
  · intro m layerNumber type size compressedSize hslot
    have h := addArray_eq atc m layerNumber type size compressedSize hslot
    exact ⟨_, h, addArray_sameOutside atc m _ layerNumber type size compressedSize h⟩
  · intro m layerNumber type size compressedSize id itr ht
    constructor
    · have h := removeArray_eq atc m layerNumber type size compressedSize id itr ht
      exact ⟨_, h, removeArray_sameOutside atc m _ layerNumber type size compressedSize h⟩
    · obtain ⟨m1, _, h, _⟩ := updateArray_step atc T m layerNumber type id itr ht
      exact ⟨m1, h, updateArray_sameOutside atc T m m1 layerNumber type h⟩

theorem arrayInfo_calls_observational_witness :
    (∃ m1, addArray 2 miniMaxExample 0 0 8 8 = some m1 ∧
      SameOutsideArrayInfos miniMaxExample m1) ∧
    (∃ m1, removeArray 2 miniMaxTracked 0 0 8 9 = some m1 ∧
      SameOutsideArrayInfos miniMaxTracked m1) ∧
    (∃ m1, updateArray 2 0 miniMaxTracked 0 0 = some m1 ∧
      SameOutsideArrayInfos miniMaxTracked m1) ∧
    (∀ m1, (ArrayCall.update 0 0).run 2 0 miniMaxTracked = some m1 →
      SameOutsideArrayInfos miniMaxTracked m1 ∧ m1.layerStats = miniMaxTracked.layerStats ∧
      m1.plyInfos = miniMaxTracked.plyInfos ∧
      m1.shortKnotValues = miniMaxTracked.shortKnotValues) :=
  ⟨(arrayInfo_calls_observational 2 0).2.1 miniMaxExample 0 0 8 8 (by decide),
    ((arrayInfo_calls_observational 2 0).2.2 miniMaxTracked 0 0 8 9 0 _ ⟨rfl, rfl⟩).1,
    ((arrayInfo_calls_observational 2 0).2.2 miniMaxTracked 0 0 8 9 0 _ ⟨rfl, rfl⟩).2,
    fun m1 h => (arrayInfo_calls_observational 2 0).1 (ArrayCall.update 0 0) miniMaxTracked m1 h⟩

/-- Repeated touches of a tracked array whose counter is at most the threshold, for a
threshold below the largest `uint32_t`: the number of events and the final counter are the
quotient and the remainder of `counter + k` by `T + 1`. -/
theorem updateArrayTimes_exact (atc T : Nat) (hT : T + 1 < 2 ^ 32) (layerNumber type id : Nat)
    (k : Nat) :
    ∀ (m : MiniMax) (itr : ArrayInfo), Tracked atc m layerNumber type id itr →
    itr.updateCounter ≤ T →
    ∃ m1 itr1 evs, updateArrayTimes atc T layerNumber type k m = some m1 ∧
      Tracked atc m1 layerNumber type id itr1 ∧
      m1.arrayInfos.arrayInfosToBeUpdated = m.arrayInfos.arrayInfosToBeUpdated ++ evs ∧
      evs.length = (itr.updateCounter + k) / (T + 1) ∧
      itr1.updateCounter = (itr.updateCounter + k) % (T + 1) ∧
      ∀ e ∈ evs, e.arrayInfo = some id := by
  induction k with
  | zero =>
    intro m itr h hc
    refine ⟨m, itr, [], rfl, h, by simp, ?_, ?_, by simp⟩
    · simp only [List.length_nil, Nat.add_zero]
      exact (Nat.div_eq_of_lt (by omega)).symm
    · simp only [Nat.add_zero]
      exact (Nat.mod_eq_of_lt (by omega)).symm
  | succ k ih =>
    intro m itr h hc
    obtain ⟨m1, itr1, hs, ht, hcase⟩ := updateArray_step atc T m layerNumber type id itr h
    have hmod : (itr.updateCounter + 1) % 2 ^ 32 = itr.updateCounter + 1 :=
      Nat.mod_eq_of_lt (by omega)
    rw [hmod] at hcase
    rcases hcase with ⟨hgt, hz, hq1⟩ | ⟨hgt, hz, hq1⟩
    · have hcT : itr.updateCounter = T := by omega
      obtain ⟨m2, itr2, evs, hrun, ht2, hq, hlen, hcnt, hev⟩ := ih m1 itr1 ht (by omega)
      rw [hz, Nat.zero_add] at hlen hcnt
      refine ⟨m2, itr2,
        { arrayInfo := some id
          itemIndex := nodeIndex id m.arrayInfos.listArrays % 2 ^ 32 } :: evs, ?_, ht2, ?_, ?_,
        ?_, ?_⟩
      · simp only [updateArrayTimes, hs, hrun]
      · rw [hq, hq1]
        simp
      · have e : itr.updateCounter + (k + 1) = k + (T + 1) := by omega
        rw [e, Nat.add_div_right _ (by omega : 0 < T + 1)]
        simp [hlen]
      · have e : itr.updateCounter + (k + 1) = k + (T + 1) := by omega
        rw [e, Nat.add_mod_right]
        exact hcnt
      · intro e he
        rcases List.mem_cons.1 he with h1 | h1
        · rw [h1]
        · exact hev e h1
    · obtain ⟨m2, itr2, evs, hrun, ht2, hq, hlen, hcnt, hev⟩ := ih m1 itr1 ht (by omega)
      have e : itr1.updateCounter + k = itr.updateCounter + (k + 1) := by omega
      rw [e] at hlen hcnt
      refine ⟨m2, itr2, evs, ?_, ht2, ?_, hlen, hcnt, hev⟩
      · simp only [updateArrayTimes, hs, hrun]
      · rw [hq, hq1]

/-- C20: on a tracked array `updateArray` adds one to the update counter (no `uint32_t`
wrap-around assumed); exactly when the incremented counter exceeds the threshold `T` it
appends one event for that entry and resets the counter to 0, otherwise it appends nothing.
Hence, for `T + 1 < 2^32`, `k` touches starting from counter 0 append exactly
`k / (T + 1)` events, all for that entry, and leave the counter at `k % (T + 1)`. -/
theorem updateArray_exact_coalescing (atc T : Nat) :
    (∀ (m : MiniMax) (layerNumber type id : Nat) (itr : ArrayInfo),
      Tracked atc m layerNumber type id itr → itr.updateCounter + 1 < 2 ^ 32 →
      ∃ m1 itr1, updateArray atc T m layerNumber type = some m1 ∧
        Tracked atc m1 layerNumber type id itr1 ∧
        (itr.updateCounter + 1 > T →
          m1.arrayInfos.arrayInfosToBeUpdated = m.arrayInfos.arrayInfosToBeUpdated ++
            [{ arrayInfo := some id
               itemIndex := nodeIndex id m.arrayInfos.listArrays % 2 ^ 32 }] ∧
          itr1.updateCounter = 0) ∧
        (¬ itr.updateCounter + 1 > T →
          m1.arrayInfos.arrayInfosToBeUpdated = m.arrayInfos.arrayInfosToBeUpdated ∧
          itr1.updateCounter = itr.updateCounter + 1)) ∧
    (∀ (m : MiniMax) (layerNumber type id : Nat) (itr : ArrayInfo) (k : Nat),
      T + 1 < 2 ^ 32 → Tracked atc m layerNumber type id itr → itr.updateCounter = 0 →
      ∃ m1 itr1 evs, updateArrayTimes atc T layerNumber type k m = some m1 ∧
        Tracked atc m1 layerNumber type id itr1 ∧
        m1.arrayInfos.arrayInfosToBeUpdated = m.arrayInfos.arrayInfosToBeUpdated ++ evs ∧
        evs.length = k / (T + 1) ∧
        itr1.updateCounter = k % (T + 1) ∧
        ∀ e ∈ evs, e.arrayInfo = some id) := by
  constructor
  · intro m layerNumber type id itr h hc
    obtain ⟨m1, itr1, hs, ht, hcase⟩ := updateArray_step atc T m layerNumber type id itr h
    have hmod : (itr.updateCounter + 1) % 2 ^ 32 = itr.updateCounter + 1 :=
      Nat.mod_eq_of_lt hc
    rw [hmod] at hcase
    refine ⟨m1, itr1, hs, ht, ?_, ?_⟩
    · intro hgt
      rcases hcase with ⟨_, hz, hq1⟩ | ⟨hn, _, _⟩
      · exact ⟨hq1, hz⟩
      · exact absurd hgt hn
    · intro hn
      rcases hcase with ⟨hgt, _, _⟩ | ⟨_, hz, hq1⟩
      · exact absurd hgt hn
      · exact ⟨hq1, hz⟩
  · intro m layerNumber type id itr k hT h hz
    obtain ⟨m1, itr1, evs, hrun, ht, hq, hlen, hcnt, hev⟩ :=
      updateArrayTimes_exact atc T hT layerNumber type id k m itr h (by omega)
    rw [hz, Nat.zero_add] at hlen hcnt
    exact ⟨m1, itr1, evs, hrun, ht, hq, hlen, hcnt, hev⟩

theorem updateArray_exact_coalescing_witness :
    (∃ m1 itr1, updateArray 2 0 miniMaxTracked 0 0 = some m1 ∧
      Tracked 2 m1 0 0 0 itr1 ∧
      ((0 : Nat) + 1 > 0 →
        m1.arrayInfos.arrayInfosToBeUpdated =
          miniMaxTracked.arrayInfos.arrayInfosToBeUpdated ++
            [{ arrayInfo := some 0
               itemIndex := nodeIndex 0 miniMaxTracked.arrayInfos.listArrays % 2 ^ 32 }] ∧
        itr1.updateCounter = 0) ∧
      (¬ (0 : Nat) + 1 > 0 →
        m1.arrayInfos.arrayInfosToBeUpdated =
          miniMaxTracked.arrayInfos.arrayInfosToBeUpdated ∧
        itr1.updateCounter = 0 + 1)) ∧
    (∃ m1 itr1 evs, updateArrayTimes 2 2 0 0 1000 miniMaxTracked = some m1 ∧
      Tracked 2 m1 0 0 0 itr1 ∧
      m1.arrayInfos.arrayInfosToBeUpdated =
        miniMaxTracked.arrayInfos.arrayInfosToBeUpdated ++ evs ∧
      evs.length = 1000 / (2 + 1) ∧
      itr1.updateCounter = 1000 % (2 + 1) ∧
      ∀ e ∈ evs, e.arrayInfo = some 0) :=
  ⟨(updateArray_exact_coalescing 2 0).1 miniMaxTracked 0 0 0
      { type := 0, sizeInBytes := 8, compressedSizeInBytes := 8, belongsToLayer := 0,
        updateCounter := 0 } ⟨rfl, rfl⟩ (by norm_num),
    (updateArray_exact_coalescing 2 2).2 miniMaxTracked 0 0 0
      { type := 0, sizeInBytes := 8, compressedSizeInBytes := 8, belongsToLayer := 0,
        updateCounter := 0 } 1000 (by norm_num) ⟨rfl, rfl⟩ rfl⟩

/-! ## Theorems: the statistics report -/

theorem getElem?_of_lt_length {α : Type} (xs : List α) (i : Nat) (h : i < xs.length) :
    ∃ x, xs[i]? = some x := by
  refine ⟨xs[i], ?_⟩
  simp [h]

theorem printedInt_small (x : Nat) (h : x < 2 ^ 31) : printedInt x = (x : Int) := by
  unfold printedInt
  omega

theorem printedInt_large (x : Nat) (h1 : 2 ^ 31 ≤ x) (h2 : x < 2 ^ 32) :
    printedInt x = (x : Int) - 2 ^ 32 := by
  unfold printedInt
  omega

theorem printedInt_zero : printedInt 0 = 0 := by
  unfold printedInt
  norm_num

theorem forall₂_and_mem {α β : Type} (R : α → β → Prop) (Q : α → Prop) (xs : List α)
    (ys : List β) (h : List.Forall₂ R xs ys) (hQ : ∀ x ∈ xs, Q x) :
    List.Forall₂ (fun x y => Q x ∧ R x y) xs ys := by
  induction h with
  | nil => exact List.Forall₂.nil
  | cons hxy _ ih =>
    exact List.Forall₂.cons ⟨hQ _ (List.mem_cons_self _ _), hxy⟩
      (ih (fun x hx => hQ x (List.mem_cons_of_mem _ hx)))

theorem countStates_const (v w : TwoBit) (n : Nat) :
    countStates (fun _ => v) n w = if v = w then n else 0 := by
  induction n with
  | zero => simp [countStates]
  | succ k ih =>
    rw [countStates_succ, ih]
    by_cases h : v = w
    · simp [h]
    · simp [h]

theorem calcLayerStatisticsStep_spec (skv : SkvValues)
    (evict : Nat → ArrayInfoContainer → ArrayInfoContainer) (m : MiniMax) (layerNumber : Nat)
    (ls : List LayerStats) (l : LayerStats) (hls : m.layerStats = some ls)
    (hl : ls[layerNumber]? = some l) (hsucc : 2 ≤ l.succeedingLayers.length)
    (hknots : l.layerIsCompletedAndInFile = true → l.knotsInLayer < 2 ^ 32) :
    ∃ row m1, calcLayerStatisticsStep skv evict m layerNumber = some (row, m1) ∧
      m1.layerStats = some ls ∧ m1.shortKnotValues = m.shortKnotValues ∧
      RowPrinted skv m.shortKnotValues layerNumber l row := by
  obtain ⟨s0, h0⟩ := getElem?_of_lt_length l.succeedingLayers 0 (by omega)
  obtain ⟨s1, h1⟩ := getElem?_of_lt_length l.succeedingLayers 1 (by omega)
  have heq : calcLayerStatisticsStep skv evict m layerNumber =
      some ({ layerNumber := printedInt layerNumber
              wonStates := printedInt ((if l.layerIsCompletedAndInFile then
                  scanLayer (m.shortKnotValues layerNumber) l.knotsInLayer
                else fun _ => 0) skv.SKV_VALUE_GAME_WON)
              lostStates := printedInt ((if l.layerIsCompletedAndInFile then
                  scanLayer (m.shortKnotValues layerNumber) l.knotsInLayer
                else fun _ => 0) skv.SKV_VALUE_GAME_LOST)
              drawnStates := printedInt ((if l.layerIsCompletedAndInFile then
                  scanLayer (m.shortKnotValues layerNumber) l.knotsInLayer
                else fun _ => 0) skv.SKV_VALUE_GAME_DRAWN)
              invalidStates := printedInt ((if l.layerIsCompletedAndInFile then
                  scanLayer (m.shortKnotValues layerNumber) l.knotsInLayer
                else fun _ => 0) skv.SKV_VALUE_INVALID)
              knotsInLayer := printedInt l.knotsInLayer
              succeedingLayerCount := printedInt l.succeedingLayerCount
              partnerLayer := printedInt l.partnerLayer
              sizeInBytes := printedInt l.sizeInBytes
              succeedingLayers0 := printedInt s0
              succeedingLayers1 := printedInt s1 },
            if l.layerIsCompletedAndInFile then unloadLayer evict m layerNumber else m) := by
    simp only [calcLayerStatisticsStep, hls, hl, h0, h1]
  refine ⟨_, _, heq, ?_, ?_, rfl, rfl, ?_, ?_⟩
  · split
    · exact hls
    · exact hls
  · split <;> rfl
  · intro hflag
    have hk := hknots hflag
    simp only [hflag, if_true]
    rw [scanLayer_eq _ _ _ hk, scanLayer_eq _ _ _ hk, scanLayer_eq _ _ _ hk,
      scanLayer_eq _ _ _ hk]
    exact ⟨rfl, rfl, rfl, rfl⟩
  · intro hflag
    simp [hflag, printedInt_zero]

theorem calcLayerStatisticsLoop_spec (skv : SkvValues)
    (evict : Nat → ArrayInfoContainer → ArrayInfoContainer) (ls : List LayerStats)
    (hsucc : ∀ l ∈ ls, 2 ≤ l.succeedingLayers.length)
    (hknots : ∀ l ∈ ls, l.layerIsCompletedAndInFile = true → l.knotsInLayer < 2 ^ 32)
    (ns : List Nat) :
    ∀ (m : MiniMax), m.layerStats = some ls → (∀ n ∈ ns, n < ls.length) →
    ∃ rows m1, calcLayerStatisticsLoop skv evict ns m = some (rows, m1) ∧
      m1.layerStats = some ls ∧ m1.shortKnotValues = m.shortKnotValues ∧
      List.Forall₂ (fun n row => ∃ l, ls[n]? = some l ∧
        RowPrinted skv m.shortKnotValues n l row) ns rows := by
  induction ns with
  | nil =>
    intro m hls _
    exact ⟨[], m, rfl, hls, rfl, List.Forall₂.nil⟩
  | cons n rest ih =>
    intro m hls hlt
    obtain ⟨l, hl⟩ := getElem?_of_lt_length ls n (hlt n (List.mem_cons_self _ _))
    have hmem : l ∈ ls := List.getElem?_mem hl
    obtain ⟨row, m1, hstep, hls1, hv1, hrow⟩ :=
      calcLayerStatisticsStep_spec skv evict m n ls l hls hl (hsucc l hmem) (hknots l hmem)
    obtain ⟨rows, m2, hloop, hls2, hv2, hall⟩ :=
      ih m1 hls1 (fun k hk => hlt k (List.mem_cons_of_mem _ hk))
    refine ⟨row :: rows, m2, ?_, hls2, hv2.trans hv1, ?_⟩
    · simp only [calcLayerStatisticsLoop, hstep, hloop]
    · rw [hv1] at hall
      exact List.Forall₂.cons ⟨l, hl, hrow⟩ hall

theorem forall₂_getElem? {α β : Type} (R : α → β → Prop) (xs : List α) (ys : List β)
    (h : List.Forall₂ R xs ys) :
    ∀ (i : Nat) (x : α), xs[i]? = some x → ∃ y, ys[i]? = some y ∧ R x y := by
  induction h with
  | nil =>
    intro i x hx
    simp at hx
  | cons hxy _ ih =>
    intro i x hx
    cases i with
    | zero =>
      simp only [List.getElem?_cons_zero, Option.some.injEq] at hx
      subst hx
      exact ⟨_, by simp, hxy⟩
    | succ j =>
      simp only [List.getElem?_cons_succ] at hx
      obtain ⟨y, hy, hr⟩ := ih j x hx
      exact ⟨y, by simpa using hy, hr⟩

theorem forall₂_map_eq {β γ : Type} (f : β → γ) (g : Nat → γ) (P : Nat → β → Prop)
    (xs : List Nat) (ys : List β) (h : List.Forall₂ P xs ys)
    (hP : ∀ n y, P n y → f y = g n) : ys.map f = xs.map g := by
  induction h with
  | nil => rfl
  | cons hxy _ ih =>
    simp only [List.map_cons, ih, hP _ _ hxy]

theorem rowPrinted_matches (skv : SkvValues) (values : Nat → Nat → TwoBit) (L : Nat)
    (l : LayerStats) (row : StatRow) (h : RowPrinted skv values L l row) (hL : L < 2 ^ 31)
    (hk : l.layerIsCompletedAndInFile = true → l.knotsInLayer < 2 ^ 31) :
    RowMatches skv values L l row := by
  refine ⟨by rw [h.1, printedInt_small L hL], ?_, h.2.2.2⟩
  intro hflag
  have hlt : ∀ v, countStates (values L) l.knotsInLayer v < 2 ^ 31 :=
    fun v => lt_of_le_of_lt (countStates_le _ _ v) (hk hflag)
  obtain ⟨e1, e2, e3, e4⟩ := h.2.2.1 hflag
  rw [e1, e2, e3, e4, printedInt_small _ (hlt _), printedInt_small _ (hlt _),
    printedInt_small _ (hlt _), printedInt_small _ (hlt _)]
  exact ⟨rfl, rfl, rfl, rfl⟩

/-- The report of `calcLayerStatistics`: with the database open and the statistics file
opened, `calcLayerStatistics` returns true and writes exactly one line per layer
`0 .. LayerCount - 1`, in ascending order of the layer number.  The line of a completed layer
carries as its won/lost/drawn/invalid counts the tallies of a full scan of the stored values
of that layer as `%d` writes them, which are the tallies themselves when the layer has fewer
than 2^31 states; the line of a layer that is not completed carries four zeros.  (Assumed:
the counter array index `4 * LayerCount` fits `uint32_t`, the catalog holds `LayerCount`
layers each with its two `succeedingLayers` entries, and a completed layer has fewer than
2^32 states.) -/
theorem calcLayerStatistics_report (skv : SkvValues) (actionCalcLayerStats : Nat)
    (evict : Nat → ArrayInfoContainer → ArrayInfoContainer) (m : MiniMax)
    (ls : List LayerStats) (hopen : m.hFileShortKnotValues = true)
    (hcount : 4 * m.skvfHeaderLayerCount < 2 ^ 32) (hls : m.layerStats = some ls)
    (hlen : m.skvfHeaderLayerCount ≤ ls.length)
    (hsucc : ∀ l ∈ ls, 2 ≤ l.succeedingLayers.length)
    (hknots : ∀ l ∈ ls, l.layerIsCompletedAndInFile = true → l.knotsInLayer < 2 ^ 32) :
    ∃ m1 rows, calcLayerStatistics skv actionCalcLayerStats evict true m = some (true, m1, rows) ∧
      rows.map (fun row => row.layerNumber) =
        (List.range m.skvfHeaderLayerCount).map (fun (n : Nat) => (n : Int)) ∧
      ∀ L l, L < m.skvfHeaderLayerCount → ls[L]? = some l →
        ∃ row, rows[L]? = some row ∧ RowPrinted skv m.shortKnotValues L l row ∧
          ((l.layerIsCompletedAndInFile = true → l.knotsInLayer < 2 ^ 31) →
            RowMatches skv m.shortKnotValues L l row) := by
  obtain ⟨rows, m1, hloop, _, _, hall⟩ :=
    calcLayerStatisticsLoop_spec skv evict ls hsucc hknots (List.range m.skvfHeaderLayerCount)
      { m with curCalcActionId := actionCalcLayerStats, layerInDatabase := false } hls
      (fun n hn => lt_of_lt_of_le (List.mem_range.1 hn) hlen)
  have hall2 := forall₂_and_mem _ (fun n => n < m.skvfHeaderLayerCount) _ _ hall
    (fun n hn => List.mem_range.1 hn)
  refine ⟨m1, rows, ?_, ?_, ?_⟩
  · have h1 : ¬ m.hFileShortKnotValues = false := by simp [hopen]
    have h2 : ¬ (2 ^ 32 ≤ 4 * m.skvfHeaderLayerCount) := by omega
    simp only [calcLayerStatistics, if_neg h1, if_neg h2, hloop]
    simp
  · refine forall₂_map_eq (fun row => row.layerNumber) (fun (n : Nat) => (n : Int))
      _ _ _ hall2 ?_
    intro n y hy
    obtain ⟨hn, l, _, hr⟩ := hy
    have hn2 : n < 2 ^ 31 := by
      have : n < m.skvfHeaderLayerCount := hn
      omega
    show y.layerNumber = (n : Int)
    rw [hr.1, printedInt_small n hn2]
  · intro L l hL hl
    have hr : (List.range m.skvfHeaderLayerCount)[L]? = some L := List.getElem?_range hL
    obtain ⟨row, hrow, l2, hl2, hmatch⟩ := forall₂_getElem? _ _ _ hall L L hr
    rw [hl] at hl2
    cases hl2
    exact ⟨row, hrow, hmatch,
      fun hk => rowPrinted_matches skv m.shortKnotValues L l row hmatch (by omega) hk⟩

theorem calcLayerStatistics_report_example :
    ∃ m1 rows, calcLayerStatistics skvExample 6 (fun _ c => c) true miniMaxExample =
        some (true, m1, rows) ∧
      rows.map (fun row => row.layerNumber) = [0, 1] ∧
      ∀ L l, L < miniMaxExample.skvfHeaderLayerCount →
        [layerExample 1 true, layerExample 0 false][L]? = some l →
        ∃ row, rows[L]? = some row ∧
          RowMatches skvExample miniMaxExample.shortKnotValues L l row := by
  obtain ⟨m1, rows, h1, h2, h3⟩ :=
    calcLayerStatistics_report skvExample 6 (fun _ c => c) miniMaxExample
      [layerExample 1 true, layerExample 0 false] rfl (by decide) rfl (by decide)
      (by decide) (by decide)
  refine ⟨m1, rows, h1, h2, ?_⟩
  intro L l hL hl
  obtain ⟨row, e1, _, e3⟩ := h3 L l hL hl
  refine ⟨row, e1, e3 ?_⟩
  intro _
  have hmem : l ∈ [layerExample 1 true, layerExample 0 false] := List.getElem?_mem hl
  simp only [List.mem_cons, List.mem_singleton, List.not_mem_nil, or_false] at hmem
  rcases hmem with e | e <;> rw [e] <;> decide

/-- C12 (the code on a layer of 2^31 states): the database `miniMaxHuge` holds one completed
layer of 2147483648 states, each stored as won, so the tally of won states of a full scan is
2147483648, and `showLayerStats` stores that number in `wonStateCount`.
`calcLayerStatistics` returns true and writes one line, for layer 0, whose count of won
states is -2147483648, as is its total number of states: the tally is a `uint32_t` and the
line is written with `%d`.  The line does not show the tallies of the scan. -/
theorem calcLayerStatistics_prints_negative_count :
    miniMaxHuge.layerStats = some [layerHuge] ∧
    layerHuge.layerIsCompletedAndInFile = true ∧
    layerHuge.knotsInLayer = 2147483648 ∧
    countStates (miniMaxHuge.shortKnotValues 0) layerHuge.knotsInLayer
      skvExample.SKV_VALUE_GAME_WON = 2147483648 ∧
    (∃ m2, showLayerStats skvExample miniMaxHuge 0 = some m2 ∧
      getWonStateCount m2 0 = some 2147483648) ∧
    ∃ m1 rows row, calcLayerStatistics skvExample 6 (fun _ c => c) true miniMaxHuge =
        some (true, m1, rows) ∧
      rows.map (fun r => r.layerNumber) = [0] ∧ rows[0]? = some row ∧
      row.wonStates = -2147483648 ∧ row.lostStates = 0 ∧ row.drawnStates = 0 ∧
      row.invalidStates = 0 ∧ row.knotsInLayer = -2147483648 ∧
      ¬ RowMatches skvExample miniMaxHuge.shortKnotValues 0 layerHuge row := by
  have hc : ∀ w, countStates (miniMaxHuge.shortKnotValues 0) layerHuge.knotsInLayer w =
      if skvExample.SKV_VALUE_GAME_WON = w then 2147483648 else 0 :=
    fun w => countStates_const skvExample.SKV_VALUE_GAME_WON w 2147483648
  have hwon := hc skvExample.SKV_VALUE_GAME_WON
  rw [if_pos rfl] at hwon
  have hlt : layerHuge.knotsInLayer < 2 ^ 32 := by
    show (2147483648 : Nat) < 2 ^ 32
    norm_num
  have hsc : scanLayer (miniMaxHuge.shortKnotValues 0) layerHuge.knotsInLayer
      skvExample.SKV_VALUE_GAME_WON = 2147483648 := by
    rw [scanLayer_eq _ _ _ hlt, hwon]
  refine ⟨rfl, rfl, rfl, hwon, ?_, ?_⟩
  · refine ⟨_, showLayerStats_eq skvExample miniMaxHuge 0 [layerHuge] layerHuge rfl rfl, ?_⟩
    simp only [getWonStateCount, List.set_cons_zero, List.getElem?_cons_zero,
      Option.map_some', hsc]
  · obtain ⟨m1, rows, h1, h2, h3⟩ :=
      calcLayerStatistics_report skvExample 6 (fun _ c => c) miniMaxHuge [layerHuge] rfl
        (by decide) rfl (by decide) (by decide)
        (fun l hl _ => by
          rw [List.mem_singleton.1 hl]
          exact hlt)
    obtain ⟨row, e1, e2, _⟩ := h3 0 layerHuge (by decide) rfl
    obtain ⟨w1, w2, w3, w4⟩ := e2.2.2.1 rfl
    rw [hc] at w1 w2 w3 w4
    have p1 : printedInt 2147483648 = -2147483648 := by
      unfold printedInt
      norm_num
    have p0 : printedInt 0 = 0 := printedInt_zero
    rw [if_pos rfl, p1] at w1
    rw [if_neg (by decide), p0] at w2 w3 w4
    have wk : row.knotsInLayer = -2147483648 := by rw [e2.2.1]; exact p1
    refine ⟨m1, rows, row, h1, h2, e1, w1, w2, w3, w4, wk, ?_⟩
    intro hm
    have := (hm.2.1 rfl).1
    rw [w1, hwon] at this
    exact absurd this (by decide)

/-! ## Theorems: what the interface does to a completed layer -/

theorem calcLayerStatisticsStep_layerStats (skv : SkvValues)
    (evict : Nat → ArrayInfoContainer → ArrayInfoContainer) (m m1 : MiniMax) (n : Nat)
    (row : StatRow) (h : calcLayerStatisticsStep skv evict m n = some (row, m1)) :
    m1.layerStats = m.layerStats := by
  unfold calcLayerStatisticsStep at h
  simp only at h
  split at h
  · cases h
  · split at h
    · cases h
    · split at h
      · have h2 := congrArg Prod.snd (Option.some.inj h)
        simp only at h2
        rw [← h2]
        split <;> rfl
      · cases h

theorem calcLayerStatisticsLoop_layerStats (skv : SkvValues)
    (evict : Nat → ArrayInfoContainer → ArrayInfoContainer) (ns : List Nat) :
    ∀ (m m1 : MiniMax) (rows : List StatRow),
      calcLayerStatisticsLoop skv evict ns m = some (rows, m1) →
      m1.layerStats = m.layerStats := by
  induction ns with
  | nil =>
    intro m m1 rows h
    simp only [calcLayerStatisticsLoop, Option.some.injEq, Prod.mk.injEq] at h
    rw [← h.2]
  | cons n rest ih =>
    intro m m1 rows h
    simp only [calcLayerStatisticsLoop] at h
    cases hstep : calcLayerStatisticsStep skv evict m n with
    | none => simp [hstep] at h
    | some r =>
      obtain ⟨row, ma⟩ := r
      simp only [hstep] at h
      cases hloop : calcLayerStatisticsLoop skv evict rest ma with
      | none => simp [hloop] at h
      | some r2 =>
        obtain ⟨rows2, mb⟩ := r2
        simp only [hloop, Option.some.injEq, Prod.mk.injEq] at h
        rw [← h.2, ih ma mb rows2 hloop]
        exact calcLayerStatisticsStep_layerStats skv evict m ma n row hstep

theorem calcLayerStatistics_layerStats (skv : SkvValues) (act : Nat)
    (evict : Nat → ArrayInfoContainer → ArrayInfoContainer) (fileOpens : Bool)
    (m m1 : MiniMax) (ret : Bool) (rows : List StatRow)
    (h : calcLayerStatistics skv act evict fileOpens m = some (ret, m1, rows)) :
    m1.layerStats = m.layerStats := by
  unfold calcLayerStatistics at h
  split at h
  · simp only [Option.some.injEq, Prod.mk.injEq] at h
    rw [← h.2.1]
  · split at h
    · simp only [Option.some.injEq, Prod.mk.injEq] at h
      rw [← h.2.1]
    · split at h
      · cases h
      · split at h
        · cases h
        · rename_i rows2 mb hloop
          simp only [Option.some.injEq, Prod.mk.injEq] at h
          rw [← h.2.1]
          exact calcLayerStatisticsLoop_layerStats skv evict _
            { m with curCalcActionId := act, layerInDatabase := false } _ _ hloop

theorem option_map_const_some {α : Type} (o : Option α) (m m1 : MiniMax)
    (h : o.map (fun _ => m) = some m1) : m1 = m := by
  cases o with
  | none => simp at h
  | some a =>
    simp only [Option.map_some', Option.some.injEq] at h
    exact h.symm

/-- Every call of the statistics interface other than `showLayerStats` leaves the whole
catalog as it is. -/
theorem statCall_layerStats (skv : SkvValues) (act : Nat)
    (evict : Nat → ArrayInfoContainer → ArrayInfoContainer) (atc T : Nat)
    (call : StatCall) (m m1 : MiniMax) (h : call.run skv act evict atc T m = some m1)
    (hcall : ∀ layerNumber, call ≠ StatCall.showStats layerNumber) :
    m1.layerStats = m.layerStats := by
  cases call with
  | showStats layerNumber => exact absurd rfl (hcall layerNumber)
  | calcStats fileOpens =>
    simp only [StatCall.run] at h
    cases hc : calcLayerStatistics skv act evict fileOpens m with
    | none => simp [hc] at h
    | some r =>
      obtain ⟨ret, mb, rows⟩ := r
      simp only [hc, Option.map_some', Option.some.injEq] at h
      rw [← h]
      exact calcLayerStatistics_layerStats skv act evict fileOpens m mb ret rows hc
  | wonCount n => rw [option_map_const_some _ m m1 h]
  | lostCount n => rw [option_map_const_some _ m m1 h]
  | drawnCount n => rw [option_map_const_some _ m m1 h]
  | invalidCount n => rw [option_map_const_some _ m m1 h]
  | inDatabase n =>
    simp only [StatCall.run, isLayerInDatabase] at h
    split at h
    · simp only [Option.map_some', Option.some.injEq] at h
      rw [← h]
    · split at h
      · simp at h
      · simp only [Option.map_some', Option.some.injEq] at h
        rw [← h]
  | sizeInBytes n => rw [option_map_const_some _ m m1 h]
  | lastLayer =>
    simp only [StatCall.run, getLastCalculatedLayer] at h
    split at h
    · simp at h
    · simp only [Option.map_some', Option.some.injEq] at h
      rw [← h]
  | arrayInfoForUpdate =>
    simp only [StatCall.run, getArrayInfoForUpdate] at h
    split at h
    · simp at h
    · simp only [Option.map_some', Option.some.injEq] at h
      rw [← h]
  | array call =>
    simp only [StatCall.run] at h
    cases call with
    | add l t s cs => exact (addArray_sameOutside atc m m1 l t s cs h).1
    | remove l t s cs => exact (removeArray_sameOutside atc m m1 l t s cs h).1
    | update l t => exact (updateArray_sameOutside atc T m m1 l t h).1

theorem calcLayerStatisticsStep_values (skv : SkvValues)
    (evict : Nat → ArrayInfoContainer → ArrayInfoContainer) (m m1 : MiniMax) (n : Nat)
    (row : StatRow) (h : calcLayerStatisticsStep skv evict m n = some (row, m1)) :
    m1.shortKnotValues = m.shortKnotValues := by
  unfold calcLayerStatisticsStep at h
  simp only at h
  split at h
  · cases h
  · split at h
    · cases h
    · split at h
      · have h2 := congrArg Prod.snd (Option.some.inj h)
        simp only at h2
        rw [← h2]
        split <;> rfl
      · cases h

theorem calcLayerStatisticsLoop_values (skv : SkvValues)
    (evict : Nat → ArrayInfoContainer → ArrayInfoContainer) (ns : List Nat) :
    ∀ (m m1 : MiniMax) (rows : List StatRow),
      calcLayerStatisticsLoop skv evict ns m = some (rows, m1) →
      m1.shortKnotValues = m.shortKnotValues := by
  induction ns with
  | nil =>
    intro m m1 rows h
    simp only [calcLayerStatisticsLoop, Option.some.injEq, Prod.mk.injEq] at h
    rw [← h.2]
  | cons n rest ih =>
    intro m m1 rows h
    simp only [calcLayerStatisticsLoop] at h
    cases hstep : calcLayerStatisticsStep skv evict m n with
    | none => simp [hstep] at h
    | some r =>
      obtain ⟨row, ma⟩ := r
      simp only [hstep] at h
      cases hloop : calcLayerStatisticsLoop skv evict rest ma with
      | none => simp [hloop] at h
      | some r2 =>
        obtain ⟨rows2, mb⟩ := r2
        simp only [hloop, Option.some.injEq, Prod.mk.injEq] at h
        rw [← h.2, ih ma mb rows2 hloop]
        exact calcLayerStatisticsStep_values skv evict m ma n row hstep

theorem calcLayerStatistics_values (skv : SkvValues) (act : Nat)
    (evict : Nat → ArrayInfoContainer → ArrayInfoContainer) (fileOpens : Bool)
    (m m1 : MiniMax) (ret : Bool) (rows : List StatRow)
    (h : calcLayerStatistics skv act evict fileOpens m = some (ret, m1, rows)) :
    m1.shortKnotValues = m.shortKnotValues := by
  unfold calcLayerStatistics at h
  split at h
  · simp only [Option.some.injEq, Prod.mk.injEq] at h
    rw [← h.2.1]
  · split at h
    · simp only [Option.some.injEq, Prod.mk.injEq] at h
      rw [← h.2.1]
    · split at h
      · cases h
      · split at h
        · cases h
        · rename_i rows2 mb hloop
          simp only [Option.some.injEq, Prod.mk.injEq] at h
          rw [← h.2.1]
          exact calcLayerStatisticsLoop_values skv evict _
            { m with curCalcActionId := act, layerInDatabase := false } _ _ hloop

/-- No call of the statistics interface changes a stored value. -/
theorem statCall_values (skv : SkvValues) (act : Nat)
    (evict : Nat → ArrayInfoContainer → ArrayInfoContainer) (atc T : Nat)
    (call : StatCall) (m m1 : MiniMax) (h : call.run skv act evict atc T m = some m1) :
    m1.shortKnotValues = m.shortKnotValues := by
  cases call with
  | showStats layerNumber =>
    simp only [StatCall.run, showLayerStats] at h
    split at h
    · cases h
    · split at h
      · cases h
      · rw [← Option.some.inj h]
  | calcStats fileOpens =>
    simp only [StatCall.run] at h
    cases hc : calcLayerStatistics skv act evict fileOpens m with
    | none => simp [hc] at h
    | some r =>
      obtain ⟨ret, mb, rows⟩ := r
      simp only [hc, Option.map_some', Option.some.injEq] at h
      rw [← h]
      exact calcLayerStatistics_values skv act evict fileOpens m mb ret rows hc
  | wonCount n => rw [option_map_const_some _ m m1 h]
  | lostCount n => rw [option_map_const_some _ m m1 h]
  | drawnCount n => rw [option_map_const_some _ m m1 h]
  | invalidCount n => rw [option_map_const_some _ m m1 h]
  | inDatabase n =>
    simp only [StatCall.run, isLayerInDatabase] at h
    split at h
    · simp only [Option.map_some', Option.some.injEq] at h
      rw [← h]
    · split at h
      · simp at h
      · simp only [Option.map_some', Option.some.injEq] at h
        rw [← h]
  | sizeInBytes n => rw [option_map_const_some _ m m1 h]
  | lastLayer =>
    simp only [StatCall.run, getLastCalculatedLayer] at h
    split at h
    · simp at h
    · simp only [Option.map_some', Option.some.injEq] at h
      rw [← h]
  | arrayInfoForUpdate =>
    simp only [StatCall.run, getArrayInfoForUpdate] at h
    split at h
    · simp at h
    · simp only [Option.map_some', Option.some.injEq] at h
      rw [← h]
  | array call =>
    simp only [StatCall.run] at h
    cases call with
    | add l t s cs => exact (addArray_sameOutside atc m m1 l t s cs h).2.2.1
    | remove l t s cs => exact (removeArray_sameOutside atc m m1 l t s cs h).2.2.1
    | update l t => exact (updateArray_sameOutside atc T m m1 l t h).2.2.1

/-- One call of the statistics interface on a state whose layer `L` is completed and has
valid counters: the record of the layer and the stored values are as before. -/
theorem statCall_keeps_completed_layer (skv : SkvValues) (act : Nat)
    (evict : Nat → ArrayInfoContainer → ArrayInfoContainer) (atc T : Nat)
    (call : StatCall) (m m1 : MiniMax) (h : call.run skv act evict atc T m = some m1)
    (ls : List LayerStats) (L : Nat) (l : LayerStats) (hls : m.layerStats = some ls)
    (hl : ls[L]? = some l) (hknots : l.knotsInLayer < 2 ^ 32)
    (hvalid : CountersValid skv (m.shortKnotValues L) l) :
    ∃ ls1, m1.layerStats = some ls1 ∧ ls1[L]? = some l ∧
      m1.shortKnotValues = m.shortKnotValues := by
  have hv := statCall_values skv act evict atc T call m m1 h
  by_cases hshow : ∃ layerNumber, call = StatCall.showStats layerNumber
  · obtain ⟨layerNumber, hc⟩ := hshow
    subst hc
    simp only [StatCall.run] at h
    cases hl2 : ls[layerNumber]? with
    | none => simp [showLayerStats, hls, hl2] at h
    | some l2 =>
      rw [showLayerStats_eq skv m layerNumber ls l2 hls hl2] at h
      rw [← Option.some.inj h]
      by_cases hL : layerNumber = L
      · subst hL
        rw [hl] at hl2
        cases hl2
        refine ⟨_, rfl, ?_, rfl⟩
        rw [getElem?_set_same ls layerNumber l _ hl, scanLayer_eq _ _ _ hknots,
          scanLayer_eq _ _ _ hknots, scanLayer_eq _ _ _ hknots, scanLayer_eq _ _ _ hknots,
          ← hvalid.1, ← hvalid.2.1, ← hvalid.2.2.1, ← hvalid.2.2.2]
      · refine ⟨_, rfl, ?_, rfl⟩
        rw [List.getElem?_set_ne hL]
        exact hl
  · have hcall : ∀ layerNumber, call ≠ StatCall.showStats layerNumber :=
      fun layerNumber hc => hshow ⟨layerNumber, hc⟩
    have hsame := statCall_layerStats skv act evict atc T call m m1 h hcall
    exact ⟨ls, by rw [hsame, hls], hl, hv⟩

/-- C15: once `layerIsCompletedAndInFile` is true for a layer whose four counters are valid
(they are the tallies of the stored values of the layer, which has fewer than 2^32 states),
no sequence of calls of the statistics interface (`showLayerStats`, `calcLayerStatistics`,
the count getters, `isLayerInDatabase`, `getLayerSizeInBytes`, the queue drains,
`addArray`/`removeArray`/`updateArray`) changes any field of the `LayerStats` record of that
layer: the record after the calls is the record before them, the flag included; the stored
values are unchanged too, so the counters stay valid. -/
theorem statistics_interface_keeps_completed_layer (skv : SkvValues) (act : Nat)
    (evict : Nat → ArrayInfoContainer → ArrayInfoContainer) (atc T : Nat)
    (calls : List StatCall) (m m1 : MiniMax)
    (h : runStatCalls skv act evict atc T calls m = some m1)
    (ls : List LayerStats) (L : Nat) (l : LayerStats) (hls : m.layerStats = some ls)
    (hl : ls[L]? = some l) (hflag : l.layerIsCompletedAndInFile = true)
    (hknots : l.knotsInLayer < 2 ^ 32)
    (hvalid : CountersValid skv (m.shortKnotValues L) l) :
    ∃ ls1 l1, m1.layerStats = some ls1 ∧ ls1[L]? = some l1 ∧ l1 = l ∧
      l1.layerIsCompletedAndInFile = true ∧ m1.shortKnotValues = m.shortKnotValues ∧
      CountersValid skv (m1.shortKnotValues L) l1 := by
  induction calls generalizing m ls with
  | nil =>
    simp only [runStatCalls, Option.some.injEq] at h
    subst h
    exact ⟨ls, l, hls, hl, rfl, hflag, rfl, hvalid⟩
  | cons call rest ih =>
    simp only [runStatCalls] at h
    cases hc : call.run skv act evict atc T m with
    | none => simp [hc] at h
    | some ma =>
      simp only [hc] at h
      obtain ⟨lsa, ha1, ha2, ha3⟩ :=
        statCall_keeps_completed_layer skv act evict atc T call m ma hc ls L l hls hl hknots
          hvalid
      obtain ⟨ls1, l1, e1, e2, e3, e4, e5, e6⟩ := ih ma h lsa ha1 ha2 (by rw [ha3]; exact hvalid)
      exact ⟨ls1, l1, e1, e2, e3, e4, e5.trans ha3, e6⟩

theorem statistics_interface_keeps_completed_layer_witness :
    miniMaxCounted.layerStats = some [layerCounted, layerExample 0 false] ∧
    layerCounted.layerIsCompletedAndInFile = true ∧
    layerCounted.knotsInLayer < 2 ^ 32 ∧
    CountersValid skvExample (miniMaxCounted.shortKnotValues 0) layerCounted ∧
    ∃ m1 ls1 l1,
      runStatCalls skvExample 6 (fun _ c => c) 2 0
        [StatCall.showStats 0, StatCall.calcStats true, StatCall.wonCount 0,
          StatCall.showStats 1] miniMaxCounted = some m1 ∧
      m1.layerStats = some ls1 ∧ ls1[0]? = some l1 ∧ l1 = layerCounted ∧
      l1.layerIsCompletedAndInFile = true ∧
      m1.shortKnotValues = miniMaxCounted.shortKnotValues ∧
      CountersValid skvExample (m1.shortKnotValues 0) l1 := by
  have hv : CountersValid skvExample (miniMaxCounted.shortKnotValues 0) layerCounted := by
    unfold CountersValid
    decide
  have hrun : runStatCalls skvExample 6 (fun _ c => c) 2 0
      [StatCall.showStats 0, StatCall.calcStats true, StatCall.wonCount 0,
        StatCall.showStats 1] miniMaxCounted =
      some ((runStatCalls skvExample 6 (fun _ c => c) 2 0
        [StatCall.showStats 0, StatCall.calcStats true, StatCall.wonCount 0,
          StatCall.showStats 1] miniMaxCounted).getD miniMaxCounted) := rfl
  obtain ⟨ls1, l1, e⟩ :=
    statistics_interface_keeps_completed_layer skvExample 6 (fun _ c => c) 2 0
      [StatCall.showStats 0, StatCall.calcStats true, StatCall.wonCount 0,
        StatCall.showStats 1] miniMaxCounted _ hrun
      [layerCounted, layerExample 0 false] 0 layerCounted rfl rfl rfl (by decide) hv
  exact ⟨rfl, rfl, by decide, hv, _, ls1, l1, hrun, e⟩

/-! ## Theorems: the lock discipline of the container calls -/

theorem setUpdateCounter_twice (id v w : Nat) (l : List (Nat × ArrayInfo)) :
    setUpdateCounter id w (setUpdateCounter id v l) = setUpdateCounter id w l := by
  induction l with
  | nil => rfl
  | cons p rest ih =>
    obtain ⟨i, a⟩ := p
    by_cases hi : i = id
    · simp [setUpdateCounter, hi]
    · simp [setUpdateCounter, hi, ih]

theorem addArraySteps_refines (atc : Nat) (m : MiniMax) (layerNumber type : Nat)
    (size compressedSize : Int) :
    (addArraySteps atc m layerNumber type size compressedSize).map (runSteps m) =
      addArray atc m layerNumber type size compressedSize := by
  unfold addArraySteps addArray
  by_cases hslot : slotIndex atc layerNumber type < m.arrayInfos.vectorArrays.length
  · simp only [hslot, if_true, Option.map_some']
    rfl
  · simp only [hslot, if_false, Option.map_none']

theorem removeArraySteps_refines (atc : Nat) (m : MiniMax) (layerNumber type : Nat)
    (size compressedSize : Int) :
    (removeArraySteps atc m layerNumber type size compressedSize).map (runSteps m) =
      removeArray atc m layerNumber type size compressedSize := by
  unfold removeArraySteps removeArray
  simp only
  split
  · split
    · rfl
    · split
      · rfl
      · simp only [Option.map_some']
        split <;> rfl
  · rfl

theorem updateArraySteps_refines (atc T : Nat) (m : MiniMax) (layerNumber type : Nat) :
    (updateArraySteps atc T m layerNumber type).map (runSteps m) =
      updateArray atc T m layerNumber type := by
  unfold updateArraySteps updateArray
  simp only
  split
  · rfl
  · rfl
  · split
    · rfl
    · split
      · cases hu : m.userPrintFunc <;>
          simp [runSteps, MicroOp.apply, updateGui, hu, setUpdateCounter_twice]
      · rfl

/-- C17 (counterexample): a touch of the tracked array of `miniMaxTracked` with threshold 0
writes the incremented update counter before `csOsPrint` is entered, so the statements of
`updateArray` do not keep the lock discipline. -/
theorem updateArray_increment_outside_lock :
    updateArraySteps 2 0 miniMaxTracked 0 0 =
      some [MicroOp.counterAssign 0 1, MicroOp.enterCriticalSection,
        MicroOp.queuePushBack { arrayInfo := some 0, itemIndex := 0 }, MicroOp.userPrint,
        MicroOp.counterAssign 0 0, MicroOp.leaveCriticalSection] ∧
    updateArray 2 0 miniMaxTracked 0 0 =
      some (runSteps miniMaxTracked
        [MicroOp.counterAssign 0 1, MicroOp.enterCriticalSection,
          MicroOp.queuePushBack { arrayInfo := some 0, itemIndex := 0 }, MicroOp.userPrint,
          MicroOp.counterAssign 0 0, MicroOp.leaveCriticalSection]) ∧
    (MicroOp.counterAssign 0 1).mutatesShared = true ∧
    lockDiscipline false
      [MicroOp.counterAssign 0 1, MicroOp.enterCriticalSection,
        MicroOp.queuePushBack { arrayInfo := some 0, itemIndex := 0 }, MicroOp.userPrint,
        MicroOp.counterAssign 0 0, MicroOp.leaveCriticalSection] = false :=
  ⟨rfl, rfl, rfl, rfl⟩

/-- C17 (amended): the statement sequences below are those of the three functions (running
them gives the result of the function).  Every write of `addArray` and of `removeArray` to
the entries, the index and the pending-event queue happens while `csOsPrint` is held.  Of
`updateArray` the first statement, the increment of the update counter, is executed before
the critical section is entered; every later write (the enqueued event and the reset of the
counter) happens while `csOsPrint` is held. -/
theorem container_lock_discipline (atc T : Nat) (m : MiniMax) (layerNumber type : Nat)
    (size compressedSize : Int) :
    ((addArraySteps atc m layerNumber type size compressedSize).map (runSteps m) =
        addArray atc m layerNumber type size compressedSize ∧
      ∀ ops, addArraySteps atc m layerNumber type size compressedSize = some ops →
        lockDiscipline false ops = true) ∧
    ((removeArraySteps atc m layerNumber type size compressedSize).map (runSteps m) =
        removeArray atc m layerNumber type size compressedSize ∧
      ∀ ops, removeArraySteps atc m layerNumber type size compressedSize = some ops →
        lockDiscipline false ops = true) ∧
    ((updateArraySteps atc T m layerNumber type).map (runSteps m) =
        updateArray atc T m layerNumber type ∧
      ∀ ops, updateArraySteps atc T m layerNumber type = some ops →
        ∃ id v rest, ops = MicroOp.counterAssign id v :: rest ∧
          lockDiscipline false rest = true) := by
  refine ⟨⟨addArraySteps_refines atc m layerNumber type size compressedSize, ?_⟩,
    ⟨removeArraySteps_refines atc m layerNumber type size compressedSize, ?_⟩,
    ⟨updateArraySteps_refines atc T m layerNumber type, ?_⟩⟩
  · intro ops h
    unfold addArraySteps at h
    simp only at h
    split at h
    · rw [← Option.some.inj h]
      rfl
    · cases h
  · intro ops h
    unfold removeArraySteps at h
    simp only at h
    split at h
    · split at h
      · rw [← Option.some.inj h]
        rfl
      · split at h
        · cases h
        · rw [← Option.some.inj h]
          split <;> rfl
    · rw [← Option.some.inj h]
      rfl
  · intro ops h
    unfold updateArraySteps at h
    simp only at h
    split at h
    · cases h
    · cases h
    · split at h
      · cases h
      · split at h
        · rw [← Option.some.inj h]
          exact ⟨_, _, _, rfl, rfl⟩
        · rw [← Option.some.inj h]
          exact ⟨_, _, _, rfl, rfl⟩

theorem container_lock_discipline_witness :
    (∃ ops, addArraySteps 2 miniMaxTracked 1 1 16 4 = some ops ∧
      lockDiscipline false ops = true ∧
      addArray 2 miniMaxTracked 1 1 16 4 = some (runSteps miniMaxTracked ops)) ∧
    (∃ ops, removeArraySteps 2 miniMaxTracked 0 0 8 9 = some ops ∧
      lockDiscipline false ops = true ∧
      removeArray 2 miniMaxTracked 0 0 8 9 = some (runSteps miniMaxTracked ops)) ∧
    (∃ ops id v rest, updateArraySteps 2 0 miniMaxTracked 0 0 = some ops ∧
      ops = MicroOp.counterAssign id v :: rest ∧ lockDiscipline false rest = true) :=
  ⟨⟨_, rfl, (container_lock_discipline 2 0 miniMaxTracked 1 1 16 4).1.2 _ rfl, rfl⟩,
    ⟨_, rfl, (container_lock_discipline 2 0 miniMaxTracked 0 0 8 9).2.1.2 _ rfl, rfl⟩,
    ⟨_, 0, 1, _, rfl, rfl,
      by
        obtain ⟨id, v, rest, h1, h2⟩ :=
          (container_lock_discipline 2 0 miniMaxTracked 0 0 8 8).2.2.2 _ rfl
        cases h1
        exact h2⟩⟩

/-! ## Theorems: undo of a move, partner layers -/

/-- C18 (the code): `undo_move(Move)` returns false and leaves every position exactly as it
is, whatever the move; a position changed by `do_move` is therefore not restored. -/
theorem undo_move_is_stub {Position : Type} (pos : Position) (m : Move) :
    undo_move pos m = (false, pos) := rfl

theorem getCurCalculatedLayer_pair (shallRetroAnalysisBeUsed : Nat → Bool) (m : MiniMax)
    (layers : List Nat) (ls : List LayerStats) (l : LayerStats)
    (hls : m.layerStats = some ls) (hl : ls[m.curCalculatedLayer]? = some l)
    (hs : shallRetroAnalysisBeUsed m.curCalculatedLayer = true)
    (hp : l.partnerLayer ≠ m.curCalculatedLayer) :
    getCurCalculatedLayer shallRetroAnalysisBeUsed m layers =
      some [m.curCalculatedLayer, l.partnerLayer] := by
  have r2 : ∀ v : List Nat, ∀ a b : Nat,
      ((v.take 2 ++ List.replicate (2 - v.length) 0).set 0 a).set 1 b = [a, b] := by
    intro v a b
    cases v with
    | nil => rfl
    | cons x xs =>
      cases xs with
      | nil => rfl
      | cons y ys => simp
  simp only [getCurCalculatedLayer, hs, hls, hl, r2]
  simp [hp]

theorem buildLayerCatalog_some (rules : LayerRules) (signatures : List MaterialSignature)
    (ls : List LayerStats) (h : buildLayerCatalog rules signatures = some ls) :
    (∀ s ∈ signatures, s.swapRoles ∈ signatures ∧
      rules.knotsInLayer s.swapRoles = rules.knotsInLayer s) ∧
    ∀ (L : Nat) (l : LayerStats), ls[L]? = some l → ∃ s, signatures[L]? = some s ∧
      l.knotsInLayer = rules.knotsInLayer s ∧
      l.partnerLayer = signatures.indexOf s.swapRoles := by
  unfold buildLayerCatalog at h
  split at h
  · rename_i hall
    constructor
    · intro s hs
      have := List.all_eq_true.1 hall s hs
      simpa using this
    · intro L l hl
      rw [← Option.some.inj h] at hl
      rw [List.getElem?_map] at hl
      cases hs : signatures[L]? with
      | none => simp [hs] at hl
      | some s =>
        simp only [hs, Option.map_some', Option.some.injEq] at hl
        exact ⟨s, rfl, by rw [← hl], by rw [← hl]⟩
  · cases h

/-- C19: in a catalog built from pairwise different material signatures, every layer L has a
partner with the same number of states whose partner is L again; hence, when retro-analysis
is used for both and L is not its own partner, `getCurCalculatedLayer` reports
`[L, partner L]` for L and `[partner L, L]` for the partner: the same two layers. -/
theorem layerCatalog_partner_pairs (rules : LayerRules) (signatures : List MaterialSignature)
    (hnodup : signatures.Nodup) (ls : List LayerStats)
    (hbuild : buildLayerCatalog rules signatures = some ls) (L : Nat) (l : LayerStats)
    (hl : ls[L]? = some l) :
    ∃ p, ls[l.partnerLayer]? = some p ∧ p.knotsInLayer = l.knotsInLayer ∧
      p.partnerLayer = L ∧
      ∀ (shallRetroAnalysisBeUsed : Nat → Bool) (m : MiniMax) (layers1 layers2 : List Nat),
        m.layerStats = some ls → shallRetroAnalysisBeUsed L = true →
        shallRetroAnalysisBeUsed l.partnerLayer = true → l.partnerLayer ≠ L →
        getCurCalculatedLayer shallRetroAnalysisBeUsed { m with curCalculatedLayer := L }
          layers1 = some [L, l.partnerLayer] ∧
        getCurCalculatedLayer shallRetroAnalysisBeUsed
          { m with curCalculatedLayer := l.partnerLayer } layers2 =
            some [l.partnerLayer, L] := by
  obtain ⟨hall, hrec⟩ := buildLayerCatalog_some rules signatures ls hbuild
  obtain ⟨s, hs, hk, hp⟩ := hrec L l hl
  have hsmem : s ∈ signatures := List.getElem?_mem hs
  obtain ⟨hswap, hknots⟩ := hall s hsmem
  have hlen : ls.length = signatures.length := by
    unfold buildLayerCatalog at hbuild
    split at hbuild
    · rw [← Option.some.inj hbuild, List.length_map]
    · cases hbuild
  have hPlt : l.partnerLayer < ls.length := by
    rw [hp, hlen]
    exact List.indexOf_lt_length.2 hswap
  obtain ⟨p, hpl⟩ := getElem?_of_lt_length ls l.partnerLayer hPlt
  obtain ⟨s2, hs2, hk2, hp2⟩ := hrec l.partnerLayer p hpl
  have hs2eq : s2 = s.swapRoles := by
    have h1 : signatures[signatures.indexOf s.swapRoles]? = some s.swapRoles :=
      List.getElem?_indexOf hswap
    rw [hp, h1] at hs2
    exact (Option.some.inj hs2).symm
  have hLlt : L < signatures.length := getElem?_some_lt _ _ _ hs
  have hsL : signatures[L] = s := by
    have := List.getElem?_eq_getElem hLlt
    rw [this] at hs
    exact Option.some.inj hs
  have hback : p.partnerLayer = L := by
    rw [hp2, hs2eq]
    have hss : s.swapRoles.swapRoles = s := rfl
    rw [hss, ← hsL]
    exact List.indexOf_getElem hnodup L hLlt
  refine ⟨p, hpl, ?_, hback, ?_⟩
  · rw [hk2, hs2eq, hknots, hk]
  · intro shall m layers1 layers2 hm h1 h2 hne
    constructor
    · exact getCurCalculatedLayer_pair shall { m with curCalculatedLayer := L } layers1 ls l
        hm hl h1 hne
    · have := getCurCalculatedLayer_pair shall
        { m with curCalculatedLayer := l.partnerLayer } layers2 ls p hm hpl h2
        (by rw [hback]; exact fun e => hne e.symm)
      rw [hback] at this
      exact this

theorem layerCatalog_partner_pairs_witness :
    signaturesExample.Nodup ∧
    buildLayerCatalog rulesExample signaturesExample =
      some ((buildLayerCatalog rulesExample signaturesExample).getD []) ∧
    ∃ l : LayerStats,
      ((buildLayerCatalog rulesExample signaturesExample).getD [])[0]? = some l ∧
      l.partnerLayer = 1 ∧
      ∃ p, ((buildLayerCatalog rulesExample signaturesExample).getD [])[l.partnerLayer]? =
          some p ∧
        p.knotsInLayer = l.knotsInLayer ∧ p.partnerLayer = 0 ∧
        ∀ (shallRetroAnalysisBeUsed : Nat → Bool) (m : MiniMax) (layers1 layers2 : List Nat),
          m.layerStats = some ((buildLayerCatalog rulesExample signaturesExample).getD []) →
          shallRetroAnalysisBeUsed 0 = true →
          shallRetroAnalysisBeUsed l.partnerLayer = true → l.partnerLayer ≠ 0 →
          getCurCalculatedLayer shallRetroAnalysisBeUsed { m with curCalculatedLayer := 0 }
            layers1 = some [0, l.partnerLayer] ∧
          getCurCalculatedLayer shallRetroAnalysisBeUsed
            { m with curCalculatedLayer := l.partnerLayer } layers2 =
              some [l.partnerLayer, 0] :=
  ⟨by decide, rfl,
    { layerIsCompletedAndInFile := false, knotsInLayer := 12, wonStateCount := 0,
      lostStateCount := 0, drawnStateCount := 0, invalidStateCount := 0, sizeInBytes := 3,
      succeedingLayerCount := 2, succeedingLayers := [0, 0], partnerLayer := 1 },
    rfl, rfl,
    layerCatalog_partner_pairs rulesExample signaturesExample (by decide)
      ((buildLayerCatalog rulesExample signaturesExample).getD []) rfl 0
      { layerIsCompletedAndInFile := false, knotsInLayer := 12, wonStateCount := 0,
        lostStateCount := 0, drawnStateCount := 0, invalidStateCount := 0, sizeInBytes := 3,
        succeedingLayerCount := 2, succeedingLayers := [0, 0], partnerLayer := 1 } rfl⟩

/-! ## Theorems: the direct-access index and the item index of the events -/

/-- C21 (the code after a removal): after `addArray(0, 0, 8, 8)` and the matching
`removeArray` the array is no longer in the primary sequence, yet its slot still holds the
iterator of the erased node and not `listArrays.end()`; the slot passes the test
`itr != listArrays.end()` by which the code decides whether a slot refers to an entry, and a
touch of the array through that slot has no defined outcome. -/
theorem removed_slot_keeps_erased_iterator :
    ∃ m1 m2, addArray 2 miniMaxExample 0 0 8 8 = some m1 ∧
      m1.arrayInfos.vectorArrays[slotIndex 2 0 0]? = some (ListIter.node 0) ∧
      findNode 0 m1.arrayInfos.listArrays =
        some { type := 0, sizeInBytes := 8, compressedSizeInBytes := 8, belongsToLayer := 0,
               updateCounter := 0 } ∧
      removeArray 2 m1 0 0 8 8 = some m2 ∧
      m2.arrayInfos.listArrays = [] ∧
      m2.arrayInfos.vectorArrays[slotIndex 2 0 0]? = some (ListIter.node 0) ∧
      ListIter.node 0 ≠ ListIter.listEnd ∧
      updateArray 2 100 m2 0 0 = none :=
  ⟨_, _, rfl, rfl, rfl, rfl, rfl, rfl, by decide, rfl⟩

theorem nodeIndex_getElem? (id : Nat) (a : ArrayInfo) (l : List (Nat × ArrayInfo))
    (h : findNode id l = some a) :
    l[nodeIndex id l]? = some (id, a) ∧ nodeIndex id l < l.length ∧
      ∀ j p, j < nodeIndex id l → l[j]? = some p → p.1 ≠ id := by
  induction l with
  | nil => simp [findNode] at h
  | cons p rest ih =>
    obtain ⟨i, b⟩ := p
    by_cases hi : i = id
    · simp only [findNode, hi, if_true, Option.some.injEq] at h
      subst hi
      subst h
      refine ⟨by simp [nodeIndex], by simp [nodeIndex], ?_⟩
      intro j p hj
      simp [nodeIndex] at hj
    · simp only [findNode, hi, if_false] at h
      obtain ⟨h1, h2, h3⟩ := ih h
      refine ⟨by simp [nodeIndex, hi, h1], by simp [nodeIndex, hi, h2], ?_⟩
      intro j p hj hp
      cases j with
      | zero =>
        simp only [List.getElem?_cons_zero, Option.some.injEq] at hp
        rw [← hp]
        exact hi
      | succ k =>
        simp only [nodeIndex, hi, if_false, Nat.add_lt_add_iff_right] at hj
        simp only [List.getElem?_cons_succ] at hp
        exact h3 k p hj hp

theorem setUpdateCounter_getElem? (id v : Nat) (a : ArrayInfo) (l : List (Nat × ArrayInfo))
    (h : findNode id l = some a) :
    (setUpdateCounter id v l)[nodeIndex id l]? = some (id, { a with updateCounter := v }) := by
  induction l with
  | nil => simp [findNode] at h
  | cons p rest ih =>
    obtain ⟨i, b⟩ := p
    by_cases hi : i = id
    · simp only [findNode, hi, if_true, Option.some.injEq] at h
      subst hi
      subst h
      simp [nodeIndex, setUpdateCounter]
    · simp only [findNode, hi, if_false] at h
      simp [nodeIndex, setUpdateCounter, hi, ih h]

/-- C22: with fewer than 2^32 entries in the primary sequence, the event of an `addArray`
carries the old length of the sequence, at which the new entry then stands; the event of a
`removeArray` of a tracked array carries a null `arrayInfo` and the position the entry had
just before it was erased; the event of a surfaced `updateArray` carries the position at
which the entry stands before and after the call; and a `removeArray` whose slot lies
outside `vectorArrays` or holds `listArrays.end()` returns with the container unchanged: no
event, no entry changed. -/
theorem change_events_itemIndex (atc T : Nat) :
    (∀ (m : MiniMax) (layerNumber type : Nat) (size compressedSize : Int),
      slotIndex atc layerNumber type < m.arrayInfos.vectorArrays.length →
      m.arrayInfos.listArrays.length < 2 ^ 32 →
      ∃ m1, addArray atc m layerNumber type size compressedSize = some m1 ∧
        m1.arrayInfos.arrayInfosToBeUpdated = m.arrayInfos.arrayInfosToBeUpdated ++
          [{ arrayInfo := some m.arrayInfos.nextNode
             itemIndex := m.arrayInfos.listArrays.length }] ∧
        m1.arrayInfos.listArrays[m.arrayInfos.listArrays.length]? =
          some (m.arrayInfos.nextNode,
            { belongsToLayer := layerNumber, type := type, sizeInBytes := size,
              compressedSizeInBytes := compressedSize, updateCounter := 0 })) ∧
    (∀ (m : MiniMax) (layerNumber type : Nat) (size compressedSize : Int) (id : Nat)
        (itr : ArrayInfo),
      Tracked atc m layerNumber type id itr → m.arrayInfos.listArrays.length < 2 ^ 32 →
      ∃ m1 pos, removeArray atc m layerNumber type size compressedSize = some m1 ∧
        m.arrayInfos.listArrays[pos]? = some (id, itr) ∧
        (∀ j p, j < pos → m.arrayInfos.listArrays[j]? = some p → p.1 ≠ id) ∧
        m1.arrayInfos.arrayInfosToBeUpdated = m.arrayInfos.arrayInfosToBeUpdated ++
          [{ arrayInfo := none, itemIndex := pos }]) ∧
    (∀ (m : MiniMax) (layerNumber type id : Nat) (itr : ArrayInfo),
      Tracked atc m layerNumber type id itr → m.arrayInfos.listArrays.length < 2 ^ 32 →
      (itr.updateCounter + 1) % 2 ^ 32 > T →
      ∃ m1 pos, updateArray atc T m layerNumber type = some m1 ∧
        m.arrayInfos.listArrays[pos]? = some (id, itr) ∧
        m1.arrayInfos.listArrays[pos]? = some (id, { itr with updateCounter := 0 }) ∧
        m1.arrayInfos.arrayInfosToBeUpdated = m.arrayInfos.arrayInfosToBeUpdated ++
          [{ arrayInfo := some id, itemIndex := pos }]) ∧
    (∀ (m : MiniMax) (layerNumber type : Nat) (size compressedSize : Int),
      (m.arrayInfos.vectorArrays.length ≤ slotIndex atc layerNumber type ∨
        m.arrayInfos.vectorArrays[slotIndex atc layerNumber type]? = some ListIter.listEnd) →
      ∃ m1, removeArray atc m layerNumber type size compressedSize = some m1 ∧
        m1.arrayInfos = m.arrayInfos) := by
  refine ⟨?_, ?_, ?_, ?_⟩
  · intro m layerNumber type size compressedSize hslot hlen
    refine ⟨_, addArray_eq atc m layerNumber type size compressedSize hslot, ?_, ?_⟩
    · rw [updateGui_arrayInfos]
      have e : ((m.arrayInfos.listArrays ++
          [(m.arrayInfos.nextNode,
            ({ belongsToLayer := layerNumber, compressedSizeInBytes := compressedSize,
               sizeInBytes := size, type := type,
               updateCounter := 0 } : ArrayInfo))]).length % 2 ^ 32 + 2 ^ 32 - 1) % 2 ^ 32 =
          m.arrayInfos.listArrays.length := by
        simp only [List.length_append, List.length_singleton]
        omega
      simp only [e]
    · rw [updateGui_arrayInfos]
      simp
  · intro m layerNumber type size compressedSize id itr ht hlen
    obtain ⟨h1, h2, h3⟩ := nodeIndex_getElem? id itr _ ht.2
    refine ⟨_, nodeIndex id m.arrayInfos.listArrays,
      removeArray_eq atc m layerNumber type size compressedSize id itr ht, h1, h3, ?_⟩
    rw [updateGui_arrayInfos]
    have e : nodeIndex id m.arrayInfos.listArrays % 2 ^ 32 =
        nodeIndex id m.arrayInfos.listArrays := Nat.mod_eq_of_lt (by omega)
    simp only [e]
  · intro m layerNumber type id itr ht hlen hgt
    obtain ⟨h1, h2, _⟩ := nodeIndex_getElem? id itr _ ht.2
    have heq : updateArray atc T m layerNumber type = some (updateGui { m with
        arrayInfos :=
          { m.arrayInfos with
            arrayInfosToBeUpdated := m.arrayInfos.arrayInfosToBeUpdated ++
              [{ arrayInfo := some id
                 itemIndex := nodeIndex id m.arrayInfos.listArrays % 2 ^ 32 }]
            listArrays := setUpdateCounter id 0 m.arrayInfos.listArrays } }) := by
      simp only [updateArray, ht.1, ht.2, hgt, if_true]
    refine ⟨_, nodeIndex id m.arrayInfos.listArrays, heq, h1, ?_, ?_⟩
    · rw [updateGui_arrayInfos]
      exact setUpdateCounter_getElem? id 0 itr _ ht.2
    · rw [updateGui_arrayInfos]
      have e : nodeIndex id m.arrayInfos.listArrays % 2 ^ 32 =
          nodeIndex id m.arrayInfos.listArrays := Nat.mod_eq_of_lt (by omega)
      simp only [e]
  · intro m layerNumber type size compressedSize h
    rcases h with h | h
    · refine ⟨updateGui m, ?_, updateGui_arrayInfos m⟩
      have hn : ¬ m.arrayInfos.vectorArrays.length > slotIndex atc layerNumber type := by
        omega
      simp only [removeArray, hn, if_false]
    · refine ⟨updateGui m, ?_, updateGui_arrayInfos m⟩
      have hlt := getElem?_some_lt _ _ _ h
      have hget : m.arrayInfos.vectorArrays.getD (slotIndex atc layerNumber type)
          ListIter.listEnd = ListIter.listEnd := by
        simp [List.getD_eq_getElem?_getD, h]
      simp only [removeArray, gt_iff_lt, hlt, if_true, hget]

theorem change_events_itemIndex_witness :
    (∃ m1, addArray 2 miniMaxTracked 1 1 16 4 = some m1 ∧
      m1.arrayInfos.arrayInfosToBeUpdated = miniMaxTracked.arrayInfos.arrayInfosToBeUpdated ++
        [{ arrayInfo := some 1, itemIndex := 1 }] ∧
      m1.arrayInfos.listArrays[1]? =
        some (1, { belongsToLayer := 1, type := 1, sizeInBytes := 16,
                   compressedSizeInBytes := 4, updateCounter := 0 })) ∧
    (∃ m1 pos, removeArray 2 miniMaxTracked 0 0 8 8 = some m1 ∧
      miniMaxTracked.arrayInfos.listArrays[pos]? =
        some (0, { type := 0, sizeInBytes := 8, compressedSizeInBytes := 8,
                   belongsToLayer := 0, updateCounter := 0 }) ∧
      (∀ j p, j < pos → miniMaxTracked.arrayInfos.listArrays[j]? = some p → p.1 ≠ 0) ∧
      m1.arrayInfos.arrayInfosToBeUpdated = miniMaxTracked.arrayInfos.arrayInfosToBeUpdated ++
        [{ arrayInfo := none, itemIndex := pos }]) ∧
    (∃ m1 pos, updateArray 2 0 miniMaxTracked 0 0 = some m1 ∧
      miniMaxTracked.arrayInfos.listArrays[pos]? =
        some (0, { type := 0, sizeInBytes := 8, compressedSizeInBytes := 8,
                   belongsToLayer := 0, updateCounter := 0 }) ∧
      m1.arrayInfos.listArrays[pos]? =
        some (0, { type := 0, sizeInBytes := 8, compressedSizeInBytes := 8,
                   belongsToLayer := 0, updateCounter := 0 }) ∧
      m1.arrayInfos.arrayInfosToBeUpdated = miniMaxTracked.arrayInfos.arrayInfosToBeUpdated ++
        [{ arrayInfo := some 0, itemIndex := pos }]) ∧
    (∃ m1, removeArray 2 miniMaxTracked 1 1 16 4 = some m1 ∧
      m1.arrayInfos = miniMaxTracked.arrayInfos) :=
  ⟨(change_events_itemIndex 2 0).1 miniMaxTracked 1 1 16 4 (by decide) (by decide),
    (change_events_itemIndex 2 0).2.1 miniMaxTracked 0 0 8 8 0 _ ⟨rfl, rfl⟩ (by decide),
    (change_events_itemIndex 2 0).2.2.1 miniMaxTracked 0 0 0 _ ⟨rfl, rfl⟩ (by decide)
      (by decide),
    (change_events_itemIndex 2 0).2.2.2 miniMaxTracked 1 1 16 4 (Or.inr rfl)⟩

/-! ## Theorems: the position of the mill game -/

theorem foldl_const_fst {α β : Type} (l : List β) (a : α) :
    l.foldl (fun n _ => n) a = a := by
  induction l with
  | nil => rfl
  | cons _ _ ih => exact ih

theorem in_how_many_mills_nobody (T : Types) (hT : T.PLAYER_SHIFT = 4) (p : Position)
    (s squareSelected : Nat) :
    in_how_many_mills T p s T.NOBODY squareSelected = 0 := by
  have h : ((p.board.getD s 0 &&& 0x30) >>> 4) >>> 4 = 0 := by
    have h1 : p.board.getD s 0 &&& 0x30 ≤ 0x30 := Nat.and_le_right
    rw [← Nat.shiftRight_add, Nat.shiftRight_eq_div_pow]
    exact Nat.div_eq_of_lt (by omega)
  simp only [in_how_many_mills, color_on, if_true, hT, h, Nat.zero_shiftLeft,
    Nat.zero_and, ne_eq, not_true_eq_false, if_false]
  exact foldl_const_fst _ _

set_option maxRecDepth 100000 in
/-- C23 (the code on a piece in a mill): black has closed a mill and is to remove a white
piece under a rule with `allowRemovePieceInMill` false; white stands on 17, 18, 19, a closed
mill, and on 30, which is in no mill. `in_how_many_mills(17, NOBODY)`, as `remove_piece`
calls it, counts 0 mills (with the colour given it counts 1), and `remove_piece(17)` returns
true and takes the piece off the board. With a player shift of 4,
`in_how_many_mills(s, NOBODY)` is 0 for every position and square. -/
theorem remove_piece_takes_piece_in_mill :
    blackToRemovePosition.rule.allowRemovePieceInMill = false ∧
    blackToRemovePosition.board =
      [0, 0, 0, 0, 0, 0, 0, 0, 17, 18, 0, 0, 0, 20, 0, 21, 0, 33, 34, 36, 0, 0, 0, 0,
       0, 0, 0, 0, 0, 0, 35, 0, 0, 0, 0, 0, 0, 0, 0, 0] ∧
    blackToRemovePosition.phase = typesExample.PHASE_PLACING ∧
    blackToRemovePosition.action = typesExample.ACTION_REMOVE ∧
    blackToRemovePosition.sideToMove = typesExample.BLACK ∧
    blackToRemovePosition.pieceCountNeedRemove = 1 ∧
    in_how_many_mills typesExample blackToRemovePosition 17 typesExample.WHITE 0 = 1 ∧
    in_how_many_mills typesExample blackToRemovePosition 30 typesExample.WHITE 0 = 0 ∧
    in_how_many_mills typesExample blackToRemovePosition 17 typesExample.NOBODY 0 = 0 ∧
    (remove_piece typesExample blackToRemovePosition 17 false).map (fun r => r.1) =
      some true ∧
    (remove_piece typesExample blackToRemovePosition 17 false).map
      (fun r => r.2.board.getD 17 0) = some 0 ∧
    (remove_piece typesExample blackToRemovePosition 17 false).map
      (fun r => r.2.pieceCountOnBoard) = some [0, 4, 3] ∧
    (∀ (T : Types) (p : Position) (s squareSelected : Nat), T.PLAYER_SHIFT = 4 →
      in_how_many_mills T p s T.NOBODY squareSelected = 0) := by
  refine ⟨rfl, rfl, rfl, rfl, rfl, rfl, rfl, rfl, rfl, rfl, rfl, rfl, ?_⟩
  intro T p s squareSelected hT
  exact in_how_many_mills_nobody T hT p s squareSelected

set_option maxRecDepth 100000 in
/-- C24 (the code on a mill closed again): after the placement that closes the white mill
17-18-19, the first mill of the game, `add_mills` has counted one mill and `millListSize`
is 1, but the mill is stored in `millList[1]`, the index of the line direction, and
`millList[0]`, the only entry below `millListSize`, holds no mill. Called again on the same
square with the same three pieces, `add_mills(19)` counts the mill once more. -/
theorem add_mills_counts_same_mill_again :
    whiteMillPosition.rule.allowRemovePiecesRepeatedlyWhenCloseSameMill = false ∧
    whiteMillPosition.board =
      [0, 0, 0, 0, 0, 0, 0, 0, 17, 18, 0, 0, 19, 20, 0, 0, 0, 33, 34, 36, 0, 0, 0, 0,
       0, 0, 0, 0, 0, 0, 35, 0, 0, 0, 0, 0, 0, 0, 0, 0] ∧
    whiteMillPosition.pieceCountNeedRemove = 1 ∧
    whiteMillPosition.millListSize = 1 ∧
    whiteMillPosition.millList = [0, millValue whiteMillPosition [17, 18, 19], 0, 0] ∧
    (add_mills typesExample whiteMillPosition 19).1 = 1 ∧
    (add_mills typesExample whiteMillPosition 19).2.millListSize = 2 ∧
    (add_mills typesExample whiteMillPosition 19).2.board = whiteMillPosition.board := by
  refine ⟨rfl, rfl, rfl, rfl, rfl, rfl, rfl, rfl⟩

set_option maxRecDepth 100000 in
/-- C25 (the code under a time limit): after the first placement of a game with
`maxTimeLedToLose = 5` the phase is PLACING, no time has elapsed, and no end condition
holds; `check_gameover_condition` sets the phase to GAMEOVER and returns true, with no
winner. A first placement with `updateCmdlist` true, which runs the test through `update`,
reaches the label `out:` with the game over and no winner; `set_tips()` then writes
`score[NOBODY]`, outside the array, and the call is undefined. -/
theorem check_gameover_condition_ends_timed_game :
    timedPosition.phase = typesExample.PHASE_PLACING ∧
    timedPosition.rule.maxTimeLedToLose = 5 ∧
    timedPosition.elapsedSeconds = [0, 0, 0] ∧
    timedPosition.rule.maxStepsLedToDraw = 0 ∧
    timedPosition.pieceCountOnBoard = [0, 1, 0] ∧
    timedPosition.pieceCountInHand = [0, 8, 9] ∧
    timedPosition.rule.nPiecesAtLeast = 3 ∧
    (check_gameover_condition typesExample timedPosition true).1 = true ∧
    (check_gameover_condition typesExample timedPosition true).2.phase =
      typesExample.PHASE_GAMEOVER ∧
    (check_gameover_condition typesExample timedPosition true).2.winner =
      typesExample.NOBODY ∧
    (check_gameover_condition typesExample timedPosition false).1 = true ∧
    (check_gameover_condition typesExample timedPosition false).2.phase =
      typesExample.PHASE_GAMEOVER ∧
    (put_piece_steps typesExample (freshPosition timedRule) 12 true).1 = Exit.out ∧
    (put_piece_steps typesExample (freshPosition timedRule) 12 true).2.phase =
      typesExample.PHASE_GAMEOVER ∧
    (put_piece_steps typesExample (freshPosition timedRule) 12 true).2.elapsedSeconds =
      [0, 1, 0] ∧
    (put_piece_steps typesExample (freshPosition timedRule) 12 true).2.winner =
      typesExample.NOBODY ∧
    (put_piece_steps typesExample (freshPosition timedRule) 12 true).2.score.length = 3 ∧
    put_piece typesExample (freshPosition timedRule) 12 true = none := by
  refine ⟨rfl, rfl, rfl, rfl, rfl, rfl, rfl, rfl, rfl, rfl, rfl, rfl, rfl, rfl, rfl, rfl,
    rfl, rfl⟩

set_option maxRecDepth 100000 in
/-- C26 (the code on a blocked side): in `blockedPosition` (moving phase, black to select,
no black piece can move, `isLoseButNotChangeTurnWhenNoWay` false)
`check_gameover_condition` returns false and leaves the phase GAMEOVER, which is not a
playing phase, with the side to move changed to white; this is the call made by the last
placement of `blockadeCalls`, which leaves exactly that position behind. -/
theorem check_gameover_condition_false_with_gameover :
    blockedPosition.phase = typesExample.PHASE_MOVING ∧
    blockedPosition.action = typesExample.ACTION_SELECT ∧
    blockedPosition.sideToMove = typesExample.BLACK ∧
    blockedPosition.board =
      [0, 0, 0, 0, 0, 0, 0, 0, 0, 33, 0, 34, 17, 18, 19, 35, 36, 0, 37, 0, 38, 0, 39, 0,
       20, 40, 21, 22, 23, 41, 24, 25, 0, 0, 0, 0, 0, 0, 0, 0] ∧
    is_all_surrounded typesExample blockedPosition = true ∧
    (check_gameover_condition typesExample blockedPosition false).1 = false ∧
    (check_gameover_condition typesExample blockedPosition false).2.phase =
      typesExample.PHASE_GAMEOVER ∧
    typesExample.PHASE_GAMEOVER &&& typesExample.PHASE_PLAYING = 0 ∧
    (check_gameover_condition typesExample blockedPosition false).2.sideToMove =
      typesExample.WHITE ∧
    (check_gameover_condition typesExample blockedPosition true).1 = false ∧
    (check_gameover_condition typesExample blockedPosition true).2.phase =
      typesExample.PHASE_GAMEOVER ∧
    put_piece typesExample beforeBlockadePosition 29 false =
      some (true, (check_gameover_condition typesExample blockedPosition false).2) := by
  refine ⟨rfl, rfl, rfl, rfl, rfl, rfl, rfl, rfl, rfl, rfl, rfl, ?_⟩
  decide

set_option maxRecDepth 100000 in
/-- C28 (counterexample): on a freshly set position, which is in phase READY,
`put_piece(0)` returns false because square 0 is not on the board, and leaves the phase
PLACING. -/
theorem put_piece_failure_starts_game :
    (freshPosition ruleExample).phase = typesExample.PHASE_READY ∧
    (put_piece typesExample (freshPosition ruleExample) 0 false).map (fun r => r.1) =
      some false ∧
    (put_piece typesExample (freshPosition ruleExample) 0 false).map (fun r => r.2.phase) =
      some typesExample.PHASE_PLACING ∧
    (put_piece typesExample (freshPosition ruleExample) 0 false).map (fun r => r.2) ≠
      some (freshPosition ruleExample) := by
  refine ⟨rfl, rfl, rfl, ?_⟩
  decide

set_option maxRecDepth 100000 in
/-- C29 (the code on a removal that leaves a ban stone): in the placing phase under a rule
with banned locations black is to remove the white piece on 16. `do_move(-16)` accepts the
move and puts a ban stone on 16; the key it leaves is the old key with `psq[2][16]` (the
white piece) and `psq[0][16]` (the colour bits of the ban stone) folded in, while
`next_primary_key(-16)`, computed before the move, folds in `psq[2][16]` and
`psq[BAN][16]`; the two keys differ. -/
theorem next_primary_key_misses_ban_stone :
    bannedRemovalPosition.phase = typesExample.PHASE_PLACING ∧
    bannedRemovalPosition.action = typesExample.ACTION_REMOVE ∧
    bannedRemovalPosition.sideToMove = typesExample.BLACK ∧
    bannedRemovalPosition.rule.hasBannedLocations = true ∧
    bannedRemovalPosition.board.getD 16 0 = 0x21 ∧
    typesExample.type_of (-16) = typesExample.MOVETYPE_REMOVE ∧
    (do_move typesExample (move_piece typesExample) bannedRemovalPosition (-16)).map
      (fun r => r.1) = some true ∧
    (do_move typesExample (move_piece typesExample) bannedRemovalPosition (-16)).map
      (fun r => r.2.board.getD 16 0) = some typesExample.BAN_STONE ∧
    (do_move typesExample (move_piece typesExample) bannedRemovalPosition (-16)).map
      (fun r => r.2.key) =
      some (bannedRemovalPosition.key ^^^ typesExample.psq 2 16 ^^^ typesExample.psq 0 16) ∧
    next_primary_key typesExample bannedRemovalPosition (-16) =
      bannedRemovalPosition.key ^^^ typesExample.psq 2 16 ^^^
        typesExample.psq typesExample.BAN 16 ∧
    (do_move typesExample (move_piece typesExample) bannedRemovalPosition (-16)).map
      (fun r => r.2.key) ≠
      some (next_primary_key typesExample bannedRemovalPosition (-16)) := by
  refine ⟨rfl, rfl, rfl, rfl, rfl, rfl, rfl, rfl, rfl, rfl, ?_⟩
  decide

/-! ### Auxiliary facts: counting and hashing over the squares -/

theorem getD_set (l : List Nat) (s i v : Nat) :
    (l.set s v).getD i 0 = if i = s ∧ s < l.length then v else l.getD i 0 := by
  simp only [List.getD_eq_getElem?_getD, List.getElem?_set]
  by_cases h1 : s = i
  · subst h1
    by_cases h2 : s < l.length
    · simp [h2]
    · simp [h2, List.getElem?_eq_none (Nat.le_of_not_lt h2)]
  · have h3 : ¬ i = s := fun h => h1 h.symm
    simp [h1, h3]

theorem bookkeeping_side (T : Types) (p r : Position)
    (hb : Bookkeeping T p r) (hp : r.phase ≠ T.PHASE_GAMEOVER) :
    r.sideToMove = p.sideToMove := by
  obtain ⟨_, _, _, _, _, _, _, h8⟩ := hb
  rcases h8 with ⟨_, hs, _⟩ | ⟨hp2, _⟩
  · exact hs
  · exact absurd hp2 hp

theorem check_gameover_condition_false_eq (T : Types) (p : Position) (upd : Bool)
    (ha : p.action ≠ T.ACTION_SELECT)
    (h : (check_gameover_condition T p upd).1 = false) :
    (check_gameover_condition T p upd).2 = p := by
  unfold check_gameover_condition at h ⊢
  by_cases h1 : p.phase &&& T.PHASE_NOTPLAYING ≠ 0
  · rw [if_pos h1] at h
    exact absurd h (by simp)
  rw [if_neg h1] at h ⊢
  by_cases h2 : p.rule.maxTimeLedToLose > 0
  · rw [if_pos h2] at h
    exact absurd h (by simp)
  rw [if_neg h2] at h ⊢
  by_cases h3 : p.rule.maxStepsLedToDraw > 0 ∧ p.moveStep > p.rule.maxStepsLedToDraw
  · rw [if_pos h3] at h
    exact absurd h (by simp)
  rw [if_neg h3] at h ⊢
  by_cases h4 : p.pieceCountOnBoard.getD 1 0 + p.pieceCountInHand.getD 1 0 < p.rule.nPiecesAtLeast
  · rw [if_pos h4] at h
    exact absurd h (by simp)
  rw [if_neg h4] at h ⊢
  by_cases h5 : p.pieceCountOnBoard.getD 2 0 + p.pieceCountInHand.getD 2 0 < p.rule.nPiecesAtLeast
  · rw [if_pos h5] at h
    exact absurd h (by simp)
  rw [if_neg h5] at h ⊢
  by_cases h6 : p.pieceCountOnBoard.getD T.BLACK 0 + p.pieceCountOnBoard.getD T.WHITE 0 ≥
      ((T.RANK_NB * T.FILE_NB : Nat) : Int)
  · rw [if_pos h6] at h
    exact absurd h (by simp)
  rw [if_neg h6] at h ⊢
  have h7 : ¬ (p.phase = T.PHASE_MOVING ∧ p.action = T.ACTION_SELECT ∧
      is_all_surrounded T p = true) := fun hc => ha hc.2.1
  rw [if_neg h7]

theorem standard_distinct (T : Types) (hT : T.Standard) :
    T.PHASE_PLACING ≠ T.PHASE_READY ∧ T.PHASE_PLACING ≠ T.PHASE_MOVING ∧
    T.PHASE_PLACING ≠ T.PHASE_GAMEOVER ∧ T.PHASE_MOVING ≠ T.PHASE_READY ∧
    T.PHASE_MOVING ≠ T.PHASE_GAMEOVER ∧ T.PHASE_READY ≠ T.PHASE_GAMEOVER ∧
    T.ACTION_PLACE ≠ T.ACTION_REMOVE ∧ T.ACTION_PLACE ≠ T.ACTION_SELECT ∧
    T.ACTION_SELECT ≠ T.ACTION_REMOVE := by
  rw [hT.ready, hT.placing, hT.moving, hT.gameover, hT.select, hT.place, hT.remove]
  decide

theorem start_ready (T : Types) (hT : T.Standard) (p : Position)
    (h : p.phase = T.PHASE_READY) : (start T p).2 = startClock T p := by
  obtain ⟨d1, d2, d3, d4, d5, d6, d7, d8, d9⟩ := standard_distinct T hT
  unfold start
  rw [if_neg (by
    intro e
    rcases e with e | e
    · exact d1 (e.symm.trans h)
    · exact d4 (e.symm.trans h)), if_neg (fun e => d6 (h.symm.trans e)), if_pos h]

theorem atExit_returns_false (T : Types) (r : Exit × Position) (upd : Bool) (q : Position)
    (h : atExit T r upd = some (false, q)) : r.1 = Exit.returns false ∧ q = r.2 := by
  unfold atExit at h
  split at h
  · rename_i value hv
    have e := Prod.mk.inj (Option.some.inj h)
    rw [hv, e.1]
    exact ⟨rfl, e.2.symm⟩
  · split at h
    · cases ht : set_tips T r.2 with
      | none => simp [ht] at h
      | some t => simp [ht] at h
    · simp at h

theorem put_piece_moving_false (T : Types) (hT : T.Standard) (p : Position) (s : Nat)
    (upd : Bool) (ha : p.action = T.ACTION_PLACE)
    (h : (put_piece_moving T p s upd).1 = Exit.returns false) :
    (put_piece_moving T p s upd).2 = p := by
  obtain ⟨d1, d2, d3, d4, d5, d6, d7, d8, d9⟩ := standard_distinct T hT
  have hne : p.action ≠ T.ACTION_SELECT := fun e => d8 (ha.symm.trans e)
  have hf := check_gameover_condition_false_eq T p upd hne
  unfold put_piece_moving at h ⊢
  dsimp only at h ⊢
  generalize check_gameover_condition T p upd = g at *
  by_cases hg : g.1 = true
  · rw [if_pos hg] at h
    exact absurd h (by simp)
  rw [if_neg hg] at h ⊢
  by_cases hill : moveIsIllegal T g.2 s = true
  · rw [if_pos hill]
    exact hf (by
      cases hb : g.1
      · rfl
      · exact absurd hb hg)
  · rw [if_neg hill] at h
    exact absurd h (by simp)

theorem put_piece_steps_false (T : Types) (hT : T.Standard) (p : Position) (s : Nat)
    (updateCmdlist : Bool)
    (h : (put_piece_steps T p s updateCmdlist).1 = Exit.returns false) :
    (p.phase ≠ T.PHASE_READY → (put_piece_steps T p s updateCmdlist).2 = p) ∧
    (p.phase = T.PHASE_READY →
      (put_piece_steps T p s updateCmdlist).2 =
        { p with startTime := T.time p.timeReads, timeReads := p.timeReads + 1
                 phase := T.PHASE_PLACING }) := by
  obtain ⟨d1, d2, d3, d4, d5, d6, d7, d8, d9⟩ := standard_distinct T hT
  have key : ∀ q : Position,
      (if q.action ≠ T.ACTION_PLACE then (Exit.returns false, q)
        else if onBoard.getD s 0 = 0 ∨ q.board.getD s 0 ≠ 0 then (Exit.returns false, q)
        else if q.phase = T.PHASE_PLACING then
          (Exit.out, put_piece_placing T q s p.sideToMove updateCmdlist)
        else put_piece_moving T q s updateCmdlist).1 = Exit.returns false →
      (if q.action ≠ T.ACTION_PLACE then (Exit.returns false, q)
        else if onBoard.getD s 0 = 0 ∨ q.board.getD s 0 ≠ 0 then (Exit.returns false, q)
        else if q.phase = T.PHASE_PLACING then
          (Exit.out, put_piece_placing T q s p.sideToMove updateCmdlist)
        else put_piece_moving T q s updateCmdlist).2 = q := by
    intro q hq
    by_cases h2 : q.action ≠ T.ACTION_PLACE
    · rw [if_pos h2]
    rw [if_neg h2] at hq ⊢
    by_cases h3 : onBoard.getD s 0 = 0 ∨ q.board.getD s 0 ≠ 0
    · rw [if_pos h3]
    rw [if_neg h3] at hq ⊢
    by_cases h4 : q.phase = T.PHASE_PLACING
    · rw [if_pos h4] at hq
      exact absurd hq (by simp)
    rw [if_neg h4] at hq ⊢
    exact put_piece_moving_false T hT q s updateCmdlist (not_not.mp h2) hq
  unfold put_piece_steps at h ⊢
  dsimp only at h ⊢
  by_cases h1 : p.phase = T.PHASE_GAMEOVER
  · rw [if_pos h1]
    exact ⟨fun _ => rfl, fun hr => absurd (hr.symm.trans h1) d6⟩
  rw [if_neg h1] at h ⊢
  by_cases hr : p.phase = T.PHASE_READY
  · rw [if_pos hr, start_ready T hT p hr] at h ⊢
    exact ⟨fun hn => absurd hr hn, fun _ => key _ h⟩
  · rw [if_neg hr] at h ⊢
    exact ⟨fun _ => key _ h, fun e => absurd e hr⟩

/-- C28 (amended): for the standard values of the header constants and a square `s` of the
board array, if `put_piece` returns false then a position that was not in phase READY is
unchanged, and a position that was in phase READY has been started and is otherwise
unchanged: its phase is PLACING, its start time is the clock reading of the call and one
clock reading is consumed. -/
theorem put_piece_failure_unchanged (T : Types) (hT : T.Standard) (p : Position) (s : Nat)
    (updateCmdlist : Bool) (_hs : s < T.SQUARE_NB) (q : Position)
    (h : put_piece T p s updateCmdlist = some (false, q)) :
    (p.phase ≠ T.PHASE_READY → q = p) ∧
    (p.phase = T.PHASE_READY →
      q = { p with startTime := T.time p.timeReads, timeReads := p.timeReads + 1
                   phase := T.PHASE_PLACING }) := by
  obtain ⟨h1, h2⟩ := atExit_returns_false T _ updateCmdlist q h
  rw [h2]
  exact put_piece_steps_false T hT p s updateCmdlist h1

set_option maxRecDepth 100000 in
theorem put_piece_failure_unchanged_witness :
    put_piece typesExample (freshPosition ruleExample) 0 false =
      some (false, (put_piece_steps typesExample (freshPosition ruleExample) 0 false).2) ∧
    (put_piece_steps typesExample (freshPosition ruleExample) 0 false).2 =
      { freshPosition ruleExample with
        startTime := typesExample.time (freshPosition ruleExample).timeReads
        timeReads := (freshPosition ruleExample).timeReads + 1
        phase := typesExample.PHASE_PLACING } :=
  ⟨by rfl,
    (put_piece_failure_unchanged typesExample (by constructor <;> rfl)
      (freshPosition ruleExample) 0 false (by decide)
      (put_piece_steps typesExample (freshPosition ruleExample) 0 false).2
      (by rfl)).2 (by rfl)⟩

set_option maxRecDepth 100000 in
theorem millTable_noObliqueLine_wellFormed :
    WellFormedMillTable millTable_noObliqueLine 16 := by
  unfold WellFormedMillTable
  refine ⟨by decide, by decide, by decide, by decide, by decide, ?_, by decide⟩
  intro s hs l hl
  interval_cases s <;> interval_cases l <;> decide

set_option maxRecDepth 100000 in
theorem millTable_hasObliqueLines_wellFormed :
    WellFormedMillTable millTable_hasObliqueLines 20 := by
  unfold WellFormedMillTable
  refine ⟨by decide, by decide, by decide, by decide, by decide, ?_, by decide⟩
  intro s hs l hl
  interval_cases s <;> interval_cases l <;> decide

/-- C33: both tables that `create_mill_table` installs are well formed: the rows of the
off-board squares (below 8, from 32 on, the squares `onBoard` leaves unmarked) are all zero,
every non-zero entry is an on-board square 8..31, mill membership is symmetric, and the
table holds exactly 16 distinct mills without oblique lines and exactly 20 with them. -/
theorem create_mill_table_well_formed (p : Position) :
    WellFormedMillTable (create_mill_table p).millTable
      (if p.rule.hasObliqueLines then 20 else 16) ∧
    (∀ s l k, millAt (create_mill_table p) s l k =
      (((create_mill_table p).millTable.getD s []).getD l []).getD k 0) ∧
    (create_mill_table p).millTable =
      (if p.rule.hasObliqueLines then millTable_hasObliqueLines
        else millTable_noObliqueLine) := by
  refine ⟨?_, fun _ _ _ => rfl, rfl⟩
  cases h : p.rule.hasObliqueLines
  · have ht : (create_mill_table p).millTable = millTable_noObliqueLine := by
      simp [create_mill_table, h]
    rw [ht]
    exact millTable_noObliqueLine_wellFormed
  · have ht : (create_mill_table p).millTable = millTable_hasObliqueLines := by
      simp [create_mill_table, h]
    rw [ht]
    exact millTable_hasObliqueLines_wellFormed

/-! ### Auxiliary facts: the bytes of a mill entry, the encoding of a move -/

theorem testBit_high (a n : Nat) (ha : a < 2 ^ n) (j : Nat) (hj : n ≤ j) :
    a.testBit j = false :=
  Nat.testBit_lt_two_pow (lt_of_lt_of_le ha (Nat.pow_le_pow_right (by norm_num) hj))

theorem testBit_mask0 (i : Nat) : Nat.testBit 0x00000000000000ff i = decide (i < 8) := by
  by_cases hi : i < 64
  · interval_cases i <;> decide
  · rw [testBit_high 0xff 8 (by norm_num) i (by omega)]
    simp; omega

theorem testBit_mask1 (i : Nat) :
    Nat.testBit 0x0000000000ff0000 i = decide (16 ≤ i ∧ i < 24) := by
  by_cases hi : i < 64
  · interval_cases i <;> decide
  · rw [testBit_high 0xff0000 24 (by norm_num) i (by omega)]
    simp; omega

theorem testBit_mask2 (i : Nat) :
    Nat.testBit 0x000000ff00000000 i = decide (32 ≤ i ∧ i < 40) := by
  by_cases hi : i < 64
  · interval_cases i <;> decide
  · rw [testBit_high 0xff00000000 40 (by norm_num) i (by omega)]
    simp; omega

theorem testBit_maskRest (i : Nat) :
    Nat.testBit 0xffffff00ff00ff00 i =
      decide (i < 64 ∧ ¬ i < 8 ∧ ¬ (16 ≤ i ∧ i < 24) ∧ ¬ (32 ≤ i ∧ i < 40)) := by
  by_cases hi : i < 64
  · interval_cases i <;> decide
  · rw [testBit_high 0xffffff00ff00ff00 64 (by norm_num) i (by omega)]
    simp; omega

theorem mill_put_back (x : Nat) (hx : x < 2 ^ 64) :
    (x &&& 0xffffff00ff00ff00) |||
      ((((x &&& 0x000000ff00000000) >>> 32) <<< 32) |||
        (((x &&& 0x0000000000ff0000) >>> 16) <<< 16) ||| (x &&& 0x00000000000000ff)) = x := by
  apply Nat.eq_of_testBit_eq
  intro i
  simp only [Nat.testBit_or, Nat.testBit_and, Nat.testBit_shiftLeft, Nat.testBit_shiftRight,
    testBit_mask0, testBit_mask1, testBit_mask2, testBit_maskRest]
  by_cases hi : i < 64
  · interval_cases i <;> simp
  · have hxi := testBit_high x 64 hx
    have e32 : 32 + (i - 32) = i := by omega
    have e16 : 16 + (i - 16) = i := by omega
    have h8 : ¬ i < 8 := by omega
    simp [hxi i (by omega), e32, e16, h8, hi]

theorem mill_bytes (x a b c : Nat) (ha : a < 2 ^ 8) (hb : b < 2 ^ 8) (hc : c < 2 ^ 8) :
    ((((x &&& 0xffffff00ff00ff00) ||| ((a <<< 32) ||| (b <<< 16) ||| c)) &&&
        0x000000ff00000000) >>> 32 = a) ∧
    ((((x &&& 0xffffff00ff00ff00) ||| ((a <<< 32) ||| (b <<< 16) ||| c)) &&&
        0x0000000000ff0000) >>> 16 = b) ∧
    (((x &&& 0xffffff00ff00ff00) ||| ((a <<< 32) ||| (b <<< 16) ||| c)) &&&
        0x00000000000000ff = c) ∧
    (((x &&& 0xffffff00ff00ff00) ||| ((a <<< 32) ||| (b <<< 16) ||| c)) &&&
        0xffffff00ff00ff00 = x &&& 0xffffff00ff00ff00) := by
  have ha' := testBit_high a 8 ha
  have hb' := testBit_high b 8 hb
  have hc' := testBit_high c 8 hc
  refine ⟨?_, ?_, ?_, ?_⟩
  all_goals
    apply Nat.eq_of_testBit_eq
    intro i
    simp only [Nat.testBit_or, Nat.testBit_and, Nat.testBit_shiftLeft,
      Nat.testBit_shiftRight, testBit_mask0, testBit_mask1, testBit_mask2, testBit_maskRest]
    by_cases hi : i < 64
    · interval_cases i <;> simp [ha', hb', hc']
    · have h40 : ¬ 32 + i < 40 := by omega
      have h24 : ¬ 16 + i < 24 := by omega
      have h8 : ¬ i < 8 := by omega
      simp [ha' i (by omega), hb' i (by omega), hc' i (by omega), ha' (i - 32) (by omega),
        hb' (i - 16) (by omega), h40, h24, h8, hi]

theorem mill_byte_lt (x : Nat) :
    (x &&& 0x000000ff00000000) >>> 32 < 2 ^ 8 ∧ (x &&& 0x0000000000ff0000) >>> 16 < 2 ^ 8 ∧
    x &&& 0x00000000000000ff < 2 ^ 8 := by
  refine ⟨?_, ?_, ?_⟩
  all_goals
    apply Nat.lt_pow_two_of_testBit
    intro i hi
    simp only [Nat.testBit_and, Nat.testBit_shiftRight, testBit_mask0, testBit_mask1,
      testBit_mask2]
    have h40 : ¬ 32 + i < 40 := by omega
    have h24 : ¬ 16 + i < 24 := by omega
    have h8 : ¬ i < 8 := by omega
    simp [h40, h24, h8]

theorem mapMill_mapMill (g h : Nat → Nat) (x : Nat) (hx : x < 2 ^ 64)
    (hg : ∀ s, s < 2 ^ 8 → g s < 2 ^ 8) (hgh : ∀ s, s < 2 ^ 8 → h (g s) = s) :
    mapMill h (mapMill g x) = x := by
  obtain ⟨ha, hb, hc⟩ := mill_byte_lt x
  obtain ⟨e0, e1, e2, e3⟩ := mill_bytes x _ _ _ (hg _ ha) (hg _ hb) (hg _ hc)
  unfold mapMill
  dsimp only
  rw [e0, e1, e2, e3, hgh _ ha, hgh _ hb, hgh _ hc]
  exact mill_put_back x hx

theorem move_parts (a b : Nat) (hb : b < 2 ^ 8) :
    ((((a <<< 8) ||| b : Nat) : Int) / 256).toNat = a ∧
    (((a <<< 8) ||| b : Nat) : Int).toNat &&& 0x00ff = b := by
  have e : (a <<< 8) ||| b = a * 256 + b := by
    rw [Nat.shiftLeft_eq, Nat.mul_comm a (2 ^ 8), ← Nat.mul_add_lt_is_or hb a]
  have hm : ∀ x : Nat, x &&& 0x00ff = x % 256 := fun x => Nat.and_pow_two_sub_one_eq_mod x 8
  rw [e, hm]
  have hb' : b < 256 := hb
  constructor
  · omega
  · simp only [Int.toNat_ofNat]
    omega

theorem move_whole (m : Int) (hm : 0 ≤ m) :
    ((((m / 256).toNat <<< 8) ||| (m.toNat &&& 0x00ff) : Nat) : Int) = m := by
  have hmask : ∀ x : Nat, x &&& 0x00ff = x % 256 :=
    fun x => Nat.and_pow_two_sub_one_eq_mod x 8
  have hlt : m.toNat % 256 < 2 ^ 8 := Nat.mod_lt _ (by norm_num)
  rw [hmask, Nat.shiftLeft_eq, Nat.mul_comm _ (2 ^ 8), ← Nat.mul_add_lt_is_or hlt]
  omega

theorem mapMove_mapMove (T : Types) (g h : Nat → Nat) (m : Int)
    (hfrom : ∀ x : Int, 0 ≤ x → T.from_sq x = (x / 256).toNat)
    (hto : ∀ x : Int, 0 ≤ x → T.to_sq x = x.toNat &&& 0x00ff)
    (hg : ∀ s, s < 2 ^ 8 → g s < 2 ^ 8) (hpos : ∀ s, s ≠ 0 → g s ≠ 0)
    (hgh : ∀ s, h (g s) = s) :
    mapMove T h (mapMove T g m) = m := by
  by_cases hneg : m < 0
  · have h1 : mapMove T g m = -((g (-m).toNat : Nat) : Int) := by
      unfold mapMove
      rw [if_pos hneg]
    have h2 : g (-m).toNat ≠ 0 := hpos _ (by omega)
    have h3 : -((g (-m).toNat : Nat) : Int) < 0 := by omega
    have e1 : (-(-((g (-m).toNat : Nat) : Int))).toNat = g (-m).toNat := by
      rw [neg_neg]
      exact Int.toNat_ofNat _
    rw [h1]
    unfold mapMove
    rw [if_pos h3, e1, hgh]
    rw [Int.toNat_of_nonneg (by omega), neg_neg]
  · have hm : 0 ≤ m := not_lt.mp hneg
    have hlt : (m.toNat &&& 0x00ff) < 2 ^ 8 := by
      have hmask : m.toNat &&& 0x00ff = m.toNat % 256 :=
        Nat.and_pow_two_sub_one_eq_mod m.toNat 8
      rw [hmask]
      omega
    have h1 : mapMove T g m =
        (((g (m / 256).toNat <<< 8) ||| g (m.toNat &&& 0x00ff) : Nat) : Int) := by
      unfold mapMove
      rw [if_neg hneg, hfrom m hm, hto m hm]
    obtain ⟨p1, p2⟩ := move_parts (g (m / 256).toNat) (g (m.toNat &&& 0x00ff)) (hg _ hlt)
    have h3 : ¬ (((g (m / 256).toNat <<< 8) ||| g (m.toNat &&& 0x00ff) : Nat) : Int) < 0 := by
      omega
    rw [h1]
    unfold mapMove
    rw [if_neg h3, hfrom _ (not_lt.mp h3), hto _ (not_lt.mp h3)]
    dsimp only
    rw [p1, p2, hgh, hgh]
    exact move_whole m hm

/-! ### `mirror` -/

theorem mirrorSquare_eq (T : Types) (hR : T.RANK_NB = 8) (s : Nat) :
    mirrorSquare T s = s / 8 * 8 + (8 - s % 8) % 8 := by
  simp only [mirrorSquare, hR]

theorem mirrorSquare_mirrorSquare (T : Types) (hR : T.RANK_NB = 8) (s : Nat) :
    mirrorSquare T (mirrorSquare T s) = s := by
  rw [mirrorSquare_eq T hR, mirrorSquare_eq T hR]
  omega

theorem mirrorSquare_lt (T : Types) (hR : T.RANK_NB = 8) (s n : Nat) (h : s < 8 * n) :
    mirrorSquare T s < 8 * n := by
  rw [mirrorSquare_eq T hR]
  omega

theorem mirrorSquare_pos (T : Types) (hR : T.RANK_NB = 8) (s : Nat) (h : s ≠ 0) :
    mirrorSquare T s ≠ 0 := by
  rw [mirrorSquare_eq T hR]
  omega

theorem swapSquares_length (b : List Nat) (i j : Nat) :
    (swapSquares b i j).length = b.length := by
  simp [swapSquares]

theorem swapSquares_getD (b : List Nat) (i j s : Nat) :
    (swapSquares b i j).getD s 0 =
      if s = j ∧ j < b.length then b.getD i 0
      else if s = i ∧ i < b.length then b.getD j 0 else b.getD s 0 := by
  unfold swapSquares
  dsimp only
  rw [getD_set, getD_set, List.length_set]

theorem list_ext_getD (a b : List Nat) (hl : a.length = b.length)
    (h : ∀ s, s < a.length → a.getD s 0 = b.getD s 0) : a = b := by
  apply List.ext_getElem hl
  intro n h1 h2
  have e := h n h1
  rwa [List.getD_eq_getElem _ _ h1, List.getD_eq_getElem _ _ h2] at e

theorem mirrorBoard_eq (T : Types) (hR : T.RANK_NB = 8) (hF : T.FILE_NB = 3)
    (b : List Nat) :
    mirrorBoard T b =
      swapSquares (swapSquares (swapSquares (swapSquares (swapSquares (swapSquares
        (swapSquares (swapSquares (swapSquares b 9 15) 10 14) 11 13) 17 23) 18 22) 19 21)
        25 31) 26 30) 27 29 := by
  have e1 : List.range' 1 3 = [1, 2, 3] := by decide
  unfold mirrorBoard
  rw [hR, hF, e1]
  simp only [List.foldl_cons, List.foldl_nil]

theorem mirrorBoard_length (T : Types) (hR : T.RANK_NB = 8) (hF : T.FILE_NB = 3)
    (b : List Nat) : (mirrorBoard T b).length = b.length := by
  rw [mirrorBoard_eq T hR hF]
  simp only [swapSquares_length]

theorem mirrorBoard_getD (T : Types) (hR : T.RANK_NB = 8) (hF : T.FILE_NB = 3)
    (b : List Nat) (hb : b.length = 40) (s : Nat) (hs : s < 40) :
    (mirrorBoard T b).getD s 0 =
      b.getD (if 8 ≤ s ∧ s < 32 then mirrorSquare T s else s) 0 := by
  rw [mirrorBoard_eq T hR hF]
  simp only [mirrorSquare_eq T hR, swapSquares_getD, swapSquares_length, hb]
  interval_cases s <;> simp

theorem mirrorBoard_mirrorBoard (T : Types) (hR : T.RANK_NB = 8) (hF : T.FILE_NB = 3)
    (b : List Nat) (hb : b.length = 40) : mirrorBoard T (mirrorBoard T b) = b := by
  have hl : (mirrorBoard T b).length = 40 := by rw [mirrorBoard_length T hR hF, hb]
  apply list_ext_getD
  · rw [mirrorBoard_length T hR hF, hl, hb]
  · intro s hs
    rw [mirrorBoard_length T hR hF, hl] at hs
    rw [mirrorBoard_getD T hR hF _ hl s hs]
    by_cases hon : 8 ≤ s ∧ s < 32
    · rw [if_pos hon]
      have h1 : mirrorSquare T s < 8 * 4 := mirrorSquare_lt T hR s 4 (by omega)
      have h2 : 8 ≤ mirrorSquare T s := by
        rw [mirrorSquare_eq T hR]
        omega
      rw [mirrorBoard_getD T hR hF b hb _ (by omega), if_pos ⟨h2, by omega⟩,
        mirrorSquare_mirrorSquare T hR]
    · rw [if_neg hon, mirrorBoard_getD T hR hF b hb s hs, if_neg hon]

theorem countUpTo_eq_sum (P : Nat → Bool) (n : Nat) :
    countUpTo P n = Finset.sum (Finset.range n) (fun i => if P i then 1 else 0) := by
  induction n with
  | zero => rfl
  | succ k ih => rw [countUpTo, ih, Finset.sum_range_succ]

theorem countUpTo_perm (P Q : Nat → Bool) (n : Nat) (σ : Nat → Nat)
    (hσ : ∀ i, i < n → σ i < n) (hinv : ∀ i, i < n → σ (σ i) = i)
    (h : ∀ i, i < n → P i = Q (σ i)) : countUpTo P n = countUpTo Q n := by
  rw [countUpTo_eq_sum, countUpTo_eq_sum]
  apply Finset.sum_nbij' σ σ
  · intro a ha
    exact Finset.mem_range.mpr (hσ a (Finset.mem_range.mp ha))
  · intro a ha
    exact Finset.mem_range.mpr (hσ a (Finset.mem_range.mp ha))
  · intro a ha
    exact hinv a (Finset.mem_range.mp ha)
  · intro a ha
    exact hinv a (Finset.mem_range.mp ha)
  · intro a ha
    rw [h a (Finset.mem_range.mp ha)]

theorem mirror_fields (T : Types) (p : Position) (c : Bool) :
    mirror T p c =
      { p with
        board := mirrorBoard T p.board
        move := mapMove T (mirrorSquare T) p.move
        currentSquare :=
          if p.currentSquare ≠ 0 then mirrorSquare T p.currentSquare else p.currentSquare
        millList :=
          if p.rule.allowRemovePiecesRepeatedlyWhenCloseSameMill then
            p.millList.map (mapMill (mirrorSquare T))
          else p.millList } := by
  unfold mirror
  dsimp only
  split_ifs <;> rfl

theorem mirror_stones (T : Types) (hR : T.RANK_NB = 8) (hF : T.FILE_NB = 3)
    (hN : T.SQUARE_NB = 40) (p : Position) (hb : p.board.length = 40) (cmd : Bool)
    (c : Nat) : stonesOnBoard T (mirror T p cmd) c = stonesOnBoard T p c := by
  unfold stonesOnBoard
  rw [hN]
  apply countUpTo_perm _ _ 40 (fun s => if 8 ≤ s ∧ s < 32 then mirrorSquare T s else s)
  · intro i hi
    rw [mirrorSquare_eq T hR]
    split_ifs <;> omega
  · intro i hi
    by_cases hon : 8 ≤ i ∧ i < 32
    · have h1 : mirrorSquare T i < 8 * 4 := mirrorSquare_lt T hR i 4 (by omega)
      have h2 : 8 ≤ mirrorSquare T i := by
        rw [mirrorSquare_eq T hR]
        omega
      rw [if_pos hon, if_pos ⟨h2, by omega⟩, mirrorSquare_mirrorSquare T hR]
    · rw [if_neg hon, if_neg hon]
  · intro i hi
    dsimp only
    have e : (mirror T p cmd).board = mirrorBoard T p.board := by rw [mirror_fields]
    unfold color_on
    rw [e, mirrorBoard_getD T hR hF p.board hb i hi]

theorem map_map_self (g h : Nat → Nat) (l : List Nat) (hgh : ∀ m ∈ l, h (g m) = m) :
    (l.map g).map h = l := by
  induction l with
  | nil => rfl
  | cons a t ih =>
    rw [List.map_cons, List.map_cons, hgh a (List.mem_cons_self a t),
      ih (fun m hm => hgh m (List.mem_cons_of_mem a hm))]

/-- C31: for the standard values of the header constants and the move encoding of the
headers (`from_sq` the bits above the low byte, `to_sq` the low byte), on a board array of
`SQUARE_NB` squares and 64-bit mill entries, `mirror(false)` applied twice gives back the
position, so the board, the recorded move, `currentSquare` and `millList` are restored; a
single `mirror` carries the piece of every square `s` of 8..31 to the square of the same
ring with rank index `(RANK_NB - r) mod RANK_NB`, leaves the other entries of the board
array alone, and keeps the number of stones of every colour. -/
theorem mirror_involution (T : Types) (hT : T.Standard)
    (hfrom : ∀ m : Int, 0 ≤ m → T.from_sq m = (m / 256).toNat)
    (hto : ∀ m : Int, 0 ≤ m → T.to_sq m = m.toNat &&& 0x00ff)
    (p : Position) (hboard : p.board.length = T.SQUARE_NB)
    (hmill : ∀ m ∈ p.millList, m < 2 ^ 64) :
    mirror T (mirror T p false) false = p ∧
    (∀ s, 8 ≤ s → s < 32 →
      mirrorSquare T s / T.RANK_NB = s / T.RANK_NB ∧
      mirrorSquare T s % T.RANK_NB = (T.RANK_NB - s % T.RANK_NB) % T.RANK_NB ∧
      (mirror T p false).board.getD (mirrorSquare T s) 0 = p.board.getD s 0) ∧
    (∀ s, s < 8 ∨ 32 ≤ s → (mirror T p false).board.getD s 0 = p.board.getD s 0) ∧
    (∀ c, stonesOnBoard T (mirror T p false) c = stonesOnBoard T p c) := by
  have hR := hT.rankNb
  have hF := hT.fileNb
  have hN := hT.squareNb
  have hb : p.board.length = 40 := by rw [hboard, hN]
  have hbd : (mirror T p false).board = mirrorBoard T p.board := by rw [mirror_fields]
  refine ⟨?_, ?_, ?_, fun c => mirror_stones T hR hF hN p hb false c⟩
  · have h1 : mirrorBoard T (mirrorBoard T p.board) = p.board :=
      mirrorBoard_mirrorBoard T hR hF p.board hb
    have h2 : mapMove T (mirrorSquare T) (mapMove T (mirrorSquare T) p.move) = p.move :=
      mapMove_mapMove T (mirrorSquare T) (mirrorSquare T) p.move hfrom hto
        (fun s hs => by
          have := mirrorSquare_lt T hR s 32 (by omega)
          omega)
        (mirrorSquare_pos T hR) (mirrorSquare_mirrorSquare T hR)
    have h3 : (if (if p.currentSquare ≠ 0 then mirrorSquare T p.currentSquare
          else p.currentSquare) ≠ 0 then
          mirrorSquare T (if p.currentSquare ≠ 0 then mirrorSquare T p.currentSquare
            else p.currentSquare)
        else (if p.currentSquare ≠ 0 then mirrorSquare T p.currentSquare
          else p.currentSquare)) = p.currentSquare := by
      by_cases hc : p.currentSquare ≠ 0
      · rw [if_pos hc, if_pos (mirrorSquare_pos T hR _ hc), mirrorSquare_mirrorSquare T hR]
      · rw [if_neg hc, if_neg hc]
    have h4 : (if p.rule.allowRemovePiecesRepeatedlyWhenCloseSameMill then
          (if p.rule.allowRemovePiecesRepeatedlyWhenCloseSameMill then
            p.millList.map (mapMill (mirrorSquare T))
          else p.millList).map (mapMill (mirrorSquare T))
        else (if p.rule.allowRemovePiecesRepeatedlyWhenCloseSameMill then
            p.millList.map (mapMill (mirrorSquare T))
          else p.millList)) = p.millList := by
      by_cases hf : p.rule.allowRemovePiecesRepeatedlyWhenCloseSameMill = true
      · rw [if_pos hf, if_pos hf]
        apply map_map_self
        intro m hm
        exact mapMill_mapMill _ _ m (hmill m hm)
          (fun s hs => by
            have := mirrorSquare_lt T hR s 32 (by omega)
            omega)
          (fun s _ => mirrorSquare_mirrorSquare T hR s)
      · rw [if_neg hf, if_neg hf]
    rw [mirror_fields, mirror_fields]
    dsimp only
    rw [h1, h2, h3, h4]
  · intro s h8 h32
    have hlt : mirrorSquare T s < 8 * 4 := mirrorSquare_lt T hR s 4 (by omega)
    have hge : 8 ≤ mirrorSquare T s := by
      rw [mirrorSquare_eq T hR]
      omega
    refine ⟨?_, ?_, ?_⟩
    · rw [mirrorSquare_eq T hR, hR]
      omega
    · rw [mirrorSquare_eq T hR, hR]
      omega
    · rw [hbd, mirrorBoard_getD T hR hF p.board hb _ (by omega), if_pos ⟨hge, by omega⟩,
        mirrorSquare_mirrorSquare T hR]
  · intro s hs
    rw [hbd]
    by_cases h40 : s < 40
    · rw [mirrorBoard_getD T hR hF p.board hb s h40, if_neg (by omega)]
    · have hl := mirrorBoard_length T hR hF p.board
      rw [List.getD_eq_default _ _ (by omega), List.getD_eq_default _ _ (by omega)]

set_option maxRecDepth 100000 in
theorem mirror_involution_witness :
    whiteMillPosition.board.length = typesExample.SQUARE_NB ∧
    (∀ m ∈ whiteMillPosition.millList, m < 2 ^ 64) ∧
    mirror typesExample (mirror typesExample whiteMillPosition false) false =
      whiteMillPosition ∧
    whiteMillPosition.move = 19 ∧
    (mirror typesExample whiteMillPosition false).move = 21 ∧
    (mirror typesExample whiteMillPosition false).board.getD 21 0 =
      whiteMillPosition.board.getD 19 0 ∧
    stonesOnBoard typesExample (mirror typesExample whiteMillPosition false) 2 =
      stonesOnBoard typesExample whiteMillPosition 2 :=
  have h := mirror_involution typesExample (by constructor <;> rfl) (fun _ _ => rfl)
    (fun m hm => by
      show (if m < 0 then (-m).toNat else m.toNat) &&& 0x00ff = m.toNat &&& 0x00ff
      rw [if_neg (not_lt.mpr hm)])
    whiteMillPosition (by decide) (by decide)
  ⟨by decide, by decide, h.1, by decide, by decide,
    (h.2.1 19 (by decide) (by decide)).2.2, h.2.2.2 2⟩

/-! ### `rotate` -/

theorem tmod_360 (d : Int) :
    (if d.tmod 360 < 0 then d.tmod 360 + 360 else d.tmod 360) = d % 360 := by
  by_cases h : 0 ≤ d
  · rw [Int.tmod_eq_emod h (by norm_num)]
    have := Int.emod_nonneg d (show (360 : Int) ≠ 0 by norm_num)
    rw [if_neg (by omega)]
  · have h2 : (-d).tdiv 360 = (-d) / 360 := Int.tdiv_eq_ediv (by omega) (by norm_num)
    have h1 : d.tdiv 360 = -((-d) / 360) := by
      have h3 := Int.neg_tdiv (-d) 360
      rw [neg_neg] at h3
      rw [h3, h2]
    rw [Int.tmod_def, h1]
    split_ifs <;> omega

theorem rotate_other_degrees (T : Types) (p : Position) (d : Int) (c : Bool)
    (h : d % 360 ≠ 90 ∧ d % 360 ≠ 180 ∧ d % 360 ≠ 270) : rotate T p d c = p := by
  unfold rotate
  dsimp only
  rw [tmod_360]
  have h0 : 0 ≤ d % 360 := Int.emod_nonneg d (by norm_num)
  have h1 : d % 360 < 360 := Int.emod_lt_of_pos d (by norm_num)
  rw [Int.tmod_eq_emod h0 (by norm_num)]
  by_cases hq : d % 360 = 0 ∨ d % 360 % 90 ≠ 0
  · rw [if_pos hq]
  · exfalso
    omega

theorem rotate_quarter (T : Types) (p : Position) (d : Int) (c : Bool) (k : Nat)
    (hk : (k = 2 ∧ d % 360 = 90) ∨ (k = 4 ∧ d % 360 = 180) ∨ (k = 6 ∧ d % 360 = 270)) :
    rotate T p d c =
      { p with
        board :=
          if k = 2 then rotateBoard2 T p.board
          else if k = 6 then rotateBoard6 T p.board else rotateBoard4 T p.board
        move := mapMove T (rotateSquare T k) p.move
        currentSquare :=
          if p.currentSquare ≠ 0 then rotateSquare T k p.currentSquare else p.currentSquare
        millList :=
          if p.rule.allowRemovePiecesRepeatedlyWhenCloseSameMill then
            p.millList.map (mapMill (rotateSquare T k))
          else p.millList } := by
  unfold rotate
  dsimp only
  rw [tmod_360]
  rcases hk with ⟨rfl, hd⟩ | ⟨rfl, hd⟩ | ⟨rfl, hd⟩
  · rw [hd, if_neg (by decide)]
    simp only [show Int.tdiv 90 45 = 2 from rfl, if_true, Int.toNat_ofNat]
    split_ifs <;> rfl
  · rw [hd, if_neg (by decide)]
    simp only [show Int.tdiv 180 45 = 4 from rfl, show ¬ ((4 : Int) = 2) by decide,
      show ¬ ((4 : Int) = 6) by decide, show ¬ ((4 : Nat) = 2) by decide,
      show ¬ ((4 : Nat) = 6) by decide, if_true, if_false, Int.toNat_ofNat]
    split_ifs <;> rfl
  · rw [hd, if_neg (by decide)]
    simp only [show Int.tdiv 270 45 = 6 from rfl, show ¬ ((6 : Int) = 2) by decide,
      show ¬ ((6 : Nat) = 2) by decide, if_true, if_false, Int.toNat_ofNat]
    split_ifs <;> rfl

theorem rotateSquare_eq (T : Types) (hR : T.RANK_NB = 8) (k s : Nat) :
    rotateSquare T k s = s / 8 * 8 + (s % 8 + 8 - k) % 8 := by
  simp only [rotateSquare, hR]

theorem rotateBoard2_getD (T : Types) (hR : T.RANK_NB = 8) (hF : T.FILE_NB = 3)
    (b : List Nat) (hb : b.length = 40) (s : Nat) (hs : s < 40) :
    (rotateBoard2 T b).getD s 0 =
      b.getD (if 8 ≤ s ∧ s < 32 then s / 8 * 8 + (s % 8 + 2) % 8 else s) 0 := by
  have e1 : List.range' 1 3 = [1, 2, 3] := by decide
  have e2 : List.range (8 - 2) = [0, 1, 2, 3, 4, 5] := by decide
  unfold rotateBoard2
  rw [hR, hF, e1, e2]
  simp only [List.foldl_cons, List.foldl_nil, getD_set, List.length_set, hb, Nat.reduceAdd,
    Nat.reduceMul, Nat.reduceEqDiff, Nat.reduceLT, and_true, and_false, if_true, if_false,
    reduceIte]
  interval_cases s <;> simp

theorem rotateBoard6_getD (T : Types) (hR : T.RANK_NB = 8) (hF : T.FILE_NB = 3)
    (b : List Nat) (hb : b.length = 40) (s : Nat) (hs : s < 40) :
    (rotateBoard6 T b).getD s 0 =
      b.getD (if 8 ≤ s ∧ s < 32 then s / 8 * 8 + (s % 8 + 6) % 8 else s) 0 := by
  have e1 : List.range' 1 3 = [1, 2, 3] := by decide
  have e2 : (List.range' 2 (8 - 2)).reverse = [7, 6, 5, 4, 3, 2] := by decide
  unfold rotateBoard6
  rw [hR, hF, e1, e2]
  simp only [List.foldl_cons, List.foldl_nil, getD_set, List.length_set, hb, Nat.reduceAdd,
    Nat.reduceMul, Nat.reduceSub, Nat.reduceEqDiff, Nat.reduceLT, and_true, and_false,
    if_true, if_false, reduceIte]
  interval_cases s <;> simp

theorem rotateBoard4_getD (T : Types) (hR : T.RANK_NB = 8) (hF : T.FILE_NB = 3)
    (b : List Nat) (hb : b.length = 40) (s : Nat) (hs : s < 40) :
    (rotateBoard4 T b).getD s 0 =
      b.getD (if 8 ≤ s ∧ s < 32 then s / 8 * 8 + (s % 8 + 4) % 8 else s) 0 := by
  have e1 : List.range' 1 3 = [1, 2, 3] := by decide
  have e2 : List.range (8 / 2) = [0, 1, 2, 3] := by decide
  unfold rotateBoard4
  rw [hR, hF, e1, e2]
  simp only [List.foldl_cons, List.foldl_nil, swapSquares_getD, swapSquares_length, hb,
    Nat.reduceAdd, Nat.reduceMul, Nat.reduceEqDiff, Nat.reduceLT, and_true, and_false,
    if_true, if_false, reduceIte]
  interval_cases s <;> simp

theorem rotateBoard_length (T : Types) (b : List Nat) :
    (rotateBoard2 T b).length = b.length ∧ (rotateBoard4 T b).length = b.length ∧
    (rotateBoard6 T b).length = b.length := by
  have h : ∀ (α : Type) (l : List α) (g : List Nat → α → List Nat) (b : List Nat),
      (∀ c a, (g c a).length = c.length) → (l.foldl g b).length = b.length := by
    intro α l g
    induction l with
    | nil => intro b _; rfl
    | cons a t ih =>
      intro b hg
      rw [List.foldl_cons, ih (g b a) hg, hg]
  refine ⟨?_, ?_, ?_⟩
  · unfold rotateBoard2
    apply h
    intro c a
    dsimp only
    rw [List.length_set, List.length_set, h]
    intro c2 a2
    rw [List.length_set]
  · unfold rotateBoard4
    apply h
    intro c a
    apply h
    intro c2 a2
    rw [swapSquares_length]
  · unfold rotateBoard6
    apply h
    intro c a
    dsimp only
    rw [List.length_set, List.length_set, h]
    intro c2 a2
    rw [List.length_set]

theorem mapMove_removal (T : Types) (g : Nat → Nat) (s : Nat) (hs : 0 < s) :
    mapMove T g (-(s : Int)) = -((g s : Nat) : Int) := by
  have h : -(s : Int) < 0 := by omega
  unfold mapMove
  rw [if_pos h, neg_neg, Int.toNat_ofNat]

theorem mapMove_nonneg (T : Types) (g : Nat → Nat) (m : Int) (hm : 0 ≤ m)
    (hfrom : ∀ x : Int, 0 ≤ x → T.from_sq x = (x / 256).toNat)
    (hto : ∀ x : Int, 0 ≤ x → T.to_sq x = x.toNat &&& 0x00ff) :
    mapMove T g m = (((g (m / 256).toNat <<< 8) ||| g (m.toNat &&& 0x00ff) : Nat) : Int) := by
  unfold mapMove
  rw [if_neg (not_lt.mpr hm), hfrom m hm, hto m hm]

/-- What `rotate(d, false)` does for `d` congruent to 90, 180 or 270 modulo 360, with
`k = 2, 4, 6` the eighths of a turn, for the standard values of the header constants and
the move encoding of the headers: the piece of every square `s` of 8..31 is carried to
`rotateSquare k s`, a square of 8..31; a removal of `s` becomes the removal of its image; a
movement from `a` to `b` becomes the movement between the images; but a placement on `s`
becomes `((8 - k) << 8) | image of s`, a movement from the off-board square `8 - k`. -/
theorem rotate_effect (T : Types) (hT : T.Standard)
    (hfrom : ∀ m : Int, 0 ≤ m → T.from_sq m = (m / 256).toNat)
    (hto : ∀ m : Int, 0 ≤ m → T.to_sq m = m.toNat &&& 0x00ff)
    (p : Position) (hboard : p.board.length = T.SQUARE_NB) (d : Int) (k : Nat)
    (hk : (k = 2 ∧ d % 360 = 90) ∨ (k = 4 ∧ d % 360 = 180) ∨ (k = 6 ∧ d % 360 = 270)) :
    (∀ s : Nat, 8 ≤ s → s < 32 →
      8 ≤ rotateSquare T k s ∧ rotateSquare T k s < 32 ∧
      (rotate T p d false).board.getD (rotateSquare T k s) 0 = p.board.getD s 0) ∧
    (∀ s : Nat, 8 ≤ s → s < 32 → p.move = -(s : Int) →
      (rotate T p d false).move = -((rotateSquare T k s : Nat) : Int)) ∧
    (∀ a b : Nat, 8 ≤ a → a < 32 → 8 ≤ b → b < 32 → p.move = (((a <<< 8) ||| b : Nat) : Int) →
      (rotate T p d false).move =
        (((rotateSquare T k a <<< 8) ||| rotateSquare T k b : Nat) : Int)) ∧
    (∀ s : Nat, 8 ≤ s → s < 32 → p.move = (s : Int) →
      (rotate T p d false).move =
        ((((8 - k) <<< 8) ||| rotateSquare T k s : Nat) : Int)) := by
  have hR := hT.rankNb
  have hF := hT.fileNb
  have hb : p.board.length = 40 := by rw [hboard, hT.squareNb]
  have hq := rotate_quarter T p d false k hk
  have hk' : k = 2 ∨ k = 4 ∨ k = 6 := by
    rcases hk with ⟨h, _⟩ | ⟨h, _⟩ | ⟨h, _⟩
    · exact Or.inl h
    · exact Or.inr (Or.inl h)
    · exact Or.inr (Or.inr h)
  have hmv : (rotate T p d false).move = mapMove T (rotateSquare T k) p.move := by rw [hq]
  have hbd : (rotate T p d false).board =
      (if k = 2 then rotateBoard2 T p.board
        else if k = 6 then rotateBoard6 T p.board else rotateBoard4 T p.board) := by rw [hq]
  refine ⟨?_, ?_, ?_, ?_⟩
  · intro s h8 h32
    have e := rotateSquare_eq T hR k s
    have hge : 8 ≤ rotateSquare T k s := by omega
    have hlt : rotateSquare T k s < 32 := by omega
    refine ⟨hge, hlt, ?_⟩
    rw [hbd]
    rcases hk' with rfl | rfl | rfl
    · rw [if_pos rfl, rotateBoard2_getD T hR hF _ hb _ (by omega), if_pos ⟨hge, hlt⟩]
      congr 1
      omega
    · rw [if_neg (by decide), if_neg (by decide),
        rotateBoard4_getD T hR hF _ hb _ (by omega), if_pos ⟨hge, hlt⟩]
      congr 1
      omega
    · rw [if_neg (by decide), if_pos rfl, rotateBoard6_getD T hR hF _ hb _ (by omega),
        if_pos ⟨hge, hlt⟩]
      congr 1
      omega
  · intro s h8 _ hm
    rw [hmv, hm, mapMove_removal T _ s (by omega)]
  · intro a b _ _ _ hb32 hm
    obtain ⟨p1, p2⟩ := move_parts a b (by omega)
    rw [hmv, hm, mapMove_nonneg T _ _ (by omega) hfrom hto, p1, p2]
  · intro s _ h32 hm
    have hmask : s &&& 0x00ff = s % 256 := Nat.and_pow_two_sub_one_eq_mod s 8
    have e0 : (((s : Nat) : Int) / 256).toNat = 0 := by omega
    have e1 : ((s : Nat) : Int).toNat &&& 0x00ff = s := by
      rw [Int.toNat_ofNat, hmask]
      omega
    have e2 : rotateSquare T k 0 = 8 - k := by
      rw [rotateSquare_eq T hR]
      omega
    rw [hmv, hm, mapMove_nonneg T _ _ (by omega) hfrom hto, e0, e1, e2]

set_option maxRecDepth 100000 in
/-- C32: `rotate` does not keep a placement a placement. After black has placed the first
piece on square 9 the recorded move is the placement 9. `rotate(90, false)` carries the
piece to square 15, the image of 9, and `currentSquare` to 15, but the recorded move
becomes `(6 << 8) | 15 = 1551`: the empty origin 0 of the placement is rotated like a
square, to 6, so the move reads as a movement from the off-board square 6 to 15, of type
MOVETYPE_MOVE. The same happens for 180 (origin 4), 270 and -90 (origin 2) degrees. -/
theorem rotate_turns_placement_into_movement :
    firstPlacementPosition.move = 9 ∧
    typesExample.type_of firstPlacementPosition.move = typesExample.MOVETYPE_PLACE ∧
    firstPlacementPosition.board.getD 9 0 = 0x11 ∧
    firstPlacementPosition.currentSquare = 9 ∧
    rotateSquare typesExample 2 9 = 15 ∧
    (rotate typesExample firstPlacementPosition 90 false).board.getD 15 0 = 0x11 ∧
    (rotate typesExample firstPlacementPosition 90 false).board.getD 9 0 = 0 ∧
    (rotate typesExample firstPlacementPosition 90 false).currentSquare = 15 ∧
    (rotate typesExample firstPlacementPosition 90 false).move = 1551 ∧
    (rotate typesExample firstPlacementPosition 90 false).move ≠ 15 ∧
    typesExample.type_of (rotate typesExample firstPlacementPosition 90 false).move =
      typesExample.MOVETYPE_MOVE ∧
    typesExample.from_sq (rotate typesExample firstPlacementPosition 90 false).move = 6 ∧
    typesExample.to_sq (rotate typesExample firstPlacementPosition 90 false).move = 15 ∧
    onBoard.getD 6 0 = 0 ∧
    (rotate typesExample firstPlacementPosition 180 false).move = 1037 ∧
    typesExample.from_sq (rotate typesExample firstPlacementPosition 180 false).move = 4 ∧
    (rotate typesExample firstPlacementPosition 270 false).move = 523 ∧
    typesExample.from_sq (rotate typesExample firstPlacementPosition 270 false).move = 2 ∧
    (rotate typesExample firstPlacementPosition (-90) false).move = 523 ∧
    (mirror typesExample firstPlacementPosition false).move = 15 := by
  decide


end Sanmill
